import Mathlib

/-!
# Digital Gold Certificates — verification development

A shallow embedding of the DGC services (certificate authority, marketplace
escrow engine, reconciliation controller, risk engine, governance gate) and
proofs of the behavioural properties stated about them.

Conventions of the embedding:
* JavaScript strings are Lean `String`s; low-level string manipulation
  (splitting, digit parsing, padding) is carried out on the underlying
  `List Char` so that it can be reasoned about by structural induction.
* `bigint` arithmetic on scaled gold amounts is `Nat`/`Int` arithmetic
  (the scaled values are exact, no overflow is possible in `bigint`).
* Effects (current time, random identifiers, HTTP calls to collaborating
  services) are passed in as explicit arguments; stores are explicit values
  threaded through the handlers.
* SHA-256 and Ed25519 are abstract function parameters gathered in a
  `Crypto` structure; cryptographic soundness/collision-freeness appear as
  hypotheses of the theorems that need them.
-/

set_option maxHeartbeats 1600000

namespace DGC

/-! ## Canonical amount strings

`parseAmountGramScaled` / `formatAmountGram` mirror the TypeScript helpers
of the certificate service (`server.ts`): amounts are decimal strings
matching `^\d+(\.\d{1,4})?$`, interpreted as integers scaled by 10,000. -/

/-- The scale factor for gold gram amounts (`AMOUNT_SCALE = 10000n`). -/
def AMOUNT_SCALE : Nat := 10000

/-- Decimal value of a digit character, as computed by `BigInt(str)`
digit by digit (char code minus 48). -/
def digitVal (c : Char) : Nat := c.toNat - 48

/-- Value of a string of decimal digits (models `BigInt(wholeRaw)` on a
digits-only string). -/
def digitsVal (cs : List Char) : Nat :=
  cs.foldl (fun acc c => acc * 10 + digitVal c) 0

/-- Decimal rendering of a natural number, most significant digit first
(models `BigInt.prototype.toString()` for non-negative values). -/
def natToChars (n : Nat) : List Char :=
  if h : n < 10 then [Nat.digitChar n]
  else natToChars (n / 10) ++ [Nat.digitChar (n % 10)]
  decreasing_by exact Nat.div_lt_self (by omega) (by omega)

/-- Decimal rendering of an integer (models `BigInt.prototype.toString()`). -/
def intToChars (v : Int) : List Char :=
  if v < 0 then '-' :: natToChars v.natAbs else natToChars v.natAbs

/-- `String.prototype.padStart(4, "0")`. -/
def padStart4 (cs : List Char) : List Char :=
  List.replicate (4 - cs.length) '0' ++ cs

/-- `String.prototype.split(sep)` on a single-character separator. -/
def splitOnChar (sep : Char) : List Char → List (List Char)
  | [] => [[]]
  | c :: rest =>
    let r := splitOnChar sep rest
    if c = sep then [] :: r
    else (c :: r.headD []) :: r.tail

/-- The amount grammar `^\d+(\.\d{1,4})?$` (certificate service
`isAmountGram`), decided over the character list. -/
def isAmountGramChars (cs : List Char) : Bool :=
  match splitOnChar '.' cs with
  | [w] => decide (w ≠ []) && w.all Char.isDigit
  | [w, f] =>
    decide (w ≠ []) && w.all Char.isDigit &&
    decide (1 ≤ f.length) && decide (f.length ≤ 4) && f.all Char.isDigit
  | _ => false

/-- `isAmountGram` of the certificate service on `String`s. -/
def isAmountGram (s : String) : Bool := isAmountGramChars s.data

/-- `parseAmountGramScaled` over characters: split on `.`, take the whole
part and the (zero-padded, four-digit-truncated) fraction part. -/
def parseAmountGramScaledChars (cs : List Char) : Nat :=
  let parts := splitOnChar '.' cs
  let whole := parts.headD []
  let fraction := parts.getD 1 []
  digitsVal whole * AMOUNT_SCALE + digitsVal ((fraction ++ ['0', '0', '0', '0']).take 4)

/-- `parseAmountGramScaled` of the certificate service (the reconciliation
service's copy first re-checks the grammar; see `parseAmountGramScaledRecon`). -/
def parseAmountGramScaled (s : String) : Nat := parseAmountGramScaledChars s.data

/-- `formatAmountGram` of the certificate service over a scaled value
(`whole = scaled / 10000n`, `fraction = scaled % 10000n`, fraction padded to
four digits).  The TypeScript takes a `bigint`; every call site passes a
non-negative value, embedded here as `Nat`. -/
def formatAmountGramChars (n : Nat) : List Char :=
  natToChars (n / AMOUNT_SCALE) ++ '.' :: padStart4 (natToChars (n % AMOUNT_SCALE))

/-- `formatAmountGram` of the certificate service on `String`s. -/
def formatAmountGram (n : Nat) : String := ⟨formatAmountGramChars n⟩

/-- `parseAmountGramScaled` of the reconciliation service: re-validates the
grammar (throwing on failure, embedded as `none`) before parsing. -/
def parseAmountGramScaledRecon (s : String) : Option Nat :=
  if isAmountGram s then some (parseAmountGramScaled s) else none

/-- `formatAmountGram` of the reconciliation service: formats the absolute
value and prefixes `-` for negative inputs. -/
def formatAmountGramRecon (v : Int) : String :=
  if v < 0 then ⟨'-' :: formatAmountGramChars v.natAbs⟩
  else ⟨formatAmountGramChars v.natAbs⟩

/-! ### Round-trip facts about the amount helpers -/

theorem digitsVal_append (a b : List Char) :
    digitsVal (a ++ b) = b.foldl (fun acc c => acc * 10 + digitVal c) (digitsVal a) := by
  simp [digitsVal, List.foldl_append]

theorem natToChars_eq_of_lt (n : Nat) (h : n < 10) :
    natToChars n = [Nat.digitChar n] := by
  rw [natToChars]; simp [h]

theorem natToChars_eq_of_ge (n : Nat) (h : ¬ n < 10) :
    natToChars n = natToChars (n / 10) ++ [Nat.digitChar (n % 10)] := by
  rw [natToChars]; simp [h]

theorem digitVal_digitChar (d : Nat) (h : d < 10) :
    digitVal (Nat.digitChar d) = d := by
  interval_cases d <;> rfl

theorem digitsVal_natToChars (n : Nat) : digitsVal (natToChars n) = n := by
  induction n using Nat.strong_induction_on with
  | _ n ih =>
    by_cases h : n < 10
    · rw [natToChars_eq_of_lt n h]
      simp [digitsVal, digitVal_digitChar n h]
    · rw [natToChars_eq_of_ge n h, digitsVal_append]
      simp only [List.foldl_cons, List.foldl_nil]
      rw [ih (n / 10) (Nat.div_lt_self (by omega) (by omega)),
        digitVal_digitChar (n % 10) (Nat.mod_lt _ (by omega))]
      omega

theorem natToChars_ne_nil (n : Nat) : natToChars n ≠ [] := by
  by_cases h : n < 10
  · rw [natToChars_eq_of_lt n h]; simp
  · rw [natToChars_eq_of_ge n h]; simp

theorem length_natToChars_le (k n : Nat) (hk : 1 ≤ k) (h : n < 10 ^ k) :
    (natToChars n).length ≤ k := by
  induction k generalizing n with
  | zero => omega
  | succ k ih =>
    by_cases hn : n < 10
    · rw [natToChars_eq_of_lt n hn]; simpa using hk
    · have hk1 : 1 ≤ k := by
        by_contra hk0
        have hkz : k = 0 := by omega
        subst hkz
        norm_num at h
        omega
      have hdiv : n / 10 < 10 ^ k :=
        (Nat.div_lt_iff_lt_mul (by norm_num)).mpr (by rw [← pow_succ]; exact h)
      rw [natToChars_eq_of_ge n hn]
      have hrec := ih (n / 10) hk1 hdiv
      simp only [List.length_append, List.length_cons, List.length_nil]
      omega

theorem isDigit_digitChar (d : Nat) (h : d < 10) :
    (Nat.digitChar d).isDigit = true := by
  interval_cases d <;> rfl

theorem mem_natToChars_isDigit (n : Nat) (c : Char) (hc : c ∈ natToChars n) :
    c.isDigit = true := by
  induction n using Nat.strong_induction_on with
  | _ n ih =>
    by_cases h : n < 10
    · rw [natToChars_eq_of_lt n h] at hc
      simp at hc; subst hc
      exact isDigit_digitChar n h
    · rw [natToChars_eq_of_ge n h] at hc
      simp at hc
      rcases hc with hc | hc
      · exact ih (n / 10) (Nat.div_lt_self (by omega) (by omega)) hc
      · subst hc
        exact isDigit_digitChar (n % 10) (Nat.mod_lt _ (by omega))

theorem splitOnChar_of_not_mem (sep : Char) (cs : List Char) (h : sep ∉ cs) :
    splitOnChar sep cs = [cs] := by
  induction cs with
  | nil => rfl
  | cons c rest ih =>
    simp at h
    have hne : ¬ (c = sep) := fun hc => h.1 hc.symm
    rw [splitOnChar]
    simp only [if_neg hne]
    rw [ih h.2]
    rfl

theorem splitOnChar_append (sep : Char) (a b : List Char) (ha : sep ∉ a) :
    splitOnChar sep (a ++ sep :: b) = a :: splitOnChar sep b := by
  induction a with
  | nil =>
    rw [List.nil_append, splitOnChar]
    simp
  | cons c rest ih =>
    simp at ha
    have hne : ¬ (c = sep) := fun hc => ha.1 hc.symm
    rw [List.cons_append, splitOnChar]
    simp only [if_neg hne]
    rw [ih ha.2]
    rfl

theorem digitsVal_replicate_zero (k : Nat) (cs : List Char) :
    digitsVal (List.replicate k '0' ++ cs) = digitsVal cs := by
  induction k with
  | zero => rfl
  | succ k ih =>
    rw [List.replicate_succ, List.cons_append]
    show digitsVal (List.replicate k '0' ++ cs) = digitsVal cs
    exact ih

theorem dot_not_mem_natToChars (n : Nat) : '.' ∉ natToChars n := by
  intro hmem
  have := mem_natToChars_isDigit n '.' hmem
  simp [Char.isDigit] at this

theorem dot_not_mem_padStart4_natToChars (n : Nat) :
    '.' ∉ padStart4 (natToChars n) := by
  intro hmem
  unfold padStart4 at hmem
  rw [List.mem_append] at hmem
  rcases hmem with hmem | hmem
  · have := List.eq_of_mem_replicate hmem
    simp at this
  · exact dot_not_mem_natToChars n hmem

/-- Round trip: parsing a formatted scaled amount recovers the scaled value
(the spec's `parseAmount ∘ formatAmount = id`). -/
theorem parseAmountGramScaled_formatAmountGram (n : Nat) :
    parseAmountGramScaled (formatAmountGram n) = n := by
  show parseAmountGramScaledChars (formatAmountGramChars n) = n
  have hlen : (natToChars (n % AMOUNT_SCALE)).length ≤ 4 := by
    apply length_natToChars_le 4 _ (by omega)
    have h1 : n % AMOUNT_SCALE < AMOUNT_SCALE := Nat.mod_lt _ (by norm_num [AMOUNT_SCALE])
    norm_num [AMOUNT_SCALE] at h1 ⊢
    omega
  have hfraclen : (padStart4 (natToChars (n % AMOUNT_SCALE))).length = 4 := by
    unfold padStart4
    simp [List.length_replicate]
    omega
  unfold formatAmountGramChars parseAmountGramScaledChars
  rw [splitOnChar_append '.' _ _ (dot_not_mem_natToChars _),
    splitOnChar_of_not_mem '.' _ (dot_not_mem_padStart4_natToChars _)]
  show digitsVal (natToChars (n / AMOUNT_SCALE)) * AMOUNT_SCALE +
      digitsVal ((padStart4 (natToChars (n % AMOUNT_SCALE)) ++ ['0', '0', '0', '0']).take 4) = n
  rw [List.take_append_of_le_length (by omega), List.take_of_length_le (by omega)]
  show digitsVal (natToChars (n / AMOUNT_SCALE)) * AMOUNT_SCALE +
      digitsVal (List.replicate (4 - (natToChars (n % AMOUNT_SCALE)).length) '0' ++
        natToChars (n % AMOUNT_SCALE)) = n
  rw [digitsVal_replicate_zero, digitsVal_natToChars, digitsVal_natToChars]
  simp only [AMOUNT_SCALE]
  omega

/-! ## Crypto primitives

SHA-256 and Ed25519 (`@noble` libraries) are opaque to the services; they are
embedded as an abstract structure of pure functions.  `verifyHex` returns
`Option Bool`: `none` models the library throwing (caught by the verify
handler's `try`/`catch`). -/

structure Crypto where
  sha256Hex : String → String
  signHex : String → String → String
  verifyHex : String → String → String → Option Bool
  publicKeyFromPrivateKeyHex : String → String

/-! ## Canonical JSON (RFC 8785 / JCS)

`canonicalJson` serialises with lexicographically sorted keys and standard
JSON string escaping.  The payloads the services hash are flat records with
known key sets; their canonical serialisation is embedded concretely below,
with metadata modelled as a string-to-string record. -/

/-- JCS escape of one character: `"` and `\` get two-character escapes, the
named control characters likewise, remaining control characters become
`\u00XX`, everything else is emitted verbatim. -/
def jsonEscapeChar (c : Char) : List Char :=
  if c = '"' then ['\\', '"']
  else if c = '\\' then ['\\', '\\']
  else if c = '\x08' then ['\\', 'b']
  else if c = '\t' then ['\\', 't']
  else if c = '\n' then ['\\', 'n']
  else if c = '\x0c' then ['\\', 'f']
  else if c = '\r' then ['\\', 'r']
  else if c.toNat < 32 then
    ['\\', 'u', '0', '0', Nat.digitChar (c.toNat / 16), Nat.digitChar (c.toNat % 16)]
  else [c]

/-- JCS escape of a string body. -/
def jsonEscape (cs : List Char) : List Char := cs.flatMap jsonEscapeChar

/-- A JSON string literal. -/
def jsonStr (s : String) : String := ⟨'"' :: (jsonEscape s.data ++ ['"'])⟩

/-- Metadata records (`Record<string, unknown>` whose values, at every point
the services write them, are strings). -/
abbrev Metadata : Type := List (String × String)

/-- Insert-or-overwrite for a JS object spread `{...m, k: v}`: an existing
key keeps its position with the new value, a new key is appended. -/
def metaSet (m : Metadata) (k v : String) : Metadata :=
  if m.any (fun kv => kv.1 == k) then
    m.map (fun kv => if kv.1 == k then (k, v) else kv)
  else m ++ [(k, v)]

/-- Insertion into a key-sorted association list (JCS sorts object keys). -/
def insertSortedByKey (kv : String × String) : Metadata → Metadata
  | [] => [kv]
  | x :: xs => if kv.1 ≤ x.1 then kv :: x :: xs else x :: insertSortedByKey kv xs

/-- Key-sort a metadata record for canonicalisation. -/
def sortByKey (m : Metadata) : Metadata := m.foldr insertSortedByKey []

/-- Canonical JSON of a metadata record. -/
def canonicalJsonMetadata (m : Metadata) : String :=
  "\x7b" ++
    String.intercalate ","
      ((sortByKey m).map (fun kv => jsonStr kv.1 ++ ":" ++ jsonStr kv.2)) ++
  "\x7d"

/-! ## Certificate authority (certificate-service `server.ts`) -/

inductive CertificateStatus where
  | ACTIVE | LOCKED | REDEEMED | REVOKED
deriving DecidableEq, Repr

/-- The JSON name of a certificate status. -/
def statusName : CertificateStatus → String
  | .ACTIVE => "ACTIVE"
  | .LOCKED => "LOCKED"
  | .REDEEMED => "REDEEMED"
  | .REVOKED => "REVOKED"

/-- `ALLOWED_STATUS_TRANSITIONS` of the certificate service. -/
def allowedStatusTransitions : CertificateStatus → List CertificateStatus
  | .ACTIVE => [.LOCKED, .REDEEMED, .REVOKED]
  | .LOCKED => [.ACTIVE, .REDEEMED, .REVOKED]
  | .REDEEMED => []
  | .REVOKED => []

/-- The `GoldCertificate` payload. -/
structure CertPayload where
  certId : String
  issuer : String
  owner : String
  amountGram : String
  purity : String
  issuedAt : String
  status : CertificateStatus
  metadata : Option Metadata
deriving DecidableEq

/-- Canonical JSON of a payload: keys in JCS (lexicographic) order
`amountGram, certId, issuedAt, issuer, metadata, owner, purity, status`,
with an absent (`undefined`) metadata omitted. -/
def canonicalJsonPayload (p : CertPayload) : String :=
  "\x7b\"amountGram\":" ++ jsonStr p.amountGram ++
  ",\"certId\":" ++ jsonStr p.certId ++
  ",\"issuedAt\":" ++ jsonStr p.issuedAt ++
  ",\"issuer\":" ++ jsonStr p.issuer ++
  (match p.metadata with
   | none => ""
   | some m => ",\"metadata\":" ++ canonicalJsonMetadata m) ++
  ",\"owner\":" ++ jsonStr p.owner ++
  ",\"purity\":" ++ jsonStr p.purity ++
  ",\"status\":" ++ jsonStr (statusName p.status) ++ "\x7d"

structure SignedCertificate where
  payload : CertPayload
  payloadHash : String
  signature : String
deriving DecidableEq

/-- `signCertificate`: hash the canonical payload, sign the hash. -/
def signCertificate (crypto : Crypto) (payload : CertPayload)
    (issuerPrivateKeyHex : String) : SignedCertificate :=
  let payloadHash := crypto.sha256Hex (canonicalJsonPayload payload)
  { payload := payload
    payloadHash := payloadHash
    signature := crypto.signHex payloadHash issuerPrivateKeyHex }

/-- The certificate store (SQLite table keyed by `certId`; JSON-roundtripped
rows are embedded as the records themselves). -/
abbrev CertStore : Type := List SignedCertificate

/-- Lookup by primary key (`SELECT ... WHERE key = ? LIMIT 1`). -/
def findBy {A : Type} (key : A → String) (l : List A) (k : String) : Option A :=
  l.find? (fun x => key x == k)

/-- Insert-or-replace by primary key (`INSERT ... ON CONFLICT DO UPDATE`):
an existing row is overwritten in place, a new row is appended. -/
def upsertBy {A : Type} (key : A → String) (l : List A) (a : A) : List A :=
  if l.any (fun x => key x == key a) then
    l.map (fun x => if key x == key a then a else x)
  else l ++ [a]

/-- `certStore.get`. -/
def certStoreGet (store : CertStore) (certId : String) : Option SignedCertificate :=
  findBy (fun c => c.payload.certId) store certId

/-- `certStore.put` (`INSERT ... ON CONFLICT(cert_id) DO UPDATE`). -/
def certStorePut (store : CertStore) (c : SignedCertificate) : CertStore :=
  upsertBy (fun x => x.payload.certId) store c

/-- `VerifyCertificateResponse`. -/
structure VerifyCertificateResponse where
  certId : String
  valid : Bool
  hashMatches : Bool
  signatureValid : Bool
  status : CertificateStatus
deriving DecidableEq

/-- Core of the `POST /certificates/verify` handler once a certificate has
been resolved: recompute the canonical hash, compare with the stored
`payloadHash`, check the signature only when the hashes match (any
exception yields `false`), and conjoin. -/
def verifyCertificate (crypto : Crypto) (certificate : SignedCertificate) :
    VerifyCertificateResponse :=
  let recalculatedHash := crypto.sha256Hex (canonicalJsonPayload certificate.payload)
  let hashMatches := recalculatedHash == certificate.payloadHash
  let signatureValid :=
    if hashMatches then
      (crypto.verifyHex certificate.payloadHash certificate.signature
        certificate.payload.issuer).getD false
    else false
  { certId := certificate.payload.certId
    valid := hashMatches && signatureValid
    hashMatches := hashMatches
    signatureValid := signatureValid
    status := certificate.payload.status }

structure VerifyCertificateRequest where
  certId : Option String
  certificate : Option SignedCertificate
deriving DecidableEq

inductive VerifyHandlerResult where
  | invalidRequest
  | notFound
  | ok (resp : VerifyCertificateResponse)
deriving DecidableEq

/-- `POST /certificates/verify`: resolve the certificate from the inline
`certificate` field or the store (`parsed.certificate ||
certStore.get(parsed.certId || "")`), then verify. -/
def verifyHandler (crypto : Crypto) (store : CertStore)
    (parsed : VerifyCertificateRequest) : VerifyHandlerResult :=
  if parsed.certId.isNone && parsed.certificate.isNone then .invalidRequest
  else
    match parsed.certificate.or (certStoreGet store (parsed.certId.getD "")) with
    | none => .notFound
    | some certificate => .ok (verifyCertificate crypto certificate)

structure IssueCertificateRequest where
  owner : String
  amountGram : String
  purity : String
  metadata : Option Metadata
deriving DecidableEq

/-- The purity grammar `^\d{3}\.\d$`. -/
def isPurityChars (cs : List Char) : Bool :=
  match cs with
  | [a, b, c, d, e] => a.isDigit && b.isDigit && c.isDigit && (d == '.') && e.isDigit
  | _ => false

def isPurity (s : String) : Bool := isPurityChars s.data

/-- A whitespace character as JavaScript's `trim` removes it (ASCII
range; the governance headers in frame are ASCII). -/
def isJsWhitespace (c : Char) : Bool :=
  c == ' ' || c == '\t' || c == '\n' || c == '\r' || c == '\x0b' || c == '\x0c'

/-- `value.trim()` over the character list. -/
def trimChars (cs : List Char) : List Char :=
  ((cs.dropWhile isJsWhitespace).reverse.dropWhile isJsWhitespace).reverse

/-- `value.trim()`. -/
def trimString (s : String) : String := ⟨trimChars s.data⟩

/-- `isNonEmptyString` (`value.trim().length > 0`, with the charwise
`trim` above). -/
def isNonEmptyString (s : String) : Bool := trimString s != ""

/-- The field validation performed by `parseIssueRequest`. -/
def isValidIssueRequest (r : IssueCertificateRequest) : Bool :=
  isNonEmptyString r.owner && isAmountGram r.amountGram && isPurity r.purity

/-- `POST /certificates/issue` (parsed request): build the ACTIVE payload
stamped at `now` under the fresh `certId`, sign, persist. -/
def issueHandler (crypto : Crypto) (issuerPrivateKeyHex issuerPublicKeyHex : String)
    (store : CertStore) (parsed : IssueCertificateRequest) (certId now : String) :
    SignedCertificate × CertStore :=
  let payload : CertPayload :=
    { certId := certId
      issuer := issuerPublicKeyHex
      owner := parsed.owner
      amountGram := parsed.amountGram
      purity := parsed.purity
      issuedAt := now
      status := .ACTIVE
      metadata := parsed.metadata }
  let certificate := signCertificate crypto payload issuerPrivateKeyHex
  (certificate, certStorePut store certificate)

structure TransferCertificateRequest where
  certId : String
  toOwner : String
  price : Option String
deriving DecidableEq

inductive TransferHandlerResult where
  | notFound
  | stateConflict (message : String)
  | ok (certificate : SignedCertificate)
deriving DecidableEq

/-- `POST /certificates/transfer` (parsed request). -/
def transferHandler (crypto : Crypto) (issuerPrivateKeyHex : String)
    (store : CertStore) (parsed : TransferCertificateRequest) (now : String) :
    TransferHandlerResult × CertStore :=
  match certStoreGet store parsed.certId with
  | none => (.notFound, store)
  | some current =>
    if current.payload.status ≠ .ACTIVE then
      (.stateConflict "Only ACTIVE certificates can be transferred", store)
    else
      let md1 := metaSet (current.payload.metadata.getD []) "lastTransferAt" now
      let md2 := match parsed.price with
        | some p => metaSet md1 "lastTransferPrice" p
        | none => md1
      let updatedPayload :=
        { current.payload with owner := parsed.toOwner, metadata := some md2 }
      let certificate := signCertificate crypto updatedPayload issuerPrivateKeyHex
      (.ok certificate, certStorePut store certificate)

structure SplitCertificateRequest where
  parentCertId : String
  toOwner : String
  amountChildGram : String
  price : Option String
deriving DecidableEq

inductive SplitHandlerResult where
  | notFound
  | stateConflict (message : String)
  | invalidAmount
  | ok (parentCertificate childCertificate : SignedCertificate)
deriving DecidableEq

/-- `POST /certificates/split` (parsed request): guard parent existence and
ACTIVE status, reject non-positive or too-large child amounts with
`invalid_amount`, otherwise decrement the parent by the scaled child amount
and create the child with the parent's issuer and purity. -/
def splitHandler (crypto : Crypto) (issuerPrivateKeyHex : String)
    (store : CertStore) (parsed : SplitCertificateRequest) (childCertId nowIso : String) :
    SplitHandlerResult × CertStore :=
  match certStoreGet store parsed.parentCertId with
  | none => (.notFound, store)
  | some parentCurrent =>
    if parentCurrent.payload.status ≠ .ACTIVE then
      (.stateConflict "Only ACTIVE certificates can be split", store)
    else
      let parentScaled := parseAmountGramScaled parentCurrent.payload.amountGram
      let childScaled := parseAmountGramScaled parsed.amountChildGram
      if childScaled ≤ 0 ∨ childScaled ≥ parentScaled then (.invalidAmount, store)
      else
        let parentPayload :=
          { parentCurrent.payload with
            amountGram := formatAmountGram (parentScaled - childScaled)
            metadata := some (metaSet (parentCurrent.payload.metadata.getD [])
              "lastSplitAt" nowIso) }
        let childMeta0 : Metadata := [("parentCertId", parentCurrent.payload.certId)]
        let childMeta := match parsed.price with
          | some p => childMeta0 ++ [("splitPrice", p)]
          | none => childMeta0
        let childPayload : CertPayload :=
          { certId := childCertId
            issuer := parentCurrent.payload.issuer
            owner := parsed.toOwner
            amountGram := formatAmountGram childScaled
            purity := parentCurrent.payload.purity
            issuedAt := nowIso
            status := .ACTIVE
            metadata := some childMeta }
        let parentCertificate := signCertificate crypto parentPayload issuerPrivateKeyHex
        let childCertificate := signCertificate crypto childPayload issuerPrivateKeyHex
        (.ok parentCertificate childCertificate,
          certStorePut (certStorePut store parentCertificate) childCertificate)

structure ChangeCertificateStatusRequest where
  certId : String
  status : CertificateStatus
deriving DecidableEq

inductive StatusHandlerResult where
  | notFound
  | stateConflict (message : String)
  | ok (certificate : SignedCertificate)
deriving DecidableEq

/-- `POST /certificates/status` (parsed request): disallowed transitions are
rejected with 409 `state_conflict` and the exact message
`Transition X -> Y is not allowed`. -/
def statusHandler (crypto : Crypto) (issuerPrivateKeyHex : String)
    (store : CertStore) (parsed : ChangeCertificateStatusRequest) (occurredAt : String) :
    StatusHandlerResult × CertStore :=
  match certStoreGet store parsed.certId with
  | none => (.notFound, store)
  | some current =>
    if (allowedStatusTransitions current.payload.status).contains parsed.status then
      let updatedPayload :=
        { current.payload with
          status := parsed.status
          metadata := some (metaSet (current.payload.metadata.getD [])
            "lastStatusChangeAt" occurredAt) }
      let certificate := signCertificate crypto updatedPayload issuerPrivateKeyHex
      (.ok certificate, certStorePut store certificate)
    else
      (.stateConflict ("Transition " ++ statusName current.payload.status ++ " -> " ++
        statusName parsed.status ++ " is not allowed"), store)

/-! ## Marketplace engine (marketplace-service `server.ts`)

The SQLite-backed listing store, the downstream certificate-service client
and the reconciliation freeze client are embedded explicitly.  The client is
a structure of pure response functions; each handler additionally returns
the ordered trace of certificate-service calls it performed, which is the
observable "message exchange" of the two-phase settlement.  The multiple
`new Date()` calls inside one handler are modelled by the handler's single
timestamp argument (no claim distinguishes them). -/

/-- JavaScript `a || b` on an optional string (empty string is falsy). -/
def jsOrString (v : Option String) (dflt : String) : String :=
  match v with
  | some s => if s == "" then dflt else s
  | none => dflt

/-- Lookup of a metadata/details key. -/
def metaGet (m : Metadata) (k : String) : Option String :=
  (m.find? (fun kv => kv.1 == k)).map (fun kv => kv.2)

inductive ListingStatus where
  | OPEN | LOCKED | SETTLED | CANCELLED
deriving DecidableEq, Repr

def listingStatusName : ListingStatus → String
  | .OPEN => "OPEN"
  | .LOCKED => "LOCKED"
  | .SETTLED => "SETTLED"
  | .CANCELLED => "CANCELLED"

/-- `MarketplaceListing` (the dispute flags of the shared type are never
written by the marketplace service in the sources and are omitted). -/
structure MarketplaceListing where
  listingId : String
  certId : String
  seller : String
  askPrice : String
  status : ListingStatus
  createdAt : String
  updatedAt : String
  lockedBy : Option String := none
  lockedAt : Option String := none
  settledAt : Option String := none
  settledPrice : Option String := none
  cancelledAt : Option String := none
  cancelReason : Option String := none
deriving DecidableEq

inductive ListingAuditEventType where
  | CREATED | LOCKED | SETTLED | CANCELLED | DISPUTE_OPENED
deriving DecidableEq, Repr

/-- `ListingAuditEvent`; `details` is a string-valued record with
`undefined` entries dropped. -/
structure ListingAuditEvent where
  eventId : String
  listingId : String
  type : ListingAuditEventType
  actor : Option String
  occurredAt : String
  details : Metadata := []
deriving DecidableEq

inductive EscrowAction where
  | LOCK_ESCROW | SETTLE_ESCROW | CANCEL_ESCROW
deriving DecidableEq, Repr

inductive ProofAnchorStatus where
  | ANCHORED | SKIPPED | FAILED
deriving DecidableEq, Repr

inductive EventWriteStatus where
  | RECORDED | SKIPPED | FAILED
deriving DecidableEq, Repr

/-- The certificate-service transfer response as consumed by the
marketplace (echoed verbatim in the settle response). -/
structure TransferRespW where
  certificate : SignedCertificate
  proofAnchorStatus : ProofAnchorStatus
  eventWriteStatus : EventWriteStatus
deriving DecidableEq

/-- The freeze-state snapshot as read off the reconciliation service's JSON
reply; `active = none` models a missing or non-boolean `active` field. -/
structure FreezeStateW where
  active : Option Bool
  reason : Option String := none
  updatedAt : Option String := none
  lastRunId : Option String := none
deriving DecidableEq

structure LatestReconW where
  freezeState : Option FreezeStateW
deriving DecidableEq

/-- A marketplace response body (the JSON shapes the handlers send). -/
inductive MpBody where
  | errBody (error : String) (message : Option String) (statusCode : Option Nat)
  | frozenBody (message : String) (freezeState : FreezeStateW)
  | listingBody (listing : MarketplaceListing)
  | settleBody (listing : MarketplaceListing) (transfer : TransferRespW)
deriving DecidableEq

structure MpResponse where
  status : Nat
  body : MpBody
deriving DecidableEq

/-- `IdempotencyRecord` (SQLite `listing_idempotency`, primary key
`(action, idempotency_key)`). -/
structure IdempotencyRecord where
  action : EscrowAction
  idempotencyKey : String
  requestHash : String
  responseStatus : Nat
  responseBody : MpBody
  createdAt : String
deriving DecidableEq

/-- The marketplace's durable store: listings, append-only audit events and
idempotency records. -/
structure ListingStore where
  listings : List MarketplaceListing
  audits : List ListingAuditEvent
  idempotency : List IdempotencyRecord
deriving DecidableEq

def getListing (s : ListingStore) (listingId : String) : Option MarketplaceListing :=
  findBy (fun l => l.listingId) s.listings listingId

/-- `putListing` (`INSERT ... ON CONFLICT(listing_id) DO UPDATE`). -/
def putListing (s : ListingStore) (l : MarketplaceListing) : ListingStore :=
  { s with listings := upsertBy (fun x => x.listingId) s.listings l }

def appendAuditEvent (s : ListingStore) (e : ListingAuditEvent) : ListingStore :=
  { s with audits := s.audits ++ [e] }

def getIdempotencyRecord (s : ListingStore) (action : EscrowAction) (key : String) :
    Option IdempotencyRecord :=
  s.idempotency.find? (fun r => r.action == action && r.idempotencyKey == key)

/-- `putIdempotencyRecord` (`INSERT ... ON CONFLICT(action, idempotency_key)
DO NOTHING`). -/
def putIdempotencyRecord (s : ListingStore) (r : IdempotencyRecord) : ListingStore :=
  if s.idempotency.any (fun x => x.action == r.action && x.idempotencyKey == r.idempotencyKey)
  then s
  else { s with idempotency := s.idempotency ++ [r] }

/-- An HTTP result as produced by `requestJson`: `status = 0` models the
fetch throwing (timeout/unreachable); `data` is the parsed success body;
`errMessage` is the `message` field of an error body (what
`getErrorMessage` reads). -/
structure HttpResult (α : Type) where
  ok : Bool
  status : Nat
  data : Option α := none
  errMessage : Option String := none
deriving DecidableEq

/-- An outbound certificate-service call made by a marketplace handler. -/
inductive CertCall where
  | getCertificate (certId : String)
  | changeStatus (request : ChangeCertificateStatusRequest)
  | transferCall (request : TransferCertificateRequest)
deriving DecidableEq

/-- The certificate-service client, as a structure of pure response
functions. -/
structure CertClient where
  getCertificate : String → HttpResult SignedCertificate
  changeStatus : ChangeCertificateStatusRequest → HttpResult SignedCertificate
  transfer : TransferCertificateRequest → HttpResult TransferRespW

/-- `getErrorMessage`: the `message` string of an error payload when it is a
non-empty string. -/
def getErrorMessage (m : Option String) : Option String :=
  match m with
  | some s => if isNonEmptyString s then some s else none
  | none => none

/-- `sendCertificateServiceError`: map a failed downstream result onto the
marketplace response (unreachable → 502, 404 → 404, 409 → 409 with the
downstream message, anything else → 502 with the status echoed). -/
def sendCertificateServiceError (status : Nat) (errMessage : Option String) : MpResponse :=
  if status = 0 then ⟨502, .errBody "certificate_service_unreachable" none none⟩
  else if status = 404 then ⟨404, .errBody "certificate_not_found" none none⟩
  else if status = 409 then
    ⟨409, .errBody "state_conflict"
      (some (jsOrString (getErrorMessage errMessage) "certificate_service_state_conflict")) none⟩
  else ⟨502, .errBody "certificate_service_error" none (some status)⟩

/-- `enforceFreezeGuard`: `none` means the guard passed; `some resp` is the
short-circuit response.  The argument is the (result of the) reconciliation
client's `/reconcile/latest` call, absent when no reconciliation service is
configured. -/
def enforceFreezeGuard (recon : Option (HttpResult LatestReconW)) : Option MpResponse :=
  match recon with
  | none => none
  | some result =>
    if result.ok = false then
      if result.status = 0 then
        some ⟨503, .errBody "reconciliation_service_unreachable" none none⟩
      else
        some ⟨502, .errBody "reconciliation_service_error" none (some result.status)⟩
    else
      match result.data with
      | none => some ⟨502, .errBody "reconciliation_service_invalid_response" none none⟩
      | some latest =>
        match latest.freezeState with
        | none => some ⟨502, .errBody "reconciliation_service_invalid_response" none none⟩
        | some freezeState =>
          match freezeState.active with
          | none => some ⟨502, .errBody "reconciliation_service_invalid_response" none none⟩
          | some false => none
          | some true =>
            some ⟨423, .frozenBody
              (jsOrString freezeState.reason
                "Marketplace write actions are frozen by reconciliation control")
              freezeState⟩

structure CreateListingRequest where
  certId : String
  seller : String
  askPrice : String
deriving DecidableEq

structure LockEscrowRequest where
  listingId : String
  buyer : String
deriving DecidableEq

structure SettleEscrowRequest where
  listingId : String
  buyer : String
  settledPrice : Option String
deriving DecidableEq

structure CancelEscrowRequest where
  listingId : String
  reason : Option String
deriving DecidableEq

/-- Canonical JSON of a parsed lock body (keys sorted: `buyer`, `listingId`). -/
def canonicalJsonLockReq (r : LockEscrowRequest) : String :=
  "\x7b\"buyer\":" ++ jsonStr r.buyer ++ ",\"listingId\":" ++ jsonStr r.listingId ++ "\x7d"

/-- Canonical JSON of a parsed settle body (keys sorted: `buyer`,
`listingId`, `settledPrice`; an absent `settledPrice` is omitted). -/
def canonicalJsonSettleReq (r : SettleEscrowRequest) : String :=
  "\x7b\"buyer\":" ++ jsonStr r.buyer ++ ",\"listingId\":" ++ jsonStr r.listingId ++
  (match r.settledPrice with
   | none => ""
   | some p => ",\"settledPrice\":" ++ jsonStr p) ++ "\x7d"

/-- Canonical JSON of a parsed cancel body (keys sorted: `listingId`,
`reason`; an absent `reason` is omitted). -/
def canonicalJsonCancelReq (r : CancelEscrowRequest) : String :=
  "\x7b\"listingId\":" ++ jsonStr r.listingId ++
  (match r.reason with
   | none => ""
   | some reason => ",\"reason\":" ++ jsonStr reason) ++ "\x7d"

/-- `POST /listings/create` from the parsed request: freeze guard, owner and
status checks against the certificate service, then persist the OPEN listing
and its `CREATED` audit event. -/
def createListingHandler (client : CertClient) (recon : Option (HttpResult LatestReconW))
    (store : ListingStore) (parsed : CreateListingRequest)
    (listingId now auditEventId : String) :
    MpResponse × ListingStore × List CertCall :=
  match enforceFreezeGuard recon with
  | some resp => (resp, store, [])
  | none =>
    let certResult := client.getCertificate parsed.certId
    if certResult.ok = false then
      (sendCertificateServiceError certResult.status certResult.errMessage, store,
        [.getCertificate parsed.certId])
    else
      match certResult.data with
      | none =>
        (⟨502, .errBody "certificate_service_invalid_response" none none⟩, store,
          [.getCertificate parsed.certId])
      | some certificate =>
        if certificate.payload.owner ≠ parsed.seller then
          (⟨409, .errBody "owner_mismatch"
            (some "Seller must match current certificate owner") none⟩, store,
            [.getCertificate parsed.certId])
        else if certificate.payload.status ≠ .ACTIVE then
          (⟨409, .errBody "state_conflict"
            (some "Only ACTIVE certificates can be listed") none⟩, store,
            [.getCertificate parsed.certId])
        else
          let listing : MarketplaceListing :=
            { listingId := listingId
              certId := parsed.certId
              seller := parsed.seller
              askPrice := parsed.askPrice
              status := .OPEN
              createdAt := now
              updatedAt := now }
          let store1 := putListing store listing
          let auditEvent : ListingAuditEvent :=
            { eventId := auditEventId
              listingId := listing.listingId
              type := .CREATED
              actor := some parsed.seller
              occurredAt := now
              details := [("certId", parsed.certId), ("askPrice", parsed.askPrice)] }
          (⟨201, .listingBody listing⟩, appendAuditEvent store1 auditEvent,
            [.getCertificate parsed.certId])

/-- `POST /escrow/lock` from the parsed request and idempotency key:
idempotent replay, listing lookup, OPEN guard, freeze guard, downstream
`status → LOCKED`, then persist and record the idempotent response. -/
def lockEscrowHandler (crypto : Crypto) (client : CertClient)
    (recon : Option (HttpResult LatestReconW)) (store : ListingStore)
    (parsed : LockEscrowRequest) (idempotencyKey : String)
    (now auditEventId : String) :
    MpResponse × ListingStore × List CertCall :=
  let requestHash := crypto.sha256Hex (canonicalJsonLockReq parsed)
  match getIdempotencyRecord store .LOCK_ESCROW idempotencyKey with
  | some existing =>
    if existing.requestHash ≠ requestHash then
      (⟨409, .errBody "idempotency_key_reuse_conflict"
        (some "Idempotency key already used with different payload") none⟩, store, [])
    else (⟨existing.responseStatus, existing.responseBody⟩, store, [])
  | none =>
    match getListing store parsed.listingId with
    | none => (⟨404, .errBody "listing_not_found" none none⟩, store, [])
    | some current =>
      if current.status ≠ .OPEN then
        (⟨409, .errBody "state_conflict" (some "Only OPEN listings can be locked") none⟩,
          store, [])
      else
        match enforceFreezeGuard recon with
        | some resp => (resp, store, [])
        | none =>
          let statusReq : ChangeCertificateStatusRequest := ⟨current.certId, .LOCKED⟩
          let statusResult := client.changeStatus statusReq
          if statusResult.ok = false then
            (sendCertificateServiceError statusResult.status statusResult.errMessage, store,
              [.changeStatus statusReq])
          else
            let updated : MarketplaceListing :=
              { current with
                status := .LOCKED
                lockedBy := some parsed.buyer
                lockedAt := some now
                updatedAt := now }
            let store1 := putListing store updated
            let auditEvent : ListingAuditEvent :=
              { eventId := auditEventId
                listingId := updated.listingId
                type := .LOCKED
                actor := some parsed.buyer
                occurredAt := now
                details := [("idempotencyKey", idempotencyKey),
                  ("fromStatus", listingStatusName current.status),
                  ("toStatus", listingStatusName updated.status)] }
            let store2 := appendAuditEvent store1 auditEvent
            let response : MpResponse := ⟨200, .listingBody updated⟩
            let store3 := putIdempotencyRecord store2
              ⟨.LOCK_ESCROW, idempotencyKey, requestHash, 200, response.body, now⟩
            (response, store3, [.changeStatus statusReq])

/-- `POST /escrow/settle` from the parsed request and idempotency key:
idempotent replay, LOCKED and buyer guards, freeze guard, then the
two-phase `status → ACTIVE`; `transfer`; compensating `status → LOCKED` on
transfer failure. -/
def settleEscrowHandler (crypto : Crypto) (client : CertClient)
    (recon : Option (HttpResult LatestReconW)) (store : ListingStore)
    (parsed : SettleEscrowRequest) (idempotencyKey : String)
    (now auditEventId : String) :
    MpResponse × ListingStore × List CertCall :=
  let requestHash := crypto.sha256Hex (canonicalJsonSettleReq parsed)
  match getIdempotencyRecord store .SETTLE_ESCROW idempotencyKey with
  | some existing =>
    if existing.requestHash ≠ requestHash then
      (⟨409, .errBody "idempotency_key_reuse_conflict"
        (some "Idempotency key already used with different payload") none⟩, store, [])
    else (⟨existing.responseStatus, existing.responseBody⟩, store, [])
  | none =>
    match getListing store parsed.listingId with
    | none => (⟨404, .errBody "listing_not_found" none none⟩, store, [])
    | some current =>
      if current.status ≠ .LOCKED then
        (⟨409, .errBody "state_conflict" (some "Only LOCKED listings can be settled") none⟩,
          store, [])
      else if current.lockedBy ≠ some parsed.buyer then
        (⟨409, .errBody "buyer_mismatch" (some "Settlement buyer must match lock buyer") none⟩,
          store, [])
      else
        match enforceFreezeGuard recon with
        | some resp => (resp, store, [])
        | none =>
          let unlockReq : ChangeCertificateStatusRequest := ⟨current.certId, .ACTIVE⟩
          let unlockResult := client.changeStatus unlockReq
          if unlockResult.ok = false then
            (sendCertificateServiceError unlockResult.status unlockResult.errMessage, store,
              [.changeStatus unlockReq])
          else
            let settledPrice := jsOrString parsed.settledPrice current.askPrice
            let transferReq : TransferCertificateRequest :=
              ⟨current.certId, parsed.buyer, some settledPrice⟩
            let transferResult := client.transfer transferReq
            if transferResult.ok = false then
              let rollbackReq : ChangeCertificateStatusRequest := ⟨current.certId, .LOCKED⟩
              (sendCertificateServiceError transferResult.status transferResult.errMessage,
                store,
                [.changeStatus unlockReq, .transferCall transferReq, .changeStatus rollbackReq])
            else
              match transferResult.data with
              | none =>
                (⟨502, .errBody "certificate_service_invalid_response" none none⟩, store,
                  [.changeStatus unlockReq, .transferCall transferReq])
              | some transfer =>
                let updated : MarketplaceListing :=
                  { current with
                    status := .SETTLED
                    settledPrice := some settledPrice
                    settledAt := some now
                    updatedAt := now }
                let store1 := putListing store updated
                let auditEvent : ListingAuditEvent :=
                  { eventId := auditEventId
                    listingId := updated.listingId
                    type := .SETTLED
                    actor := some parsed.buyer
                    occurredAt := now
                    details := [("idempotencyKey", idempotencyKey),
                      ("fromStatus", listingStatusName current.status),
                      ("toStatus", listingStatusName updated.status),
                      ("settledPrice", settledPrice)] }
                let store2 := appendAuditEvent store1 auditEvent
                let response : MpResponse := ⟨200, .settleBody updated transfer⟩
                let store3 := putIdempotencyRecord store2
                  ⟨.SETTLE_ESCROW, idempotencyKey, requestHash, 200, response.body, now⟩
                (response, store3, [.changeStatus unlockReq, .transferCall transferReq])

/-- `POST /escrow/cancel` from the parsed request and idempotency key: NOT
freeze-gated; terminal listings are rejected, a LOCKED listing is first
unlocked downstream, then the listing is cancelled. -/
def cancelEscrowHandler (crypto : Crypto) (client : CertClient) (store : ListingStore)
    (parsed : CancelEscrowRequest) (idempotencyKey : String)
    (now auditEventId : String) :
    MpResponse × ListingStore × List CertCall :=
  let requestHash := crypto.sha256Hex (canonicalJsonCancelReq parsed)
  match getIdempotencyRecord store .CANCEL_ESCROW idempotencyKey with
  | some existing =>
    if existing.requestHash ≠ requestHash then
      (⟨409, .errBody "idempotency_key_reuse_conflict"
        (some "Idempotency key already used with different payload") none⟩, store, [])
    else (⟨existing.responseStatus, existing.responseBody⟩, store, [])
  | none =>
    match getListing store parsed.listingId with
    | none => (⟨404, .errBody "listing_not_found" none none⟩, store, [])
    | some current =>
      if current.status = .SETTLED ∨ current.status = .CANCELLED then
        (⟨409, .errBody "state_conflict" (some "Listing is already terminal") none⟩, store, [])
      else
        let unlockCalls : List CertCall :=
          if current.status = .LOCKED then
            [.changeStatus ⟨current.certId, .ACTIVE⟩]
          else []
        let unlockFailed :=
          current.status = .LOCKED ∧
            (client.changeStatus ⟨current.certId, .ACTIVE⟩).ok = false
        if h : unlockFailed then
          let unlockResult := client.changeStatus ⟨current.certId, .ACTIVE⟩
          (sendCertificateServiceError unlockResult.status unlockResult.errMessage, store,
            unlockCalls)
        else
          let updated : MarketplaceListing :=
            { current with
              status := .CANCELLED
              cancelledAt := some now
              cancelReason := parsed.reason
              updatedAt := now }
          let store1 := putListing store updated
          let reasonDetails : Metadata :=
            match parsed.reason with
            | some r => [("reason", r)]
            | none => []
          let auditEvent : ListingAuditEvent :=
            { eventId := auditEventId
              listingId := updated.listingId
              type := .CANCELLED
              actor := some (jsOrString current.lockedBy current.seller)
              occurredAt := now
              details := [("idempotencyKey", idempotencyKey),
                ("fromStatus", listingStatusName current.status),
                ("toStatus", listingStatusName updated.status)] ++ reasonDetails }
          let store2 := appendAuditEvent store1 auditEvent
          let response : MpResponse := ⟨200, .listingBody updated⟩
          let store3 := putIdempotencyRecord store2
            ⟨.CANCEL_ESCROW, idempotencyKey, requestHash, 200, response.body, now⟩
          (response, store3, unlockCalls)

/-! ## Store lemmas -/

theorem find?_map_eq {A : Type} (p : A → Bool) (f : A → A)
    (hp : ∀ x, p (f x) = p x) (l : List A) :
    (l.map f).find? p = (l.find? p).map f := by
  induction l with
  | nil => rfl
  | cons x xs ih =>
    rw [List.map_cons]
    cases hx : p x
    · rw [List.find?_cons_of_neg _ (by rw [hp x, hx]; simp),
        List.find?_cons_of_neg _ (by rw [hx]; simp)]
      exact ih
    · rw [List.find?_cons_of_pos _ (by rw [hp x, hx]),
        List.find?_cons_of_pos _ hx]
      rfl

theorem find?_append_or {A : Type} (p : A → Bool) (l1 l2 : List A) :
    (l1 ++ l2).find? p = ((l1.find? p).or (l2.find? p)) := by
  induction l1 with
  | nil => simp
  | cons x xs ih =>
    cases hx : p x
    · rw [List.cons_append, List.find?_cons_of_neg _ (by simp [hx]),
        List.find?_cons_of_neg _ (by simp [hx]), ih]
    · rw [List.cons_append, List.find?_cons_of_pos _ hx, List.find?_cons_of_pos _ hx]
      rfl

theorem findBy_upsertBy_self {A : Type} (key : A → String) (l : List A) (a : A) :
    findBy key (upsertBy key l a) (key a) = some a := by
  unfold upsertBy findBy
  have hfp : ∀ x : A,
      (fun y => key y == key a) (if key x == key a then a else x) = (key x == key a) := by
    intro x
    cases hx : (key x == key a) with
    | true => simp [hx]
    | false => simp [hx]
  by_cases hany : l.any (fun x => key x == key a) = true
  · rw [if_pos hany, find?_map_eq _ _ hfp l]
    have hsome : (l.find? (fun x => key x == key a)).isSome :=
      List.find?_isSome.mpr (by simpa using List.any_eq_true.mp hany)
    obtain ⟨y0, hy0⟩ := Option.isSome_iff_exists.mp hsome
    rw [hy0]
    have hpy0 : (key y0 == key a) = true := by
      have := List.find?_some hy0
      simpa using this
    simp only [Option.map]
    have : (if key y0 == key a then a else y0) = a := by simp [hpy0]
    show some (if key y0 == key a then a else y0) = some a
    rw [this]
  · rw [if_neg hany]
    have hnone : l.find? (fun x => key x == key a) = none := by
      rw [List.find?_eq_none]
      intro x hx hpx
      exact hany (List.any_eq_true.mpr ⟨x, hx, hpx⟩)
    rw [find?_append_or, hnone, Option.none_or,
      List.find?_cons_of_pos _ (by simp)]

theorem findBy_upsertBy_other {A : Type} (key : A → String) (l : List A) (a : A)
    (k : String) (hk : k ≠ key a) :
    findBy key (upsertBy key l a) k = findBy key l k := by
  unfold upsertBy findBy
  have hka : (key a == k) = false := by
    rw [beq_eq_false_iff_ne]
    exact fun h => hk h.symm
  have hfp : ∀ x : A,
      (fun y => key y == k) (if key x == key a then a else x) = (key x == k) := by
    intro x
    cases hx : (key x == key a) with
    | true =>
      have hxa : key x = key a := by simpa using hx
      simp [hx, hxa]
    | false => simp [hx]
  by_cases hany : l.any (fun x => key x == key a) = true
  · rw [if_pos hany, find?_map_eq _ _ hfp l]
    cases hfind : l.find? (fun x => key x == k) with
    | none => rfl
    | some y =>
      have hpy : key y = k := by simpa using List.find?_some hfind
      have hya : (key y == key a) = false := by
        rw [beq_eq_false_iff_ne, hpy]
        exact hk
      have hfy : (if key y == key a then a else y) = y := by simp [hya]
      show some (if key y == key a then a else y) = some y
      rw [hfy]
  · rw [if_neg hany, find?_append_or]
    rw [List.find?_cons_of_neg _ (by simp [hka]), List.find?_nil, Option.or_none]

theorem findBy_mem {A : Type} (key : A → String) (l : List A) (k : String) (a : A)
    (h : findBy key l k = some a) : a ∈ l ∧ key a = k := by
  unfold findBy at h
  refine ⟨List.mem_of_find?_eq_some h, ?_⟩
  simpa using List.find?_some h

theorem findBy_isSome_upsertBy {A : Type} (key : A → String) (l : List A) (a : A)
    (k : String) (h : (findBy key l k).isSome) :
    (findBy key (upsertBy key l a) k).isSome := by
  by_cases hk : k = key a
  · subst hk; rw [findBy_upsertBy_self]; rfl
  · rw [findBy_upsertBy_other key l a k hk]; exact h

/-! ## C1: verify correctness -/

/-- A certificate whose verify response is fully valid. -/
def verifiesValid (crypto : Crypto) (cert : SignedCertificate) : Prop :=
  (verifyCertificate crypto cert).hashMatches = true ∧
  (verifyCertificate crypto cert).signatureValid = true ∧
  (verifyCertificate crypto cert).valid = true

/-- Every certificate in the store was signed under the issuing key pair
(the service persists only certificates it signed itself). -/
def storeIssuedBy (store : CertStore) (pk : String) : Prop :=
  ∀ c ∈ store, c.payload.issuer = pk

/-- Soundness of the Ed25519 pair: a signature made with the secret key
verifies under the derived public key. -/
def CryptoSound (crypto : Crypto) (sk : String) : Prop :=
  ∀ h, crypto.verifyHex h (crypto.signHex h sk)
    (crypto.publicKeyFromPrivateKeyHex sk) = some true

theorem verifiesValid_signCertificate (crypto : Crypto) (sk : String) (p : CertPayload)
    (hsig : CryptoSound crypto sk)
    (hissuer : p.issuer = crypto.publicKeyFromPrivateKeyHex sk) :
    verifiesValid crypto (signCertificate crypto p sk) := by
  unfold verifiesValid verifyCertificate signCertificate
  simp [hissuer, hsig (crypto.sha256Hex (canonicalJsonPayload p))]

theorem transferHandler_ok_verifies (crypto : Crypto) (sk pk : String)
    (store : CertStore) (parsed : TransferCertificateRequest) (now : String)
    (cert : SignedCertificate) (store1 : CertStore)
    (hsig : CryptoSound crypto sk) (hpk : pk = crypto.publicKeyFromPrivateKeyHex sk)
    (hstore : storeIssuedBy store pk)
    (h : transferHandler crypto sk store parsed now = (.ok cert, store1)) :
    verifiesValid crypto cert := by
  unfold transferHandler at h
  split at h
  · exact absurd h (by simp)
  · rename_i current hget
    have hcur : current.payload.issuer = pk :=
      hstore current (findBy_mem _ _ _ _ hget).1
    split at h
    · exact absurd h (by simp)
    · simp only [Prod.mk.injEq, TransferHandlerResult.ok.injEq] at h
      rw [← h.1]
      exact verifiesValid_signCertificate crypto sk _ hsig (by simpa [hpk] using hcur)

theorem statusHandler_ok_verifies (crypto : Crypto) (sk pk : String)
    (store : CertStore) (parsed : ChangeCertificateStatusRequest) (occurredAt : String)
    (cert : SignedCertificate) (store1 : CertStore)
    (hsig : CryptoSound crypto sk) (hpk : pk = crypto.publicKeyFromPrivateKeyHex sk)
    (hstore : storeIssuedBy store pk)
    (h : statusHandler crypto sk store parsed occurredAt = (.ok cert, store1)) :
    verifiesValid crypto cert := by
  unfold statusHandler at h
  split at h
  · exact absurd h (by simp)
  · rename_i current hget
    have hcur : current.payload.issuer = pk :=
      hstore current (findBy_mem _ _ _ _ hget).1
    split at h
    · simp only [Prod.mk.injEq, StatusHandlerResult.ok.injEq] at h
      rw [← h.1]
      exact verifiesValid_signCertificate crypto sk _ hsig (by simpa [hpk] using hcur)
    · exact absurd h (by simp)

theorem splitHandler_ok_verifies (crypto : Crypto) (sk pk : String)
    (store : CertStore) (parsed : SplitCertificateRequest) (childCertId nowIso : String)
    (pc cc : SignedCertificate) (store1 : CertStore)
    (hsig : CryptoSound crypto sk) (hpk : pk = crypto.publicKeyFromPrivateKeyHex sk)
    (hstore : storeIssuedBy store pk)
    (h : splitHandler crypto sk store parsed childCertId nowIso = (.ok pc cc, store1)) :
    verifiesValid crypto pc ∧ verifiesValid crypto cc := by
  unfold splitHandler at h
  split at h
  · exact absurd h (by simp)
  · rename_i parentCurrent hget
    have hcur : parentCurrent.payload.issuer = pk :=
      hstore parentCurrent (findBy_mem _ _ _ _ hget).1
    split at h
    · exact absurd h (by simp)
    · split at h <;>
      · simp only [] at h
        split at h
        · exact absurd h (by simp)
        · simp only [Prod.mk.injEq, SplitHandlerResult.ok.injEq] at h
          refine ⟨?_, ?_⟩
          · rw [← h.1.1]
            exact verifiesValid_signCertificate crypto sk _ hsig (by simpa [hpk] using hcur)
          · rw [← h.1.2]
            exact verifiesValid_signCertificate crypto sk _ hsig (by simpa [hpk] using hcur)

/-- The response shape of verify on an arbitrary resolved certificate. -/
def C1VerifyShape (crypto : Crypto) : Prop :=
  ∀ cert : SignedCertificate,
    (verifyCertificate crypto cert).hashMatches =
      (crypto.sha256Hex (canonicalJsonPayload cert.payload) == cert.payloadHash) ∧
    ((verifyCertificate crypto cert).hashMatches = false →
      (verifyCertificate crypto cert).signatureValid = false) ∧
    (crypto.verifyHex cert.payloadHash cert.signature cert.payload.issuer = none →
      (verifyCertificate crypto cert).signatureValid = false) ∧
    (verifyCertificate crypto cert).valid =
      ((verifyCertificate crypto cert).hashMatches &&
        (verifyCertificate crypto cert).signatureValid)

/-- The verify handler resolves the inline certificate or the stored one. -/
def C1HandlerResolution (crypto : Crypto) : Prop :=
  ∀ (store : CertStore) (req : VerifyCertificateRequest) (cert : SignedCertificate),
    (req.certId.isNone && req.certificate.isNone) = false →
    req.certificate.or (certStoreGet store (req.certId.getD "")) = some cert →
    verifyHandler crypto store req = .ok (verifyCertificate crypto cert)

/-- Every certificate produced by issue, transfer, split or status verifies
as fully valid. -/
def C1ProducedValid (crypto : Crypto) (sk : String) : Prop :=
  let pk := crypto.publicKeyFromPrivateKeyHex sk
  (∀ store parsed certId now,
    verifiesValid crypto (issueHandler crypto sk pk store parsed certId now).1) ∧
  (∀ store parsed now cert store1, storeIssuedBy store pk →
    transferHandler crypto sk store parsed now = (.ok cert, store1) →
    verifiesValid crypto cert) ∧
  (∀ store parsed childId now pc cc store1, storeIssuedBy store pk →
    splitHandler crypto sk store parsed childId now = (.ok pc cc, store1) →
    verifiesValid crypto pc ∧ verifiesValid crypto cc) ∧
  (∀ store parsed occurredAt cert store1, storeIssuedBy store pk →
    statusHandler crypto sk store parsed occurredAt = (.ok cert, store1) →
    verifiesValid crypto cert)

/-- Altering the payload of a signed certificate breaks both the hash check
and (because the signature is then not even checked) the signature check. -/
def C1Tamper (crypto : Crypto) (sk : String) (p p' : CertPayload) : Prop :=
  (verifyCertificate crypto { signCertificate crypto p sk with payload := p' }).hashMatches
    = false ∧
  (verifyCertificate crypto { signCertificate crypto p sk with payload := p' }).signatureValid
    = false

/-- C1: for every verify request resolving to a SignedCertificate (stored by
certId or supplied inline), the certificate service returns `hashMatches` =
(SHA-256 of the canonical payload JSON equals the stored `payloadHash`),
computes `signatureValid` only when `hashMatches` holds (false otherwise and
false on an exception), and `valid = hashMatches && signatureValid`; every
certificate produced by issue, transfer, split or status verifies with
`valid = true`; and altering any payload field makes both `hashMatches` and
`signatureValid` false.  The cryptographic hypotheses are Ed25519 soundness
(`hsig`) and SHA-256 collision-freeness at the tampered pair (`hcoll`). -/
theorem C1_certificate_verify (crypto : Crypto) (sk : String) (p p' : CertPayload)
    (hsig : CryptoSound crypto sk)
    (hp : p.issuer = crypto.publicKeyFromPrivateKeyHex sk)
    (hcoll : crypto.sha256Hex (canonicalJsonPayload p') =
      crypto.sha256Hex (canonicalJsonPayload p) → p' = p)
    (hne : p' ≠ p) :
    C1VerifyShape crypto ∧ C1HandlerResolution crypto ∧
    C1ProducedValid crypto sk ∧ C1Tamper crypto sk p p' := by
  refine ⟨?_, ?_, ?_, ?_⟩
  · intro cert
    refine ⟨rfl, ?_, ?_, rfl⟩
    · intro hfalse
      unfold verifyCertificate at hfalse ⊢
      simp only at hfalse ⊢
      rw [hfalse]
      simp
    · intro hexc
      unfold verifyCertificate
      simp only
      cases hmatch : (crypto.sha256Hex (canonicalJsonPayload cert.payload) == cert.payloadHash)
      · simp
      · simp [hexc]
  · intro store req cert hpresent hres
    unfold verifyHandler
    rw [hpresent]
    simp only [Bool.false_eq_true, if_false]
    rw [hres]
  · refine ⟨?_, ?_, ?_, ?_⟩
    · intro store parsed certId now
      exact verifiesValid_signCertificate crypto sk _ hsig rfl
    · intro store parsed now cert store1 hstore hrun
      exact transferHandler_ok_verifies crypto sk _ store parsed now cert store1 hsig rfl
        hstore hrun
    · intro store parsed childId now pc cc store1 hstore hrun
      exact splitHandler_ok_verifies crypto sk _ store parsed childId now pc cc store1 hsig rfl
        hstore hrun
    · intro store parsed occurredAt cert store1 hstore hrun
      exact statusHandler_ok_verifies crypto sk _ store parsed occurredAt cert store1 hsig rfl
        hstore hrun
  · have hdiff : (crypto.sha256Hex (canonicalJsonPayload p') ==
        crypto.sha256Hex (canonicalJsonPayload p)) = false := by
      rw [beq_eq_false_iff_ne]
      intro heq
      exact hne (hcoll heq)
    constructor
    · unfold verifyCertificate signCertificate
      simpa using hdiff
    · unfold verifyCertificate signCertificate
      simp only
      rw [show ((crypto.sha256Hex (canonicalJsonPayload p') ==
        crypto.sha256Hex (canonicalJsonPayload p))) = false from hdiff]
      simp

/-! ### Concrete witness instances -/

/-- A concrete toy crypto instance used to witness theorems with
cryptographic hypotheses: the hash prefixes its input, signatures tag the
hash with the secret key, public keys equal secret keys. -/
def toyCrypto : Crypto :=
  { sha256Hex := fun s => "H:" ++ s
    signHex := fun h sk => "S:" ++ h ++ ":" ++ sk
    verifyHex := fun h sig pk => some (sig == "S:" ++ h ++ ":" ++ pk)
    publicKeyFromPrivateKeyHex := fun sk => sk }

def toySk : String := "issuer-sk"

def toyPayloadA : CertPayload :=
  { certId := "DGC-1", issuer := "issuer-sk", owner := "0xA",
    amountGram := "1.2500", purity := "999.9",
    issuedAt := "2026-01-01T00:00:00.000Z", status := .ACTIVE, metadata := none }

def toyPayloadB : CertPayload := { toyPayloadA with amountGram := "3.0000" }

theorem toyCryptoSound : CryptoSound toyCrypto toySk := by
  intro h
  simp [toyCrypto, toySk]

/-- Witness for C1 at the toy crypto instance: all four hypotheses hold at
the concrete inputs and the theorem applies. -/
theorem C1_certificate_verify_witness :
    (CryptoSound toyCrypto toySk ∧
      toyPayloadA.issuer = toyCrypto.publicKeyFromPrivateKeyHex toySk ∧
      (toyCrypto.sha256Hex (canonicalJsonPayload toyPayloadB) =
        toyCrypto.sha256Hex (canonicalJsonPayload toyPayloadA) →
        toyPayloadB = toyPayloadA) ∧
      toyPayloadB ≠ toyPayloadA) ∧
    (C1VerifyShape toyCrypto ∧ C1HandlerResolution toyCrypto ∧
      C1ProducedValid toyCrypto toySk ∧
      C1Tamper toyCrypto toySk toyPayloadA toyPayloadB) := by
  have hsig : CryptoSound toyCrypto toySk := toyCryptoSound
  have hp : toyPayloadA.issuer = toyCrypto.publicKeyFromPrivateKeyHex toySk := rfl
  have hcoll : toyCrypto.sha256Hex (canonicalJsonPayload toyPayloadB) =
      toyCrypto.sha256Hex (canonicalJsonPayload toyPayloadA) →
      toyPayloadB = toyPayloadA := by decide
  have hne : toyPayloadB ≠ toyPayloadA := by decide
  exact ⟨⟨hsig, hp, hcoll, hne⟩,
    C1_certificate_verify toyCrypto toySk toyPayloadA toyPayloadB hsig hp hcoll hne⟩

/-! ## C2: split conservation -/

/-- The successful split outcome: both certificates are persisted, the
scaled amounts conserve the parent's pre-split amount exactly, the parent
keeps its owner, and the child carries the destination owner and the
parent's issuer and purity. -/
def C2SplitOk (crypto : Crypto) (sk : String) (store : CertStore)
    (parsed : SplitCertificateRequest) (childCertId nowIso : String)
    (parentCurrent : SignedCertificate) : Prop :=
  ∃ pc cc,
    splitHandler crypto sk store parsed childCertId nowIso =
      (.ok pc cc, certStorePut (certStorePut store pc) cc) ∧
    parseAmountGramScaled pc.payload.amountGram +
      parseAmountGramScaled cc.payload.amountGram =
      parseAmountGramScaled parentCurrent.payload.amountGram ∧
    pc.payload.owner = parentCurrent.payload.owner ∧
    pc.payload.certId = parentCurrent.payload.certId ∧
    cc.payload.owner = parsed.toOwner ∧
    cc.payload.issuer = parentCurrent.payload.issuer ∧
    cc.payload.purity = parentCurrent.payload.purity

/-- C2: for every split request on an existing ACTIVE parent, if
`0 < scaled(amountChildGram) < scaled(parent.amountGram)` the resulting
parent and child conserve the scaled amount exactly with unchanged parent
owner and the child owned by `toOwner` with the parent's issuer and purity;
if the child amount is `≤ 0` or `≥` the parent amount the request is
rejected with `invalid_amount` (HTTP 400) and the store is unchanged. -/
theorem C2_split_conservation (crypto : Crypto) (sk : String) (store : CertStore)
    (parsed : SplitCertificateRequest) (childCertId nowIso : String)
    (parentCurrent : SignedCertificate)
    (hget : certStoreGet store parsed.parentCertId = some parentCurrent)
    (hactive : parentCurrent.payload.status = .ACTIVE) :
    (0 < parseAmountGramScaled parsed.amountChildGram →
      parseAmountGramScaled parsed.amountChildGram <
        parseAmountGramScaled parentCurrent.payload.amountGram →
      C2SplitOk crypto sk store parsed childCertId nowIso parentCurrent) ∧
    (parseAmountGramScaled parsed.amountChildGram = 0 ∨
      parseAmountGramScaled parentCurrent.payload.amountGram ≤
        parseAmountGramScaled parsed.amountChildGram →
      splitHandler crypto sk store parsed childCertId nowIso = (.invalidAmount, store)) := by
  constructor
  · intro hpos hlt
    unfold C2SplitOk
    simp only [splitHandler, hget]
    rw [if_neg (by simp [hactive]), if_neg (by omega)]
    cases hprice : parsed.price with
    | none =>
      simp only [hprice]
      refine ⟨_, _, rfl, ?_, rfl, rfl, rfl, rfl, rfl⟩
      simp only [signCertificate]
      rw [parseAmountGramScaled_formatAmountGram, parseAmountGramScaled_formatAmountGram]
      omega
    | some price =>
      simp only [hprice]
      refine ⟨_, _, rfl, ?_, rfl, rfl, rfl, rfl, rfl⟩
      simp only [signCertificate]
      rw [parseAmountGramScaled_formatAmountGram, parseAmountGramScaled_formatAmountGram]
      omega
  · intro hbad
    simp only [splitHandler, hget]
    rw [if_neg (by simp [hactive]), if_pos (by omega)]

/-- The split witness parent: the toy payload with amount `3.0000`. -/
def toySplitParent : SignedCertificate := signCertificate toyCrypto toyPayloadB toySk

def toySplitReq : SplitCertificateRequest :=
  { parentCertId := "DGC-1", toOwner := "0xB", amountChildGram := "1.2500", price := none }

/-- Witness for C2 at a concrete ACTIVE parent of `3.0000` grams split by
`1.2500` grams. -/
theorem C2_split_conservation_witness :
    (certStoreGet [toySplitParent] toySplitReq.parentCertId = some toySplitParent ∧
      toySplitParent.payload.status = .ACTIVE) ∧
    ((0 < parseAmountGramScaled toySplitReq.amountChildGram →
      parseAmountGramScaled toySplitReq.amountChildGram <
        parseAmountGramScaled toySplitParent.payload.amountGram →
      C2SplitOk toyCrypto toySk [toySplitParent] toySplitReq "DGC-CHILD"
        "2026-01-02T00:00:00.000Z" toySplitParent) ∧
    (parseAmountGramScaled toySplitReq.amountChildGram = 0 ∨
      parseAmountGramScaled toySplitParent.payload.amountGram ≤
        parseAmountGramScaled toySplitReq.amountChildGram →
      splitHandler toyCrypto toySk [toySplitParent] toySplitReq "DGC-CHILD"
        "2026-01-02T00:00:00.000Z" = (.invalidAmount, [toySplitParent]))) := by
  refine ⟨⟨?_, rfl⟩, ?_⟩
  · rfl
  · exact C2_split_conservation toyCrypto toySk [toySplitParent] toySplitReq "DGC-CHILD"
      "2026-01-02T00:00:00.000Z" toySplitParent rfl rfl

/-! ## C3: state-machine closure -/

theorem certStoreGet_put_self (store : CertStore) (c : SignedCertificate) :
    certStoreGet (certStorePut store c) c.payload.certId = some c :=
  findBy_upsertBy_self _ store c

theorem certStoreGet_put_other (store : CertStore) (c : SignedCertificate) (k : String)
    (hk : k ≠ c.payload.certId) :
    certStoreGet (certStorePut store c) k = certStoreGet store k :=
  findBy_upsertBy_other _ store c k hk

theorem certStoreGet_put_isSome (store : CertStore) (c : SignedCertificate) (k : String)
    (h : (certStoreGet store k).isSome) :
    (certStoreGet (certStorePut store c) k).isSome :=
  findBy_isSome_upsertBy _ store c k h

/-- One certificate-service mutation (the request is already parsed; the
fresh identifier and timestamp effects are the explicit arguments). -/
inductive CertOp where
  | issueOp (parsed : IssueCertificateRequest) (certId now : String)
  | transferOp (parsed : TransferCertificateRequest) (now : String)
  | splitOp (parsed : SplitCertificateRequest) (childCertId now : String)
  | statusOp (parsed : ChangeCertificateStatusRequest) (occurredAt : String)

/-- The store after running one certificate-service mutation. -/
def applyCertOp (crypto : Crypto) (sk pk : String) (store : CertStore) :
    CertOp → CertStore
  | .issueOp parsed certId now => (issueHandler crypto sk pk store parsed certId now).2
  | .transferOp parsed now => (transferHandler crypto sk store parsed now).2
  | .splitOp parsed childCertId now => (splitHandler crypto sk store parsed childCertId now).2
  | .statusOp parsed occurredAt => (statusHandler crypto sk store parsed occurredAt).2

/-- Generated identifiers (`DGC-{timestamp}-{uuid}`) are fresh. -/
def certOpFresh (store : CertStore) : CertOp → Prop
  | .issueOp _ certId _ => ∀ c ∈ store, c.payload.certId ≠ certId
  | .splitOp _ childCertId _ => ∀ c ∈ store, c.payload.certId ≠ childCertId
  | _ => True

/-- The allowed evolution of a certificate status in one observation:
unchanged, or along `ALLOWED_STATUS_TRANSITIONS`. -/
def statusStep (s s' : CertificateStatus) : Prop :=
  s' = s ∨ s' ∈ allowedStatusTransitions s

/-- Stores reachable from a starting store by any sequence of
certificate-service mutations (with fresh generated identifiers). -/
inductive CertReaches (crypto : Crypto) (sk pk : String) : CertStore → CertStore → Prop where
  | refl (store : CertStore) : CertReaches crypto sk pk store store
  | step (store mid : CertStore) (op : CertOp) :
      CertReaches crypto sk pk store mid → certOpFresh mid op →
      CertReaches crypto sk pk store (applyCertOp crypto sk pk mid op)

theorem issueHandler_store (crypto : Crypto) (sk pk : String) (store : CertStore)
    (parsed : IssueCertificateRequest) (certId now : String) :
    (issueHandler crypto sk pk store parsed certId now).2 =
      certStorePut store (issueHandler crypto sk pk store parsed certId now).1 ∧
    (issueHandler crypto sk pk store parsed certId now).1.payload.certId = certId := ⟨rfl, rfl⟩

theorem transferHandler_store (crypto : Crypto) (sk : String) (store : CertStore)
    (parsed : TransferCertificateRequest) (now : String) :
    (transferHandler crypto sk store parsed now).2 = store ∨
    ∃ current cert,
      certStoreGet store parsed.certId = some current ∧
      (transferHandler crypto sk store parsed now).2 = certStorePut store cert ∧
      cert.payload.certId = current.payload.certId ∧
      cert.payload.status = current.payload.status := by
  unfold transferHandler
  cases hget : certStoreGet store parsed.certId with
  | none => exact Or.inl rfl
  | some current =>
    by_cases hst : current.payload.status ≠ CertificateStatus.ACTIVE
    · left
      simp [hst]
    · right
      refine ⟨current, signCertificate crypto
          { current.payload with
            owner := parsed.toOwner
            metadata := some (match parsed.price with
              | some p => metaSet (metaSet (current.payload.metadata.getD [])
                  "lastTransferAt" now) "lastTransferPrice" p
              | none => metaSet (current.payload.metadata.getD []) "lastTransferAt" now) } sk,
        rfl, ?_, rfl, rfl⟩
      simp [hst]

theorem statusHandler_store (crypto : Crypto) (sk : String) (store : CertStore)
    (parsed : ChangeCertificateStatusRequest) (occurredAt : String) :
    (statusHandler crypto sk store parsed occurredAt).2 = store ∨
    ∃ current cert,
      certStoreGet store parsed.certId = some current ∧
      (statusHandler crypto sk store parsed occurredAt).2 = certStorePut store cert ∧
      cert.payload.certId = current.payload.certId ∧
      cert.payload.status = parsed.status ∧
      parsed.status ∈ allowedStatusTransitions current.payload.status := by
  unfold statusHandler
  cases hget : certStoreGet store parsed.certId with
  | none => exact Or.inl rfl
  | some current =>
    by_cases hall : (allowedStatusTransitions current.payload.status).contains parsed.status
    · right
      refine ⟨current, signCertificate crypto
          { current.payload with
            status := parsed.status
            metadata := some (metaSet (current.payload.metadata.getD [])
              "lastStatusChangeAt" occurredAt) } sk,
        rfl, ?_, rfl, rfl, by simpa using hall⟩
      have hmem : parsed.status ∈ allowedStatusTransitions current.payload.status := by
        simpa using hall
      simp [hmem]
    · left
      have hmem : parsed.status ∉ allowedStatusTransitions current.payload.status := by
        simpa using hall
      simp [hmem]

theorem splitHandler_store (crypto : Crypto) (sk : String) (store : CertStore)
    (parsed : SplitCertificateRequest) (childCertId now : String) :
    (splitHandler crypto sk store parsed childCertId now).2 = store ∨
    ∃ parentCurrent pc cc,
      certStoreGet store parsed.parentCertId = some parentCurrent ∧
      (splitHandler crypto sk store parsed childCertId now).2 =
        certStorePut (certStorePut store pc) cc ∧
      pc.payload.certId = parentCurrent.payload.certId ∧
      pc.payload.status = parentCurrent.payload.status ∧
      cc.payload.certId = childCertId := by
  unfold splitHandler
  cases hget : certStoreGet store parsed.parentCertId with
  | none => exact Or.inl rfl
  | some parentCurrent =>
    by_cases hst : parentCurrent.payload.status ≠ CertificateStatus.ACTIVE
    · left
      simp [hst]
    · by_cases hamt : parseAmountGramScaled parsed.amountChildGram ≤ 0 ∨
        parseAmountGramScaled parsed.amountChildGram ≥
          parseAmountGramScaled parentCurrent.payload.amountGram
      · left
        have hamt2 : parseAmountGramScaled parsed.amountChildGram = 0 ∨
            parseAmountGramScaled parentCurrent.payload.amountGram ≤
              parseAmountGramScaled parsed.amountChildGram := by omega
        simp [hst, hamt2]
      · right
        refine ⟨parentCurrent,
          signCertificate crypto
            { parentCurrent.payload with
              amountGram := formatAmountGram
                (parseAmountGramScaled parentCurrent.payload.amountGram -
                  parseAmountGramScaled parsed.amountChildGram)
              metadata := some (metaSet (parentCurrent.payload.metadata.getD [])
                "lastSplitAt" now) } sk,
          signCertificate crypto
            { certId := childCertId
              issuer := parentCurrent.payload.issuer
              owner := parsed.toOwner
              amountGram := formatAmountGram (parseAmountGramScaled parsed.amountChildGram)
              purity := parentCurrent.payload.purity
              issuedAt := now
              status := .ACTIVE
              metadata := some (match parsed.price with
                | some p => [("parentCertId", parentCurrent.payload.certId), ("splitPrice", p)]
                | none => [("parentCertId", parentCurrent.payload.certId)]) } sk,
          rfl, ?_, rfl, rfl, rfl⟩
        simp only [hst]
        simp only [hamt]
        cases hprice : parsed.price <;> simp [hprice]

theorem applyCertOp_presence (crypto : Crypto) (sk pk : String) (store : CertStore)
    (op : CertOp) (k : String) (h : (certStoreGet store k).isSome) :
    (certStoreGet (applyCertOp crypto sk pk store op) k).isSome := by
  cases op with
  | issueOp parsed certId now =>
    rw [show applyCertOp crypto sk pk store (.issueOp parsed certId now) =
      certStorePut store (issueHandler crypto sk pk store parsed certId now).1 from rfl]
    exact certStoreGet_put_isSome _ _ _ h
  | transferOp parsed now =>
    rcases transferHandler_store crypto sk store parsed now with heq | ⟨_, cert, _, heq, _, _⟩
    · show (certStoreGet (transferHandler crypto sk store parsed now).2 k).isSome
      rw [heq]; exact h
    · show (certStoreGet (transferHandler crypto sk store parsed now).2 k).isSome
      rw [heq]; exact certStoreGet_put_isSome _ _ _ h
  | splitOp parsed childCertId now =>
    rcases splitHandler_store crypto sk store parsed childCertId now with
      heq | ⟨_, pc, cc, _, heq, _, _, _⟩
    · show (certStoreGet (splitHandler crypto sk store parsed childCertId now).2 k).isSome
      rw [heq]; exact h
    · show (certStoreGet (splitHandler crypto sk store parsed childCertId now).2 k).isSome
      rw [heq]
      exact certStoreGet_put_isSome _ _ _ (certStoreGet_put_isSome _ _ _ h)
  | statusOp parsed occurredAt =>
    rcases statusHandler_store crypto sk store parsed occurredAt with
      heq | ⟨_, cert, _, heq, _, _, _⟩
    · show (certStoreGet (statusHandler crypto sk store parsed occurredAt).2 k).isSome
      rw [heq]; exact h
    · show (certStoreGet (statusHandler crypto sk store parsed occurredAt).2 k).isSome
      rw [heq]; exact certStoreGet_put_isSome _ _ _ h

theorem applyCertOp_status_step (crypto : Crypto) (sk pk : String) (store : CertStore)
    (op : CertOp) (k : String) (cur next : SignedCertificate)
    (hfresh : certOpFresh store op)
    (hcur : certStoreGet store k = some cur)
    (hnext : certStoreGet (applyCertOp crypto sk pk store op) k = some next) :
    statusStep cur.payload.status next.payload.status := by
  have hcurmem := findBy_mem _ _ _ _ hcur
  cases op with
  | issueOp parsed certId now =>
    have hkne : k ≠ certId := by
      intro hkeq
      exact hfresh cur hcurmem.1 (hcurmem.2.symm ▸ hkeq)
    rw [show applyCertOp crypto sk pk store (.issueOp parsed certId now) =
      certStorePut store (issueHandler crypto sk pk store parsed certId now).1 from rfl,
      certStoreGet_put_other _ _ _ (by
        rw [(issueHandler_store crypto sk pk store parsed certId now).2]
        exact hkne), hcur] at hnext
    cases hnext
    exact Or.inl rfl
  | transferOp parsed now =>
    rcases transferHandler_store crypto sk store parsed now with
      heq | ⟨current, cert, hget, heq, hcid, hstat⟩
    · rw [show applyCertOp crypto sk pk store (.transferOp parsed now) =
        (transferHandler crypto sk store parsed now).2 from rfl, heq, hcur] at hnext
      cases hnext
      exact Or.inl rfl
    · rw [show applyCertOp crypto sk pk store (.transferOp parsed now) =
        (transferHandler crypto sk store parsed now).2 from rfl, heq] at hnext
      by_cases hk : k = cert.payload.certId
      · subst hk
        rw [certStoreGet_put_self] at hnext
        cases hnext
        have hgetmem := findBy_mem _ _ _ _ hget
        have : cur = current := by
          rw [hcid, hgetmem.2] at hcur
          rw [hget] at hcur
          injection hcur with hinj
          exact hinj.symm
        rw [hstat, this]
        exact Or.inl rfl
      · rw [certStoreGet_put_other _ _ _ hk, hcur] at hnext
        cases hnext
        exact Or.inl rfl
  | statusOp parsed occurredAt =>
    rcases statusHandler_store crypto sk store parsed occurredAt with
      heq | ⟨current, cert, hget, heq, hcid, hstat, hall⟩
    · rw [show applyCertOp crypto sk pk store (.statusOp parsed occurredAt) =
        (statusHandler crypto sk store parsed occurredAt).2 from rfl, heq, hcur] at hnext
      cases hnext
      exact Or.inl rfl
    · rw [show applyCertOp crypto sk pk store (.statusOp parsed occurredAt) =
        (statusHandler crypto sk store parsed occurredAt).2 from rfl, heq] at hnext
      by_cases hk : k = cert.payload.certId
      · subst hk
        rw [certStoreGet_put_self] at hnext
        cases hnext
        have hgetmem := findBy_mem _ _ _ _ hget
        have : cur = current := by
          rw [hcid, hgetmem.2] at hcur
          rw [hget] at hcur
          injection hcur with hinj
          exact hinj.symm
        rw [hstat, this]
        exact Or.inr hall
      · rw [certStoreGet_put_other _ _ _ hk, hcur] at hnext
        cases hnext
        exact Or.inl rfl
  | splitOp parsed childCertId now =>
    rcases splitHandler_store crypto sk store parsed childCertId now with
      heq | ⟨parentCurrent, pc, cc, hget, heq, hcid, hstat, hccid⟩
    · rw [show applyCertOp crypto sk pk store (.splitOp parsed childCertId now) =
        (splitHandler crypto sk store parsed childCertId now).2 from rfl, heq, hcur] at hnext
      cases hnext
      exact Or.inl rfl
    · have hknec : k ≠ cc.payload.certId := by
        rw [hccid]
        intro hkeq
        exact hfresh cur hcurmem.1 (hcurmem.2.symm ▸ hkeq)
      rw [show applyCertOp crypto sk pk store (.splitOp parsed childCertId now) =
        (splitHandler crypto sk store parsed childCertId now).2 from rfl, heq,
        certStoreGet_put_other _ _ _ hknec] at hnext
      by_cases hk : k = pc.payload.certId
      · subst hk
        rw [certStoreGet_put_self] at hnext
        cases hnext
        have hgetmem := findBy_mem _ _ _ _ hget
        have : cur = parentCurrent := by
          rw [hcid, hgetmem.2] at hcur
          rw [hget] at hcur
          injection hcur with hinj
          exact hinj.symm
        rw [hstat, this]
        exact Or.inl rfl
      · rw [certStoreGet_put_other _ _ _ hk, hcur] at hnext
        cases hnext
        exact Or.inl rfl

theorem certReaches_presence (crypto : Crypto) (sk pk : String) (s s' : CertStore)
    (h : CertReaches crypto sk pk s s') (k : String)
    (hs : (certStoreGet s k).isSome) : (certStoreGet s' k).isSome := by
  induction h with
  | refl => exact hs
  | step mid op _ _ ih => exact applyCertOp_presence crypto sk pk _ op k ih

/-- Certificate state-machine closure over arbitrary mutation sequences. -/
def C3CertClosure (crypto : Crypto) (sk pk : String) : Prop :=
  ∀ s s', CertReaches crypto sk pk s s' →
    ∀ k cur next, certStoreGet s k = some cur → certStoreGet s' k = some next →
      Relation.ReflTransGen statusStep cur.payload.status next.payload.status

/-- Disallowed requested transitions are rejected with `state_conflict`
(HTTP 409) and the exact message, leaving the store unchanged. -/
def C3CertConflict (crypto : Crypto) (sk : String) : Prop :=
  ∀ store parsed occurredAt current,
    certStoreGet store parsed.certId = some current →
    parsed.status ∉ allowedStatusTransitions current.payload.status →
    statusHandler crypto sk store parsed occurredAt =
      (.stateConflict ("Transition " ++ statusName current.payload.status ++ " -> " ++
        statusName parsed.status ++ " is not allowed"), store)

theorem C3_cert_closure (crypto : Crypto) (sk pk : String) : C3CertClosure crypto sk pk := by
  intro s s' h
  induction h with
  | refl =>
    intro k cur next hc hn
    rw [hc] at hn
    cases hn
    exact Relation.ReflTransGen.refl
  | step mid op hreach hfresh ih =>
    intro k cur next hc hn
    have hmid : (certStoreGet mid k).isSome :=
      certReaches_presence crypto sk pk _ mid hreach k (by rw [hc]; rfl)
    obtain ⟨m, hm⟩ := Option.isSome_iff_exists.mp hmid
    exact Relation.ReflTransGen.tail (ih k cur m hc hm)
      (applyCertOp_status_step crypto sk pk mid op k m next hfresh hm hn)

theorem C3_cert_conflict (crypto : Crypto) (sk : String) : C3CertConflict crypto sk := by
  intro store parsed occurredAt current hget hnall
  unfold statusHandler
  rw [hget]
  simp only []
  rw [if_neg (by simpa using hnall)]

/-! ### Listing state machine -/

theorem listings_putIdempotencyRecord (s : ListingStore) (r : IdempotencyRecord) :
    (putIdempotencyRecord s r).listings = s.listings := by
  unfold putIdempotencyRecord
  split <;> rfl

theorem listings_appendAuditEvent (s : ListingStore) (e : ListingAuditEvent) :
    (appendAuditEvent s e).listings = s.listings := rfl

/-- One marketplace mutation; the downstream client, the freeze-state reply
and the effectful identifiers/timestamps are carried by the operation. -/
inductive MarketOp where
  | createOp (client : CertClient) (recon : Option (HttpResult LatestReconW))
      (parsed : CreateListingRequest) (listingId now auditEventId : String)
  | lockOp (client : CertClient) (recon : Option (HttpResult LatestReconW))
      (parsed : LockEscrowRequest) (idempotencyKey now auditEventId : String)
  | settleOp (client : CertClient) (recon : Option (HttpResult LatestReconW))
      (parsed : SettleEscrowRequest) (idempotencyKey now auditEventId : String)
  | cancelOp (client : CertClient) (parsed : CancelEscrowRequest)
      (idempotencyKey now auditEventId : String)

def applyMarketOp (crypto : Crypto) (store : ListingStore) : MarketOp → ListingStore
  | .createOp client recon parsed listingId now eid =>
    (createListingHandler client recon store parsed listingId now eid).2.1
  | .lockOp client recon parsed key now eid =>
    (lockEscrowHandler crypto client recon store parsed key now eid).2.1
  | .settleOp client recon parsed key now eid =>
    (settleEscrowHandler crypto client recon store parsed key now eid).2.1
  | .cancelOp client parsed key now eid =>
    (cancelEscrowHandler crypto client store parsed key now eid).2.1

/-- Generated listing identifiers (`LST-{timestamp}-{uuid}`) are fresh. -/
def marketOpFresh (store : ListingStore) : MarketOp → Prop
  | .createOp _ _ _ listingId _ _ => ∀ l ∈ store.listings, l.listingId ≠ listingId
  | _ => True

/-- The allowed evolution of a listing status in one observation:
unchanged, or along `OPEN → {LOCKED, CANCELLED}`, `LOCKED → {SETTLED,
CANCELLED}`. -/
def listingStatusStep (s s' : ListingStatus) : Prop :=
  s' = s ∨
  (s = .OPEN ∧ (s' = .LOCKED ∨ s' = .CANCELLED)) ∨
  (s = .LOCKED ∧ (s' = .SETTLED ∨ s' = .CANCELLED))

inductive MarketReaches (crypto : Crypto) : ListingStore → ListingStore → Prop where
  | refl (store : ListingStore) : MarketReaches crypto store store
  | step (store mid : ListingStore) (op : MarketOp) :
      MarketReaches crypto store mid → marketOpFresh mid op →
      MarketReaches crypto store (applyMarketOp crypto mid op)

theorem createListingHandler_store (client : CertClient)
    (recon : Option (HttpResult LatestReconW)) (store : ListingStore)
    (parsed : CreateListingRequest) (listingId now eid : String) :
    (createListingHandler client recon store parsed listingId now eid).2.1 = store ∨
    ∃ listing : MarketplaceListing,
      (createListingHandler client recon store parsed listingId now eid).2.1.listings =
        upsertBy (fun x => x.listingId) store.listings listing ∧
      listing.listingId = listingId := by
  unfold createListingHandler
  cases hfz : enforceFreezeGuard recon with
  | some resp => left; rfl
  | none =>
    by_cases hok : (client.getCertificate parsed.certId).ok = false
    · left; simp [hok]
    · cases hdata : (client.getCertificate parsed.certId).data with
      | none => left; simp [hok, hdata]
      | some certificate =>
        by_cases howner : certificate.payload.owner ≠ parsed.seller
        · left; simp [hok, hdata, howner]
        · by_cases hst : certificate.payload.status ≠ CertificateStatus.ACTIVE
          · left; simp [hok, hdata, howner, hst]
          · right
            refine ⟨{ listingId := listingId, certId := parsed.certId,
                      seller := parsed.seller, askPrice := parsed.askPrice,
                      status := .OPEN, createdAt := now, updatedAt := now }, ?_, rfl⟩
            simp [hok, hdata, howner, hst, listings_appendAuditEvent]
            rfl

theorem lockEscrowHandler_store (crypto : Crypto) (client : CertClient)
    (recon : Option (HttpResult LatestReconW)) (store : ListingStore)
    (parsed : LockEscrowRequest) (key now eid : String) :
    (lockEscrowHandler crypto client recon store parsed key now eid).2.1 = store ∨
    ∃ current updated,
      getListing store parsed.listingId = some current ∧
      (lockEscrowHandler crypto client recon store parsed key now eid).2.1.listings =
        upsertBy (fun x => x.listingId) store.listings updated ∧
      updated.listingId = current.listingId ∧
      current.status = .OPEN ∧
      updated.status = .LOCKED := by
  unfold lockEscrowHandler
  cases hidem : getIdempotencyRecord store .LOCK_ESCROW key with
  | some existing =>
    by_cases hh : existing.requestHash ≠ crypto.sha256Hex (canonicalJsonLockReq parsed)
    · left; simp [hh]
    · left; simp [hh]
  | none =>
    cases hget : getListing store parsed.listingId with
    | none => left; rfl
    | some current =>
      by_cases hst : current.status ≠ ListingStatus.OPEN
      · left; simp [hst]
      · cases hfz : enforceFreezeGuard recon with
        | some resp => left; simp [hst, hfz]
        | none =>
          by_cases hok : (client.changeStatus ⟨current.certId, .LOCKED⟩).ok = false
          · left; simp [hst, hfz, hok]
          · right
            refine ⟨current,
              { current with
                status := .LOCKED,
                lockedBy := some parsed.buyer, lockedAt := some now, updatedAt := now },
              rfl, ?_, rfl, ?_, rfl⟩
            · simp [hst, hfz, hok, listings_putIdempotencyRecord, listings_appendAuditEvent]
              rfl
            · simpa using hst

theorem settleEscrowHandler_store (crypto : Crypto) (client : CertClient)
    (recon : Option (HttpResult LatestReconW)) (store : ListingStore)
    (parsed : SettleEscrowRequest) (key now eid : String) :
    (settleEscrowHandler crypto client recon store parsed key now eid).2.1 = store ∨
    ∃ current updated,
      getListing store parsed.listingId = some current ∧
      (settleEscrowHandler crypto client recon store parsed key now eid).2.1.listings =
        upsertBy (fun x => x.listingId) store.listings updated ∧
      updated.listingId = current.listingId ∧
      current.status = .LOCKED ∧
      updated.status = .SETTLED := by
  unfold settleEscrowHandler
  cases hidem : getIdempotencyRecord store .SETTLE_ESCROW key with
  | some existing =>
    by_cases hh : existing.requestHash ≠ crypto.sha256Hex (canonicalJsonSettleReq parsed)
    · left; simp [hh]
    · left; simp [hh]
  | none =>
    cases hget : getListing store parsed.listingId with
    | none => left; rfl
    | some current =>
      by_cases hst : current.status ≠ ListingStatus.LOCKED
      · left; simp [hst]
      · by_cases hbuyer : current.lockedBy ≠ some parsed.buyer
        · left; simp [hst, hbuyer]
        · cases hfz : enforceFreezeGuard recon with
          | some resp => left; simp [hst, hbuyer, hfz]
          | none =>
            by_cases hok : (client.changeStatus ⟨current.certId, .ACTIVE⟩).ok = false
            · left; simp [hst, hbuyer, hfz, hok]
            · by_cases htok : (client.transfer ⟨current.certId, parsed.buyer,
                some (jsOrString parsed.settledPrice current.askPrice)⟩).ok = false
              · left; simp [hst, hbuyer, hfz, hok, htok]
              · cases hdata : (client.transfer ⟨current.certId, parsed.buyer,
                  some (jsOrString parsed.settledPrice current.askPrice)⟩).data with
                | none => left; simp [hst, hbuyer, hfz, hok, htok, hdata]
                | some transfer =>
                  right
                  refine ⟨current,
                    { current with
                      status := .SETTLED,
                      settledPrice := some (jsOrString parsed.settledPrice current.askPrice),
                      settledAt := some now, updatedAt := now },
                    rfl, ?_, rfl, ?_, rfl⟩
                  · simp [hst, hbuyer, hfz, hok, htok, hdata,
                      listings_putIdempotencyRecord, listings_appendAuditEvent]
                    rfl
                  · simpa using hst

theorem cancelEscrowHandler_store (crypto : Crypto) (client : CertClient)
    (store : ListingStore) (parsed : CancelEscrowRequest) (key now eid : String) :
    (cancelEscrowHandler crypto client store parsed key now eid).2.1 = store ∨
    ∃ current updated,
      getListing store parsed.listingId = some current ∧
      (cancelEscrowHandler crypto client store parsed key now eid).2.1.listings =
        upsertBy (fun x => x.listingId) store.listings updated ∧
      updated.listingId = current.listingId ∧
      (current.status = .OPEN ∨ current.status = .LOCKED) ∧
      updated.status = .CANCELLED := by
  unfold cancelEscrowHandler
  cases hidem : getIdempotencyRecord store .CANCEL_ESCROW key with
  | some existing =>
    by_cases hh : existing.requestHash ≠ crypto.sha256Hex (canonicalJsonCancelReq parsed)
    · left; simp [hh]
    · left; simp [hh]
  | none =>
    cases hget : getListing store parsed.listingId with
    | none => left; rfl
    | some current =>
      by_cases hterm : current.status = .SETTLED ∨ current.status = .CANCELLED
      · left; simp [hterm]
      · by_cases hunlock : current.status = .LOCKED ∧
          (client.changeStatus ⟨current.certId, .ACTIVE⟩).ok = false
        · left; simp [hterm, hunlock]
        · right
          refine ⟨current,
            { current with
              status := .CANCELLED,
              cancelledAt := some now, cancelReason := parsed.reason, updatedAt := now },
            rfl, ?_, rfl, ?_, rfl⟩
          · simp [hterm, hunlock, listings_putIdempotencyRecord, listings_appendAuditEvent]
            rfl
          · cases hcs : current.status
            · exact Or.inl rfl
            · exact Or.inr rfl
            · exact absurd (Or.inl hcs) hterm
            · exact absurd (Or.inr hcs) hterm

theorem applyMarketOp_presence (crypto : Crypto) (store : ListingStore)
    (op : MarketOp) (k : String) (h : (getListing store k).isSome) :
    (getListing (applyMarketOp crypto store op) k).isSome := by
  have hgen : ∀ s' : ListingStore, s' = store ∨
      (∃ l : MarketplaceListing, s'.listings = upsertBy (fun x => x.listingId) store.listings l) →
      (getListing s' k).isSome := by
    intro s' hs'
    rcases hs' with hs' | ⟨l, hs'⟩
    · rw [hs']; exact h
    · show (findBy (fun x => x.listingId) s'.listings k).isSome
      rw [hs']
      exact findBy_isSome_upsertBy _ _ _ _ h
  cases op with
  | createOp client recon parsed listingId now eid =>
    rcases createListingHandler_store client recon store parsed listingId now eid with
      heq | ⟨l, hl, _⟩
    · show (getListing (createListingHandler client recon store parsed listingId now eid).2.1
        k).isSome
      rw [heq]; exact h
    · show (findBy (fun x => x.listingId)
        (createListingHandler client recon store parsed listingId now eid).2.1.listings
        k).isSome
      rw [hl]
      exact findBy_isSome_upsertBy _ _ _ _ h
  | lockOp client recon parsed key now eid =>
    rcases lockEscrowHandler_store crypto client recon store parsed key now eid with
      heq | ⟨_, u, _, hl, _, _, _⟩
    · show (getListing (lockEscrowHandler crypto client recon store parsed key now eid).2.1
        k).isSome
      rw [heq]; exact h
    · show (findBy (fun x => x.listingId)
        (lockEscrowHandler crypto client recon store parsed key now eid).2.1.listings
        k).isSome
      rw [hl]
      exact findBy_isSome_upsertBy _ _ _ _ h
  | settleOp client recon parsed key now eid =>
    rcases settleEscrowHandler_store crypto client recon store parsed key now eid with
      heq | ⟨_, u, _, hl, _, _, _⟩
    · show (getListing (settleEscrowHandler crypto client recon store parsed key now eid).2.1
        k).isSome
      rw [heq]; exact h
    · show (findBy (fun x => x.listingId)
        (settleEscrowHandler crypto client recon store parsed key now eid).2.1.listings
        k).isSome
      rw [hl]
      exact findBy_isSome_upsertBy _ _ _ _ h
  | cancelOp client parsed key now eid =>
    rcases cancelEscrowHandler_store crypto client store parsed key now eid with
      heq | ⟨_, u, _, hl, _, _, _⟩
    · show (getListing (cancelEscrowHandler crypto client store parsed key now eid).2.1
        k).isSome
      rw [heq]; exact h
    · show (findBy (fun x => x.listingId)
        (cancelEscrowHandler crypto client store parsed key now eid).2.1.listings
        k).isSome
      rw [hl]
      exact findBy_isSome_upsertBy _ _ _ _ h

theorem upsert_listing_step (store : ListingStore) (k : String)
    (cur next current updated : MarketplaceListing) (s' : ListingStore)
    (hget : getListing store current.listingId = some current)
    (hlst : s'.listings = upsertBy (fun x => x.listingId) store.listings updated)
    (hlid : updated.listingId = current.listingId)
    (hcur : getListing store k = some cur)
    (hnext : getListing s' k = some next)
    (hstep : listingStatusStep current.status updated.status) :
    listingStatusStep cur.status next.status := by
  have hnext' : findBy (fun x => x.listingId) s'.listings k = some next := hnext
  rw [hlst] at hnext'
  by_cases hk : k = updated.listingId
  · subst hk
    rw [findBy_upsertBy_self] at hnext'
    cases hnext'
    have hcur2 : cur = current := by
      rw [hlid] at hcur
      rw [hget] at hcur
      injection hcur with hinj
      exact hinj.symm
    rw [hcur2]
    exact hstep
  · rw [findBy_upsertBy_other _ _ _ _ hk] at hnext'
    have hnext2 : getListing store k = some next := hnext'
    rw [hcur] at hnext2
    injection hnext2 with hinj
    rw [← hinj]
    exact Or.inl rfl

theorem applyMarketOp_status_step (crypto : Crypto) (store : ListingStore)
    (op : MarketOp) (k : String) (cur next : MarketplaceListing)
    (hfresh : marketOpFresh store op)
    (hcur : getListing store k = some cur)
    (hnext : getListing (applyMarketOp crypto store op) k = some next) :
    listingStatusStep cur.status next.status := by
  have hcurmem := findBy_mem _ _ _ _ hcur
  cases op with
  | createOp client recon parsed listingId now eid =>
    rcases createListingHandler_store client recon store parsed listingId now eid with
      heq | ⟨l, hl, hlid⟩
    · have hnext' : getListing
        (createListingHandler client recon store parsed listingId now eid).2.1 k =
          some next := hnext
      rw [heq, hcur] at hnext'
      cases hnext'
      exact Or.inl rfl
    · have hkne : k ≠ l.listingId := by
        rw [hlid]
        intro hkeq
        exact hfresh cur hcurmem.1 (hcurmem.2.symm ▸ hkeq)
      have hnext' : findBy (fun x => x.listingId)
        (createListingHandler client recon store parsed listingId now eid).2.1.listings k =
          some next := hnext
      rw [hl, findBy_upsertBy_other _ _ _ _ hkne] at hnext'
      have hnext2 : getListing store k = some next := hnext'
      rw [hcur] at hnext2
      injection hnext2 with hinj
      rw [← hinj]
      exact Or.inl rfl
  | lockOp client recon parsed key now eid =>
    rcases lockEscrowHandler_store crypto client recon store parsed key now eid with
      heq | ⟨current, updated, hget, hl, hlid, hcs, hus⟩
    · have hnext' : getListing
        (lockEscrowHandler crypto client recon store parsed key now eid).2.1 k =
          some next := hnext
      rw [heq, hcur] at hnext'
      cases hnext'
      exact Or.inl rfl
    · have hgetmem := findBy_mem _ _ _ _ hget
      exact upsert_listing_step store k cur next current updated _
        (by rw [hgetmem.2]; exact hget) hl hlid hcur hnext
        (by rw [hcs, hus]; exact Or.inr (Or.inl ⟨rfl, Or.inl rfl⟩))
  | settleOp client recon parsed key now eid =>
    rcases settleEscrowHandler_store crypto client recon store parsed key now eid with
      heq | ⟨current, updated, hget, hl, hlid, hcs, hus⟩
    · have hnext' : getListing
        (settleEscrowHandler crypto client recon store parsed key now eid).2.1 k =
          some next := hnext
      rw [heq, hcur] at hnext'
      cases hnext'
      exact Or.inl rfl
    · have hgetmem := findBy_mem _ _ _ _ hget
      exact upsert_listing_step store k cur next current updated _
        (by rw [hgetmem.2]; exact hget) hl hlid hcur hnext
        (by rw [hcs, hus]; exact Or.inr (Or.inr ⟨rfl, Or.inl rfl⟩))
  | cancelOp client parsed key now eid =>
    rcases cancelEscrowHandler_store crypto client store parsed key now eid with
      heq | ⟨current, updated, hget, hl, hlid, hcs, hus⟩
    · have hnext' : getListing
        (cancelEscrowHandler crypto client store parsed key now eid).2.1 k =
          some next := hnext
      rw [heq, hcur] at hnext'
      cases hnext'
      exact Or.inl rfl
    · have hgetmem := findBy_mem _ _ _ _ hget
      refine upsert_listing_step store k cur next current updated _
        (by rw [hgetmem.2]; exact hget) hl hlid hcur hnext ?_
      rw [hus]
      rcases hcs with hcs | hcs
      · rw [hcs]; exact Or.inr (Or.inl ⟨rfl, Or.inr rfl⟩)
      · rw [hcs]; exact Or.inr (Or.inr ⟨rfl, Or.inr rfl⟩)

theorem marketReaches_presence (crypto : Crypto) (s s' : ListingStore)
    (h : MarketReaches crypto s s') (k : String)
    (hs : (getListing s k).isSome) : (getListing s' k).isSome := by
  induction h with
  | refl => exact hs
  | step mid op _ _ ih => exact applyMarketOp_presence crypto _ op k ih

/-- Listing state-machine closure over arbitrary mutation sequences. -/
def C3ListingClosure (crypto : Crypto) : Prop :=
  ∀ s s', MarketReaches crypto s s' →
    ∀ k cur next, getListing s k = some cur → getListing s' k = some next →
      Relation.ReflTransGen listingStatusStep cur.status next.status

theorem C3_listing_closure (crypto : Crypto) : C3ListingClosure crypto := by
  intro s s' h
  induction h with
  | refl =>
    intro k cur next hc hn
    rw [hc] at hn
    cases hn
    exact Relation.ReflTransGen.refl
  | step mid op hreach hfresh ih =>
    intro k cur next hc hn
    have hmid : (getListing mid k).isSome :=
      marketReaches_presence crypto _ mid hreach k (by rw [hc]; rfl)
    obtain ⟨m, hm⟩ := Option.isSome_iff_exists.mp hmid
    exact Relation.ReflTransGen.tail (ih k cur m hc hm)
      (applyMarketOp_status_step crypto mid op k m next hfresh hm hn)

/-- Terminality: REDEEMED and REVOKED certificates, and SETTLED and
CANCELLED listings, never move again. -/
def C3Terminal : Prop :=
  (∀ s', Relation.ReflTransGen statusStep .REDEEMED s' → s' = .REDEEMED) ∧
  (∀ s', Relation.ReflTransGen statusStep .REVOKED s' → s' = .REVOKED) ∧
  (∀ s', Relation.ReflTransGen listingStatusStep .SETTLED s' → s' = .SETTLED) ∧
  (∀ s', Relation.ReflTransGen listingStatusStep .CANCELLED s' → s' = .CANCELLED)

theorem C3_terminal : C3Terminal := by
  refine ⟨?_, ?_, ?_, ?_⟩
  · intro s' h
    induction h with
    | refl => rfl
    | tail _ hstep ih =>
      subst ih
      rcases hstep with hstep | hstep
      · exact hstep
      · simp [allowedStatusTransitions] at hstep
  · intro s' h
    induction h with
    | refl => rfl
    | tail _ hstep ih =>
      subst ih
      rcases hstep with hstep | hstep
      · exact hstep
      · simp [allowedStatusTransitions] at hstep
  · intro s' h
    induction h with
    | refl => rfl
    | tail _ hstep ih =>
      subst ih
      rcases hstep with hstep | hstep | hstep
      · exact hstep
      · exact absurd hstep.1 (by simp)
      · exact absurd hstep.1 (by simp)
  · intro s' h
    induction h with
    | refl => rfl
    | tail _ hstep ih =>
      subst ih
      rcases hstep with hstep | hstep | hstep
      · exact hstep
      · exact absurd hstep.1 (by simp)
      · exact absurd hstep.1 (by simp)

/-- C3: state-machine closure.  Over every sequence of certificate-service
operations a stored certificate's status moves only along
`ALLOWED_STATUS_TRANSITIONS` (with REDEEMED/REVOKED terminal); a disallowed
requested transition `X -> Y` is rejected with 409 `state_conflict` and the
message `Transition X -> Y is not allowed`, leaving the store unchanged; and
over every sequence of marketplace operations a listing's status moves only
along `OPEN → LOCKED → {SETTLED, CANCELLED}` or `OPEN → CANCELLED` (with
SETTLED/CANCELLED terminal). -/
theorem C3_state_machine_closure (crypto : Crypto) (sk pk : String) :
    C3CertClosure crypto sk pk ∧ C3CertConflict crypto sk ∧
    C3ListingClosure crypto ∧ C3Terminal :=
  ⟨C3_cert_closure crypto sk pk, C3_cert_conflict crypto sk,
    C3_listing_closure crypto, C3_terminal⟩

/-- A REDEEMED toy certificate. -/
def toyRedeemedCert : SignedCertificate :=
  signCertificate toyCrypto { toyPayloadA with status := .REDEEMED } toySk

/-- Witness for C3: requesting REDEEMED → ACTIVE on a concrete store is
rejected with the exact `state_conflict` message and no store change. -/
theorem C3_state_machine_closure_witness :
    certStoreGet [toyRedeemedCert] "DGC-1" = some toyRedeemedCert ∧
    CertificateStatus.ACTIVE ∉
      allowedStatusTransitions toyRedeemedCert.payload.status ∧
    statusHandler toyCrypto toySk [toyRedeemedCert]
      ⟨"DGC-1", .ACTIVE⟩ "2026-01-03T00:00:00.000Z" =
      (.stateConflict "Transition REDEEMED -> ACTIVE is not allowed", [toyRedeemedCert]) := by
  refine ⟨rfl, by decide, ?_⟩
  exact (C3_state_machine_closure toyCrypto toySk toySk).2.1 [toyRedeemedCert]
    ⟨"DGC-1", .ACTIVE⟩ "2026-01-03T00:00:00.000Z" toyRedeemedCert rfl (by decide)

/-! ## C4: idempotency protocol -/

theorem idempotency_appendAuditEvent (s : ListingStore) (e : ListingAuditEvent) :
    (appendAuditEvent s e).idempotency = s.idempotency := rfl

theorem idempotency_putListing (s : ListingStore) (l : MarketplaceListing) :
    (putListing s l).idempotency = s.idempotency := rfl

theorem getIdem_put_fresh (s : ListingStore) (r : IdempotencyRecord)
    (h : getIdempotencyRecord s r.action r.idempotencyKey = none) :
    getIdempotencyRecord (putIdempotencyRecord s r) r.action r.idempotencyKey = some r := by
  unfold getIdempotencyRecord at h ⊢
  unfold putIdempotencyRecord
  have hany : s.idempotency.any
      (fun x => x.action == r.action && x.idempotencyKey == r.idempotencyKey) = false := by
    rw [List.any_eq_false]
    intro x hx hpx
    rw [List.find?_eq_none] at h
    exact h x hx hpx
  rw [if_neg (by simp [hany])]
  simp only []
  rw [find?_append_or, h, Option.none_or,
    List.find?_cons_of_pos _ (by simp)]

theorem getIdem_put_existing (s : ListingStore) (r' : IdempotencyRecord)
    (action : EscrowAction) (key : String) (r : IdempotencyRecord)
    (h : getIdempotencyRecord s action key = some r) :
    getIdempotencyRecord (putIdempotencyRecord s r') action key = some r := by
  unfold getIdempotencyRecord at h ⊢
  unfold putIdempotencyRecord
  split
  · exact h
  · simp only []
    rw [find?_append_or, h]
    rfl

theorem sendCertificateServiceError_status_ne (st : Nat) (msg : Option String) :
    (sendCertificateServiceError st msg).status ≠ 200 := by
  unfold sendCertificateServiceError
  split_ifs <;> simp

theorem enforceFreezeGuard_status_ne (recon : Option (HttpResult LatestReconW))
    (resp : MpResponse) (h : enforceFreezeGuard recon = some resp) :
    resp.status ≠ 200 := by
  unfold enforceFreezeGuard at h
  split at h
  · exact absurd h (by simp)
  · split at h
    · split at h
      · injection h with h1; rw [← h1]; simp
      · injection h with h1; rw [← h1]; simp
    · split at h
      · injection h with h1; rw [← h1]; simp
      · split at h
        · injection h with h1; rw [← h1]; simp
        · split at h
          · injection h with h1; rw [← h1]; simp
          · exact absurd h (by simp)
          · injection h with h1; rw [← h1]; simp

/-- Replay: an existing record for `(action, key)` with the matching request
hash short-circuits the handler with the stored `{status, body}`, no store
change and no downstream call. -/
def C4Replay (crypto : Crypto) : Prop :=
  (∀ client recon store parsed key now eid existing,
    getIdempotencyRecord store .LOCK_ESCROW key = some existing →
    existing.requestHash = crypto.sha256Hex (canonicalJsonLockReq parsed) →
    lockEscrowHandler crypto client recon store parsed key now eid =
      (⟨existing.responseStatus, existing.responseBody⟩, store, [])) ∧
  (∀ client recon store parsed key now eid existing,
    getIdempotencyRecord store .SETTLE_ESCROW key = some existing →
    existing.requestHash = crypto.sha256Hex (canonicalJsonSettleReq parsed) →
    settleEscrowHandler crypto client recon store parsed key now eid =
      (⟨existing.responseStatus, existing.responseBody⟩, store, [])) ∧
  (∀ client store parsed key now eid existing,
    getIdempotencyRecord store .CANCEL_ESCROW key = some existing →
    existing.requestHash = crypto.sha256Hex (canonicalJsonCancelReq parsed) →
    cancelEscrowHandler crypto client store parsed key now eid =
      (⟨existing.responseStatus, existing.responseBody⟩, store, []))

/-- Key-reuse conflict: an existing record with a different request hash
yields 409 `idempotency_key_reuse_conflict` with no store change and no
downstream call. -/
def C4Conflict (crypto : Crypto) : Prop :=
  (∀ client recon store parsed key now eid existing,
    getIdempotencyRecord store .LOCK_ESCROW key = some existing →
    existing.requestHash ≠ crypto.sha256Hex (canonicalJsonLockReq parsed) →
    lockEscrowHandler crypto client recon store parsed key now eid =
      (⟨409, .errBody "idempotency_key_reuse_conflict"
        (some "Idempotency key already used with different payload") none⟩, store, [])) ∧
  (∀ client recon store parsed key now eid existing,
    getIdempotencyRecord store .SETTLE_ESCROW key = some existing →
    existing.requestHash ≠ crypto.sha256Hex (canonicalJsonSettleReq parsed) →
    settleEscrowHandler crypto client recon store parsed key now eid =
      (⟨409, .errBody "idempotency_key_reuse_conflict"
        (some "Idempotency key already used with different payload") none⟩, store, [])) ∧
  (∀ client store parsed key now eid existing,
    getIdempotencyRecord store .CANCEL_ESCROW key = some existing →
    existing.requestHash ≠ crypto.sha256Hex (canonicalJsonCancelReq parsed) →
    cancelEscrowHandler crypto client store parsed key now eid =
      (⟨409, .errBody "idempotency_key_reuse_conflict"
        (some "Idempotency key already used with different payload") none⟩, store, []))

/-- On first success (status 200) the handler stores
`(action, key, requestHash, status, body, now)`. -/
def C4Save (crypto : Crypto) : Prop :=
  (∀ client recon store parsed key now eid resp store1 calls,
    getIdempotencyRecord store .LOCK_ESCROW key = none →
    lockEscrowHandler crypto client recon store parsed key now eid = (resp, store1, calls) →
    resp.status = 200 →
    getIdempotencyRecord store1 .LOCK_ESCROW key =
      some ⟨.LOCK_ESCROW, key, crypto.sha256Hex (canonicalJsonLockReq parsed), 200,
        resp.body, now⟩) ∧
  (∀ client recon store parsed key now eid resp store1 calls,
    getIdempotencyRecord store .SETTLE_ESCROW key = none →
    settleEscrowHandler crypto client recon store parsed key now eid = (resp, store1, calls) →
    resp.status = 200 →
    getIdempotencyRecord store1 .SETTLE_ESCROW key =
      some ⟨.SETTLE_ESCROW, key, crypto.sha256Hex (canonicalJsonSettleReq parsed), 200,
        resp.body, now⟩) ∧
  (∀ client store parsed key now eid resp store1 calls,
    getIdempotencyRecord store .CANCEL_ESCROW key = none →
    cancelEscrowHandler crypto client store parsed key now eid = (resp, store1, calls) →
    resp.status = 200 →
    getIdempotencyRecord store1 .CANCEL_ESCROW key =
      some ⟨.CANCEL_ESCROW, key, crypto.sha256Hex (canonicalJsonCancelReq parsed), 200,
        resp.body, now⟩)

/-- The stored response of the first success is never overwritten
(`INSERT ... ON CONFLICT DO NOTHING`). -/
def C4NoOverwrite : Prop :=
  ∀ s r' action key r,
    getIdempotencyRecord s action key = some r →
    getIdempotencyRecord (putIdempotencyRecord s r') action key = some r

/-- C4: the idempotency protocol of the mutating escrow handlers.  With
`requestHash = SHA-256(canonicalJSON(parsed body))`: an existing record for
`(action, key)` with the same hash replays the stored `{status, body}`
without re-executing; a different hash yields 409
`idempotency_key_reuse_conflict`; otherwise the request executes and on
success the record `(action, key, requestHash, status, body, now)` is
stored; stored records are never overwritten. -/
theorem C4_idempotency (crypto : Crypto) :
    C4Replay crypto ∧ C4Conflict crypto ∧ C4Save crypto ∧ C4NoOverwrite := by
  refine ⟨⟨?_, ?_, ?_⟩, ⟨?_, ?_, ?_⟩, ⟨?_, ?_, ?_⟩, ?_⟩
  · intro client recon store parsed key now eid existing hrec hhash
    simp [lockEscrowHandler, hrec, hhash]
  · intro client recon store parsed key now eid existing hrec hhash
    simp [settleEscrowHandler, hrec, hhash]
  · intro client store parsed key now eid existing hrec hhash
    simp [cancelEscrowHandler, hrec, hhash]
  · intro client recon store parsed key now eid existing hrec hhash
    simp [lockEscrowHandler, hrec, hhash]
  · intro client recon store parsed key now eid existing hrec hhash
    simp [settleEscrowHandler, hrec, hhash]
  · intro client store parsed key now eid existing hrec hhash
    simp [cancelEscrowHandler, hrec, hhash]
  · intro client recon store parsed key now eid resp store1 calls hnone hrun hstatus
    simp only [lockEscrowHandler, hnone] at hrun
    split at hrun
    · simp only [Prod.mk.injEq] at hrun
      rw [← hrun.1] at hstatus
      simp at hstatus
    · rename_i current hget
      split at hrun
      · simp only [Prod.mk.injEq] at hrun
        rw [← hrun.1] at hstatus
        simp at hstatus
      · split at hrun
        · rename_i resp0 hfz
          simp only [Prod.mk.injEq] at hrun
          rw [← hrun.1] at hstatus
          exact absurd hstatus (enforceFreezeGuard_status_ne recon resp0 hfz)
        · split at hrun
          · simp only [Prod.mk.injEq] at hrun
            rw [← hrun.1] at hstatus
            exact absurd hstatus (sendCertificateServiceError_status_ne _ _)
          · simp only [Prod.mk.injEq] at hrun
            rw [← hrun.2.1, ← hrun.1]
            exact getIdem_put_fresh _ _ hnone
  · intro client recon store parsed key now eid resp store1 calls hnone hrun hstatus
    simp only [settleEscrowHandler, hnone] at hrun
    split at hrun
    · simp only [Prod.mk.injEq] at hrun
      rw [← hrun.1] at hstatus
      simp at hstatus
    · rename_i current hget
      split at hrun
      · simp only [Prod.mk.injEq] at hrun
        rw [← hrun.1] at hstatus
        simp at hstatus
      · split at hrun
        · simp only [Prod.mk.injEq] at hrun
          rw [← hrun.1] at hstatus
          simp at hstatus
        · split at hrun
          · rename_i resp0 hfz
            simp only [Prod.mk.injEq] at hrun
            rw [← hrun.1] at hstatus
            exact absurd hstatus (enforceFreezeGuard_status_ne recon resp0 hfz)
          · split at hrun
            · simp only [Prod.mk.injEq] at hrun
              rw [← hrun.1] at hstatus
              exact absurd hstatus (sendCertificateServiceError_status_ne _ _)
            · split at hrun
              · simp only [Prod.mk.injEq] at hrun
                rw [← hrun.1] at hstatus
                exact absurd hstatus (sendCertificateServiceError_status_ne _ _)
              · split at hrun
                · simp only [Prod.mk.injEq] at hrun
                  rw [← hrun.1] at hstatus
                  simp at hstatus
                · simp only [Prod.mk.injEq] at hrun
                  rw [← hrun.2.1, ← hrun.1]
                  exact getIdem_put_fresh _ _ hnone
  · intro client store parsed key now eid resp store1 calls hnone hrun hstatus
    simp only [cancelEscrowHandler, hnone] at hrun
    split at hrun
    · simp only [Prod.mk.injEq] at hrun
      rw [← hrun.1] at hstatus
      simp at hstatus
    · rename_i current hget
      split at hrun
      · simp only [Prod.mk.injEq] at hrun
        rw [← hrun.1] at hstatus
        simp at hstatus
      · split at hrun
        · simp only [Prod.mk.injEq] at hrun
          rw [← hrun.1] at hstatus
          exact absurd hstatus (sendCertificateServiceError_status_ne _ _)
        · simp only [Prod.mk.injEq] at hrun
          rw [← hrun.2.1, ← hrun.1]
          exact getIdem_put_fresh _ _ hnone
  · intro s r action key r hrec
    exact getIdem_put_existing s _ action key _ hrec

def toyListing : MarketplaceListing :=
  { listingId := "LST-1", certId := "DGC-1", seller := "0xA", askPrice := "10.0000",
    status := .OPEN, createdAt := "2026-01-01T00:00:00.000Z",
    updatedAt := "2026-01-01T00:00:00.000Z" }

def toyLockReq : LockEscrowRequest := { listingId := "LST-1", buyer := "0xB" }

def toyIdemRecord : IdempotencyRecord :=
  { action := .LOCK_ESCROW, idempotencyKey := "lock-4",
    requestHash := toyCrypto.sha256Hex (canonicalJsonLockReq toyLockReq),
    responseStatus := 200,
    responseBody := .listingBody { toyListing with status := .LOCKED, lockedBy := some "0xB" },
    createdAt := "2026-01-01T00:00:01.000Z" }

def toyIdemStore : ListingStore :=
  { listings := [toyListing], audits := [], idempotency := [toyIdemRecord] }

/-- A downstream certificate client whose calls all succeed. -/
def toyClient : CertClient :=
  { getCertificate := fun _ =>
      { ok := true, status := 200, data := some toySplitParent, errMessage := none }
    changeStatus := fun _ =>
      { ok := true, status := 200, data := some toySplitParent, errMessage := none }
    transfer := fun _ =>
      { ok := true, status := 200,
        data := some ⟨toySplitParent, .SKIPPED, .SKIPPED⟩, errMessage := none } }

/-- Witness for C4: a concrete replay of a stored lock response. -/
theorem C4_idempotency_witness :
    (getIdempotencyRecord toyIdemStore .LOCK_ESCROW "lock-4" = some toyIdemRecord ∧
      toyIdemRecord.requestHash = toyCrypto.sha256Hex (canonicalJsonLockReq toyLockReq)) ∧
    lockEscrowHandler toyCrypto toyClient none toyIdemStore toyLockReq "lock-4"
      "2026-01-01T00:00:02.000Z" "AUD-1" =
      (⟨toyIdemRecord.responseStatus, toyIdemRecord.responseBody⟩, toyIdemStore, []) := by
  refine ⟨⟨rfl, rfl⟩, ?_⟩
  exact (C4_idempotency toyCrypto).1.1 toyClient none toyIdemStore toyLockReq "lock-4"
    "2026-01-01T00:00:02.000Z" "AUD-1" toyIdemRecord rfl rfl

/-! ## C5: freeze gating -/

/-- A frozen freeze-state snapshot as reported by the reconciliation
service. -/
def frozenFS : FreezeStateW :=
  { active := some true, reason := some "Mismatch 1.0000g exceeded threshold 0.5000g" }

/-- A reconciliation client reply reporting an active freeze. -/
def frozenReconResult : HttpResult LatestReconW :=
  { ok := true, status := 200, data := some ⟨some frozenFS⟩, errMessage := none }

def frozenRecon : Option (HttpResult LatestReconW) := some frozenReconResult

/-- Counterexample to C5 as stated: while the reconciliation service
reports `freezeState.active = true`, a lock request for a listing that does
not exist returns 404 `listing_not_found`, not 423 `marketplace_frozen`
(the handler checks replay, listing existence and the OPEN guard before the
freeze guard). -/
theorem C5_freeze_counterexample :
    frozenFS.active = some true ∧
    frozenRecon = some frozenReconResult ∧
    frozenReconResult.data = some ⟨some frozenFS⟩ ∧
    (lockEscrowHandler toyCrypto toyClient frozenRecon
      { listings := [], audits := [], idempotency := [] }
      ⟨"LST-missing", "0xB"⟩ "lock-1" "2026-01-01T00:00:00.000Z" "AUD-1").1 =
      ⟨404, .errBody "listing_not_found" none none⟩ :=
  ⟨rfl, rfl, rfl, rfl⟩

/-- The freeze guard's classification of the reconciliation reply:
active freeze → 423 with the snapshot echoed; unreachable → 503; non-2xx →
502 with the status echoed; missing or non-boolean `freezeState.active` →
502 invalid response; inactive or unconfigured → pass. -/
def C5GuardBehavior : Prop :=
  (∀ (r : HttpResult LatestReconW) latest fs, r.ok = true → r.data = some latest →
    latest.freezeState = some fs → fs.active = some true →
    enforceFreezeGuard (some r) = some ⟨423, .frozenBody
      (jsOrString fs.reason "Marketplace write actions are frozen by reconciliation control")
      fs⟩) ∧
  (∀ r : HttpResult LatestReconW, r.ok = false → r.status = 0 →
    enforceFreezeGuard (some r) =
      some ⟨503, .errBody "reconciliation_service_unreachable" none none⟩) ∧
  (∀ r : HttpResult LatestReconW, r.ok = false → r.status ≠ 0 →
    enforceFreezeGuard (some r) =
      some ⟨502, .errBody "reconciliation_service_error" none (some r.status)⟩) ∧
  (∀ (r : HttpResult LatestReconW) latest, r.ok = true → r.data = some latest →
    (latest.freezeState = none ∨ ∃ fs, latest.freezeState = some fs ∧ fs.active = none) →
    enforceFreezeGuard (some r) =
      some ⟨502, .errBody "reconciliation_service_invalid_response" none none⟩) ∧
  (∀ (r : HttpResult LatestReconW) latest fs, r.ok = true → r.data = some latest →
    latest.freezeState = some fs → fs.active = some false →
    enforceFreezeGuard (some r) = none) ∧
  enforceFreezeGuard none = none

/-- Whenever the freeze guard trips, a well-formed create request
short-circuits with the guard's response (423 when frozen) and no
mutation. -/
def C5CreateGate : Prop :=
  ∀ client recon store parsed lid now eid resp,
    enforceFreezeGuard recon = some resp →
    createListingHandler client recon store parsed lid now eid = (resp, store, [])

/-- Whenever the freeze guard trips, a well-formed non-replayed lock request
on an existing OPEN listing short-circuits with the guard's response and no
mutation. -/
def C5LockGate (crypto : Crypto) : Prop :=
  ∀ client recon store parsed key now eid current resp,
    getIdempotencyRecord store .LOCK_ESCROW key = none →
    getListing store parsed.listingId = some current →
    current.status = .OPEN →
    enforceFreezeGuard recon = some resp →
    lockEscrowHandler crypto client recon store parsed key now eid = (resp, store, [])

/-- Whenever the freeze guard trips, a well-formed non-replayed settle
request on an existing LOCKED listing with the matching buyer
short-circuits with the guard's response and no mutation. -/
def C5SettleGate (crypto : Crypto) : Prop :=
  ∀ client recon store parsed key now eid current resp,
    getIdempotencyRecord store .SETTLE_ESCROW key = none →
    getListing store parsed.listingId = some current →
    current.status = .LOCKED →
    current.lockedBy = some parsed.buyer →
    enforceFreezeGuard recon = some resp →
    settleEscrowHandler crypto client recon store parsed key now eid = (resp, store, [])

/-- Cancel takes no freeze-guard input at all (it is not freeze-gated) and
succeeds on a non-terminal listing whose downstream unlock (when LOCKED)
succeeds, regardless of any freeze. -/
def C5CancelSucceeds (crypto : Crypto) : Prop :=
  ∀ client store parsed key now eid current,
    getIdempotencyRecord store .CANCEL_ESCROW key = none →
    getListing store parsed.listingId = some current →
    (current.status = .OPEN ∨ current.status = .LOCKED) →
    (current.status = .LOCKED → (client.changeStatus ⟨current.certId, .ACTIVE⟩).ok = true) →
    (cancelEscrowHandler crypto client store parsed key now eid).1.status = 200

/-- C5 (amended): freeze gating applies to create/lock/settle requests that
reach the guard (create: any well-formed request; lock/settle: well-formed,
non-replayed requests on a listing in the required state), returning 423
with the snapshot echoed and mutating nothing, with 503/502 for
unreachable/errored/invalid reconciliation replies; cancel is not
freeze-gated and still succeeds on a non-terminal listing. -/
theorem C5_freeze_gating (crypto : Crypto) :
    C5GuardBehavior ∧ C5CreateGate ∧ C5LockGate crypto ∧
    C5SettleGate crypto ∧ C5CancelSucceeds crypto := by
  refine ⟨⟨?_, ?_, ?_, ?_, ?_, rfl⟩, ?_, ?_, ?_, ?_⟩
  · intro r latest fs hok hdata hfs hact
    simp [enforceFreezeGuard, hok, hdata, hfs, hact]
  · intro r hok hst
    simp [enforceFreezeGuard, hok, hst]
  · intro r hok hst
    simp [enforceFreezeGuard, hok, hst]
  · intro r latest hok hdata hbad
    rcases hbad with hbad | ⟨fs, hfs, hact⟩
    · simp [enforceFreezeGuard, hok, hdata, hbad]
    · simp [enforceFreezeGuard, hok, hdata, hfs, hact]
  · intro r latest fs hok hdata hfs hact
    simp [enforceFreezeGuard, hok, hdata, hfs, hact]
  · intro client recon store parsed lid now eid resp hfz
    unfold createListingHandler
    rw [hfz]
  · intro client recon store parsed key now eid current resp hnone hget hst hfz
    unfold lockEscrowHandler
    rw [hnone]
    simp only []
    rw [hget]
    simp only []
    rw [if_neg (by simp [hst]), hfz]
  · intro client recon store parsed key now eid current resp hnone hget hst hbuyer hfz
    unfold settleEscrowHandler
    rw [hnone]
    simp only []
    rw [hget]
    simp only []
    rw [if_neg (by simp [hst]), if_neg (by simp [hbuyer]), hfz]
  · intro client store parsed key now eid current hnone hget hstatus hunlock
    unfold cancelEscrowHandler
    rw [hnone]
    simp only []
    rw [hget]
    simp only []
    have hterm : ¬(current.status = .SETTLED ∨ current.status = .CANCELLED) := by
      rcases hstatus with h | h <;> simp [h]
    rw [if_neg hterm]
    have hnofail : ¬(current.status = .LOCKED ∧
        (client.changeStatus ⟨current.certId, .ACTIVE⟩).ok = false) := by
      rintro ⟨hl, hf⟩
      rw [hunlock hl] at hf
      exact absurd hf (by simp)
    rw [dif_neg hnofail]

/-- Witness for C5: under the frozen snapshot a well-formed create request
on a concrete store returns 423 with the snapshot echoed and no mutation,
and a cancel on a concrete LOCKED listing still returns 200. -/
theorem C5_freeze_gating_witness :
    (enforceFreezeGuard frozenRecon = some ⟨423, .frozenBody
      "Mismatch 1.0000g exceeded threshold 0.5000g" frozenFS⟩) ∧
    createListingHandler toyClient frozenRecon
      { listings := [], audits := [], idempotency := [] }
      ⟨"DGC-1", "0xA", "10.0000"⟩ "LST-1" "2026-01-01T00:00:00.000Z" "AUD-1" =
      (⟨423, .frozenBody "Mismatch 1.0000g exceeded threshold 0.5000g" frozenFS⟩,
        { listings := [], audits := [], idempotency := [] }, []) ∧
    (cancelEscrowHandler toyCrypto toyClient
      { listings := [{ toyListing with status := .LOCKED, lockedBy := some "0xB" }],
        audits := [], idempotency := [] }
      ⟨"LST-1", some "buyer_timeout"⟩ "cancel-1" "2026-01-01T00:00:03.000Z"
      "AUD-2").1.status = 200 := by
  refine ⟨rfl, ?_, ?_⟩
  · exact (C5_freeze_gating toyCrypto).2.1 toyClient frozenRecon
      { listings := [], audits := [], idempotency := [] }
      ⟨"DGC-1", "0xA", "10.0000"⟩ "LST-1" "2026-01-01T00:00:00.000Z" "AUD-1" _ rfl
  · exact (C5_freeze_gating toyCrypto).2.2.2.2 toyClient
      { listings := [{ toyListing with status := .LOCKED, lockedBy := some "0xB" }],
        audits := [], idempotency := [] }
      ⟨"LST-1", some "buyer_timeout"⟩ "cancel-1" "2026-01-01T00:00:03.000Z" "AUD-2"
      { toyListing with status := .LOCKED, lockedBy := some "0xB" }
      rfl rfl (Or.inr rfl) (fun _ => rfl)

/-! ## C6: two-phase settlement with compensating rollback -/

/-- The two-phase call discipline of settle on a LOCKED listing whose
`lockedBy` matches the buyer: first `status → ACTIVE`, then
`transfer(certId, buyer, settledPrice ?? askPrice)`; when the transfer
fails, a best-effort compensating `status → LOCKED` call follows, the
transfer error is surfaced as the response and the store is left entirely
unchanged (listing still LOCKED, no SETTLED fields, no idempotency
record). -/
def C6TwoPhase (crypto : Crypto) : Prop :=
  ∀ client recon store parsed key now eid current,
    getIdempotencyRecord store .SETTLE_ESCROW key = none →
    getListing store parsed.listingId = some current →
    current.status = .LOCKED →
    current.lockedBy = some parsed.buyer →
    enforceFreezeGuard recon = none →
    (client.changeStatus ⟨current.certId, .ACTIVE⟩).ok = true →
    ((client.transfer ⟨current.certId, parsed.buyer,
        some (jsOrString parsed.settledPrice current.askPrice)⟩).ok = true →
      (settleEscrowHandler crypto client recon store parsed key now eid).2.2 =
        [.changeStatus ⟨current.certId, .ACTIVE⟩,
         .transferCall ⟨current.certId, parsed.buyer,
           some (jsOrString parsed.settledPrice current.askPrice)⟩]) ∧
    ((client.transfer ⟨current.certId, parsed.buyer,
        some (jsOrString parsed.settledPrice current.askPrice)⟩).ok = false →
      settleEscrowHandler crypto client recon store parsed key now eid =
        (sendCertificateServiceError
          (client.transfer ⟨current.certId, parsed.buyer,
            some (jsOrString parsed.settledPrice current.askPrice)⟩).status
          (client.transfer ⟨current.certId, parsed.buyer,
            some (jsOrString parsed.settledPrice current.askPrice)⟩).errMessage,
          store,
          [.changeStatus ⟨current.certId, .ACTIVE⟩,
           .transferCall ⟨current.certId, parsed.buyer,
             some (jsOrString parsed.settledPrice current.askPrice)⟩,
           .changeStatus ⟨current.certId, .LOCKED⟩]))

/-- A settle request whose buyer differs from `lockedBy` is rejected with
409 `buyer_mismatch` and no mutation, before any downstream call. -/
def C6BuyerMismatch (crypto : Crypto) : Prop :=
  ∀ client recon store parsed key now eid current,
    getIdempotencyRecord store .SETTLE_ESCROW key = none →
    getListing store parsed.listingId = some current →
    current.status = .LOCKED →
    current.lockedBy ≠ some parsed.buyer →
    settleEscrowHandler crypto client recon store parsed key now eid =
      (⟨409, .errBody "buyer_mismatch" (some "Settlement buyer must match lock buyer") none⟩,
        store, [])

/-- The surfaced downstream error: unreachable → 502, 404 → 404,
409 → 409 (with the downstream message), anything else → 502 with the
status echoed. -/
def C6ErrorMapping : Prop :=
  (∀ msg, sendCertificateServiceError 0 msg =
    ⟨502, .errBody "certificate_service_unreachable" none none⟩) ∧
  (∀ msg, sendCertificateServiceError 404 msg =
    ⟨404, .errBody "certificate_not_found" none none⟩) ∧
  (∀ msg, (sendCertificateServiceError 409 msg).status = 409) ∧
  (∀ st msg, st ≠ 0 → st ≠ 404 → st ≠ 409 →
    sendCertificateServiceError st msg =
      ⟨502, .errBody "certificate_service_error" none (some st)⟩)

/-- C6: two-phase settlement: unlock then transfer with
`settledPrice ?? askPrice`; on transfer failure a compensating
`status → LOCKED` call is issued, the transfer error is surfaced
(404 → 404, 409 → 409, otherwise 502) and the store is unchanged with no
idempotency record; a buyer mismatch yields 409 `buyer_mismatch`. -/
theorem C6_two_phase_settlement (crypto : Crypto) :
    C6TwoPhase crypto ∧ C6BuyerMismatch crypto ∧ C6ErrorMapping := by
  refine ⟨?_, ?_, ?_, ?_, ?_, ?_⟩
  · intro client recon store parsed key now eid current hnone hget hst hbuyer hfz hunlock
    constructor
    · intro htr
      unfold settleEscrowHandler
      rw [hnone]
      simp only []
      rw [hget]
      simp only []
      rw [if_neg (by simp [hst]), if_neg (by simp [hbuyer]), hfz]
      simp only []
      rw [if_neg (by simp [hunlock]), if_neg (by simp [htr])]
      cases hdata : (client.transfer ⟨current.certId, parsed.buyer,
          some (jsOrString parsed.settledPrice current.askPrice)⟩).data with
      | none => simp [hdata]
      | some transfer => simp [hdata]
    · intro htr
      unfold settleEscrowHandler
      rw [hnone]
      simp only []
      rw [hget]
      simp only []
      rw [if_neg (by simp [hst]), if_neg (by simp [hbuyer]), hfz]
      simp only []
      rw [if_neg (by simp [hunlock]), if_pos (by simp [htr])]
  · intro client recon store parsed key now eid current hnone hget hst hbuyer
    unfold settleEscrowHandler
    rw [hnone]
    simp only []
    rw [hget]
    simp only []
    rw [if_neg (by simp [hst]), if_pos hbuyer]
  · intro msg
    rfl
  · intro msg
    rfl
  · intro msg
    rfl
  · intro st msg h0 h404 h409
    unfold sendCertificateServiceError
    rw [if_neg h0, if_neg h404, if_neg h409]

/-- A downstream client whose unlock succeeds but whose transfer fails with
a 409 state conflict. -/
def toyFailingTransferClient : CertClient :=
  { toyClient with
    transfer := fun _ =>
      { ok := false, status := 409, data := none,
        errMessage := some "Only ACTIVE certificates can be transferred" } }

def toyLockedStore : ListingStore :=
  { listings := [{ toyListing with status := .LOCKED, lockedBy := some "0xB" }],
    audits := [], idempotency := [] }

/-- Witness for C6: on a concrete LOCKED listing, a failing transfer leads
to the rollback call, a surfaced 409, and an unchanged store. -/
theorem C6_two_phase_settlement_witness :
    (getIdempotencyRecord toyLockedStore .SETTLE_ESCROW "settle-1" = none ∧
      getListing toyLockedStore "LST-1" =
        some { toyListing with status := .LOCKED, lockedBy := some "0xB" } ∧
      enforceFreezeGuard (none : Option (HttpResult LatestReconW)) = none) ∧
    settleEscrowHandler toyCrypto toyFailingTransferClient none toyLockedStore
      ⟨"LST-1", "0xB", none⟩ "settle-1" "2026-01-01T00:00:04.000Z" "AUD-3" =
      (sendCertificateServiceError 409 (some "Only ACTIVE certificates can be transferred"),
        toyLockedStore,
        [.changeStatus ⟨"DGC-1", .ACTIVE⟩,
         .transferCall ⟨"DGC-1", "0xB", some "10.0000"⟩,
         .changeStatus ⟨"DGC-1", .LOCKED⟩]) := by
  refine ⟨⟨rfl, rfl, rfl⟩, ?_⟩
  exact ((C6_two_phase_settlement toyCrypto).1 toyFailingTransferClient none toyLockedStore
    ⟨"LST-1", "0xB", none⟩ "settle-1" "2026-01-01T00:00:04.000Z" "AUD-3"
    { toyListing with status := .LOCKED, lockedBy := some "0xB" }
    rfl rfl rfl rfl rfl rfl).2 rfl

/-! ## Shared governance helpers (`packages/shared`, `x-governance-*`) -/

/-- An HTTP header value as Fastify hands it to the shared parsers
(`string | string[] | undefined`; header arrays carry strings). -/
inductive HeaderValue where
  | missing : HeaderValue
  | str : String → HeaderValue
  | strs : List String → HeaderValue
deriving DecidableEq

/-- `normalizeToken`: trim and lowercase
(`value.trim().toLowerCase()`, charwise). -/
def normalizeToken (value : String) : String :=
  ⟨(trimChars value.data).map Char.toLower⟩

/-- `parseGovernanceRoleHeader`: a string header is normalized (blank →
`null`); for an array the first string entry is used. -/
def parseGovernanceRoleHeader : HeaderValue → Option String
  | .str v =>
      let normalized := normalizeToken v
      if normalized = "" then none else some normalized
  | .strs l =>
      match l.head? with
      | some first =>
          let normalized := normalizeToken first
          if normalized = "" then none else some normalized
      | none => none
  | .missing => none

/-- `parseGovernanceActorHeader`: as the role header but only trimmed,
never lowercased. -/
def parseGovernanceActorHeader : HeaderValue → Option String
  | .str v =>
      let trimmed := trimString v
      if trimmed = "" then none else some trimmed
  | .strs l =>
      match l.head? with
      | some first =>
          let trimmed := trimString first
          if trimmed = "" then none else some trimmed
      | none => none
  | .missing => none

/-- `parseGovernanceRoleSet`: an unset/blank env var yields the normalized
fallback roles, `"*"` the wildcard set, otherwise the comma-separated
entries normalized with blanks dropped.  The JS `Set` is embedded as the
insertion-ordered list of its members (only membership is consulted), and
the split on the one-character separator uses `splitOnChar`. -/
def parseGovernanceRoleSet (raw : Option String) (fallbackRoles : List String) :
    List String :=
  let source := trimString (raw.getD "")
  if source = "" then fallbackRoles.map normalizeToken
  else if source = "*" then ["*"]
  else
    (((splitOnChar ',' source.data).map (fun cs => normalizeToken ⟨cs⟩)).filter
      (fun role => role ≠ ""))

/-- `isGovernanceRoleAllowed`. -/
def isGovernanceRoleAllowed (role : Option String) (allowedRoles : List String) : Bool :=
  if allowedRoles.contains "*" then true
  else
    match role with
    | none => false
    | some r => allowedRoles.contains r

/-- Modelled from the spec: the default allowed role set for dispute
assignment (`DISPUTE_ASSIGN_ALLOWED_ROLES` unset). -/
def DISPUTE_ASSIGN_DEFAULT_ROLES : List String := ["ops_admin", "ops_agent", "admin"]

/-- Modelled from the spec: the default allowed role set for dispute
resolution (`DISPUTE_RESOLVE_ALLOWED_ROLES` unset). -/
def DISPUTE_RESOLVE_DEFAULT_ROLES : List String := ["ops_admin", "ops_lead", "admin"]

/-- Modelled from the spec: the default allowed role set for the manual
unfreeze (`RECON_UNFREEZE_ALLOWED_ROLES` unset). -/
def RECON_UNFREEZE_DEFAULT_ROLES : List String := ["ops_admin", "admin"]

/-- Modelled from the spec: the governance gate guarding the
governance-only mutations (dispute assign, dispute resolve, manual
unfreeze).  The shared header helpers above are translated from the
source, but the gate's wiring into the handlers is absent under `src/`
(only the helpers, the service tests and the documentation are present),
so the check follows the spec's words: the normalized
`x-governance-role` header must be allowed by the configured role set,
and when an `x-governance-actor` header is present its trimmed value
must equal the actor named in the body (`assignedBy` / `resolvedBy` /
`actor`); a violation yields 403 with no state change. -/
def governanceAllows (allowedRoles : List String)
    (roleHeader actorHeader : HeaderValue) (bodyActor : String) : Bool :=
  isGovernanceRoleAllowed (parseGovernanceRoleHeader roleHeader) allowedRoles &&
    (match parseGovernanceActorHeader actorHeader with
     | none => true
     | some actor => actor == bodyActor)

/-! ## Dispute service (`services/dispute-service`) -/

inductive DisputeStatus where
  | OPEN | ASSIGNED | RESOLVED
deriving DecidableEq, Repr

inductive DisputeResolution where
  | REFUND_BUYER | RELEASE_SELLER | MANUAL_REVIEW
deriving DecidableEq, Repr

/-- `DisputeRecord` of the shared API types (optional fields as `Option`,
`evidence` as a string-valued record). -/
structure DisputeRecord where
  disputeId : String
  listingId : String
  certId : String
  status : DisputeStatus
  openedBy : String
  reason : String
  evidence : Option Metadata := none
  openedAt : String
  assignedTo : Option String := none
  assignedAt : Option String := none
  resolvedBy : Option String := none
  resolvedAt : Option String := none
  resolution : Option DisputeResolution := none
  resolutionNotes : Option String := none
deriving DecidableEq

/-- The dispute store (SQLite rows keyed by `disputeId`). -/
abbrev DisputeStore : Type := List DisputeRecord

/-- `disputeStore.get`. -/
def disputeStoreGet (store : DisputeStore) (disputeId : String) : Option DisputeRecord :=
  findBy (fun d => d.disputeId) store disputeId

/-- `disputeStore.update` (row replaced by primary key). -/
def disputeStoreUpdate (store : DisputeStore) (d : DisputeRecord) : DisputeStore :=
  upsertBy (fun x => x.disputeId) store d

/-- `AssignDisputeRequest` of the shared API types. -/
structure AssignDisputeRequest where
  assignee : String
deriving DecidableEq

/-- `ResolveDisputeRequest` of the shared API types. -/
structure ResolveDisputeRequest where
  resolvedBy : String
  resolution : DisputeResolution
  resolutionNotes : Option String := none
deriving DecidableEq

/-- Outcome of a dispute mutation (`forbidden` is produced only by the
spec-modelled governance gate below, never by the service handlers). -/
inductive DisputeHandlerResult where
  | notFound
  | stateConflict (message : String)
  | forbidden
  | ok (dispute : DisputeRecord)
deriving DecidableEq

/-- `POST /disputes/:disputeId/assign` of the dispute service, after
service auth and body parsing (the generated timestamp is passed in). -/
def assignDisputeHandler (store : DisputeStore) (disputeId : String)
    (parsed : AssignDisputeRequest) (now : String) :
    DisputeHandlerResult × DisputeStore :=
  match disputeStoreGet store disputeId with
  | none => (.notFound, store)
  | some current =>
      if current.status = .RESOLVED then
        (.stateConflict "Resolved disputes cannot be assigned", store)
      else
        let updated : DisputeRecord :=
          { current with
              status := .ASSIGNED
              assignedTo := some parsed.assignee
              assignedAt := some now }
        (.ok updated, disputeStoreUpdate store updated)

/-- `POST /disputes/:disputeId/resolve` of the dispute service, after
service auth and body parsing. -/
def resolveDisputeHandler (store : DisputeStore) (disputeId : String)
    (parsed : ResolveDisputeRequest) (now : String) :
    DisputeHandlerResult × DisputeStore :=
  match disputeStoreGet store disputeId with
  | none => (.notFound, store)
  | some current =>
      if current.status = .RESOLVED then
        (.stateConflict "Dispute is already resolved", store)
      else
        let updated : DisputeRecord :=
          { current with
              status := .RESOLVED
              resolvedBy := some parsed.resolvedBy
              resolvedAt := some now
              resolution := some parsed.resolution
              resolutionNotes := parsed.resolutionNotes }
        (.ok updated, disputeStoreUpdate store updated)

/-- Modelled from the spec: the governed assign body carries the acting
operator (`assignedBy`) next to the `assignee` consumed by the dispute
service. -/
structure GovernedAssignBody where
  assignedBy : String
  assignee : String
deriving DecidableEq

/-- Modelled from the spec: `POST /disputes/:disputeId/assign` behind the
governance gate, with `assignedBy` as the body's actor field. -/
def governedAssignDisputeHandler (allowedRoles : List String)
    (roleHeader actorHeader : HeaderValue) (store : DisputeStore)
    (disputeId : String) (body : GovernedAssignBody) (now : String) :
    DisputeHandlerResult × DisputeStore :=
  if governanceAllows allowedRoles roleHeader actorHeader body.assignedBy then
    assignDisputeHandler store disputeId ⟨body.assignee⟩ now
  else (.forbidden, store)

/-- Modelled from the spec: `POST /disputes/:disputeId/resolve` behind the
governance gate, with `resolvedBy` as the body's actor field. -/
def governedResolveDisputeHandler (allowedRoles : List String)
    (roleHeader actorHeader : HeaderValue) (store : DisputeStore)
    (disputeId : String) (body : ResolveDisputeRequest) (now : String) :
    DisputeHandlerResult × DisputeStore :=
  if governanceAllows allowedRoles roleHeader actorHeader body.resolvedBy then
    resolveDisputeHandler store disputeId body now
  else (.forbidden, store)

/-! ## Reconciliation service (`services/reconciliation-service`) -/

/-- `ReconciliationRun` of the shared API types (grams as the formatted
strings the service stores, counters as `Nat`). -/
structure ReconciliationRun where
  runId : String
  createdAt : String
  custodyTotalGram : String
  outstandingTotalGram : String
  mismatchGram : String
  absMismatchGram : String
  thresholdGram : String
  freezeTriggered : Bool
  certificatesEvaluated : Nat
  activeCertificates : Nat
  lockedCertificates : Nat
deriving DecidableEq

/-- `FreezeState` of the shared API types. -/
structure FreezeState where
  active : Bool
  reason : Option String := none
  updatedAt : String
  lastRunId : Option String := none
deriving DecidableEq

/-- `FreezeOverrideRecord` of the shared API types. -/
structure FreezeOverrideRecord where
  overrideId : String
  action : String
  actor : String
  reason : String
  previousActive : Bool
  nextActive : Bool
  createdAt : String
  runId : Option String := none
deriving DecidableEq

/-- `ManualUnfreezeRequest` of the shared API types. -/
structure ManualUnfreezeRequest where
  actor : String
  reason : String
deriving DecidableEq

/-- One iteration of `buildRun`'s loop: ACTIVE and LOCKED certificates
contribute their scaled `amountGram` to the outstanding total and bump
their counter; a failing parse (the TypeScript throws
`invalid_amount_gram`) aborts the whole fold with `none`. -/
def outstandingStep (acc : Option (Nat × Nat × Nat)) (c : SignedCertificate) :
    Option (Nat × Nat × Nat) :=
  match acc with
  | none => none
  | some (out, act, lock) =>
      match c.payload.status with
      | .ACTIVE =>
          match parseAmountGramScaledRecon c.payload.amountGram with
          | none => none
          | some v => some (out + v, act + 1, lock)
      | .LOCKED =>
          match parseAmountGramScaledRecon c.payload.amountGram with
          | none => none
          | some v => some (out + v, act, lock + 1)
      | _ => some (out, act, lock)

/-- Whether a certificate counts toward the outstanding total
(`status === "ACTIVE"` or `status === "LOCKED"` in `buildRun`'s loop). -/
def isOutstandingStatus (c : SignedCertificate) : Bool :=
  c.payload.status == .ACTIVE || c.payload.status == .LOCKED

/-- The `status === "ACTIVE"` branch condition of `buildRun`'s loop. -/
def isActiveCert (c : SignedCertificate) : Bool :=
  c.payload.status == CertificateStatus.ACTIVE

/-- The `status === "LOCKED"` branch condition of `buildRun`'s loop. -/
def isLockedCert (c : SignedCertificate) : Bool :=
  c.payload.status == CertificateStatus.LOCKED

/-- The scaled amounts of a list of certificates, failing if any does not
parse (used to state what `buildRun`'s loop computes). -/
def traverseAmounts : List SignedCertificate → Option (List Nat)
  | [] => some []
  | c :: rest =>
      match parseAmountGramScaledRecon c.payload.amountGram with
      | none => none
      | some v =>
          match traverseAmounts rest with
          | none => none
          | some vs => some (v :: vs)

/-- `buildRun` of the reconciliation service (the generated run id and
timestamp are effects, passed in; a thrown `invalid_amount_gram` is
`none`). -/
def buildRun (certificates : List SignedCertificate)
    (custodyTotalGram thresholdGram runId createdAt : String) :
    Option ReconciliationRun :=
  match certificates.foldl outstandingStep (some (0, 0, 0)) with
  | none => none
  | some (outstandingScaled, activeCertificates, lockedCertificates) =>
      match parseAmountGramScaledRecon custodyTotalGram,
          parseAmountGramScaledRecon thresholdGram with
      | some custodyScaled, some thresholdScaled =>
          let mismatchScaled : Int := (outstandingScaled : Int) - (custodyScaled : Int)
          let absMismatchScaled : Nat := mismatchScaled.natAbs
          some
            { runId := runId
              createdAt := createdAt
              custodyTotalGram := formatAmountGramRecon (custodyScaled : Int)
              outstandingTotalGram := formatAmountGramRecon (outstandingScaled : Int)
              mismatchGram := formatAmountGramRecon mismatchScaled
              absMismatchGram := formatAmountGramRecon (absMismatchScaled : Int)
              thresholdGram := formatAmountGramRecon (thresholdScaled : Int)
              freezeTriggered := decide (thresholdScaled ≤ absMismatchScaled)
              certificatesEvaluated := certificates.length
              activeCertificates := activeCertificates
              lockedCertificates := lockedCertificates }
      | _, _ => none

/-- `freezeStateForRun`. -/
def freezeStateForRun (run : ReconciliationRun) : FreezeState :=
  { active := run.freezeTriggered
    reason :=
      if run.freezeTriggered then
        some ("Mismatch " ++ run.absMismatchGram ++ "g exceeded threshold " ++
          run.thresholdGram ++ "g")
      else none
    updatedAt := run.createdAt
    lastRunId := some run.runId }

/-- The reconciliation store: run history (newest first), the freeze
singleton, and the freeze-override audit rows (newest first). -/
structure ReconStore where
  runs : List ReconciliationRun := []
  freezeState : FreezeState
  overrides : List FreezeOverrideRecord := []
deriving DecidableEq

/-- Outcome of `POST /reconcile/run` (the certificate fetch is an input
here, so its 502 path is out of frame). -/
inductive RunHandlerResult where
  | invalidInventory
  | reconciliationFailed
  | ok (run : ReconciliationRun) (freezeState : FreezeState)
deriving DecidableEq

/-- `POST /reconcile/run` after service auth and request parsing: the
custody amount is validated (400 `invalid_inventory_total_gram`
otherwise), the run is built from the fetched certificates (a throw maps
to 500 `reconciliation_failed`), then the run is inserted and the freeze
singleton upserted; the best-effort risk-stream publish does not affect
the stored outcome. -/
def runReconciliationHandler (store : ReconStore)
    (certificates : List SignedCertificate)
    (custodyTotalGram thresholdGram runId createdAt : String) :
    RunHandlerResult × ReconStore :=
  if (parseAmountGramScaledRecon custodyTotalGram).isNone then
    (.invalidInventory, store)
  else
    match buildRun certificates custodyTotalGram thresholdGram runId createdAt with
    | none => (.reconciliationFailed, store)
    | some run =>
        let freezeState := freezeStateForRun run
        (.ok run freezeState,
          { store with
              runs := run :: store.runs
              freezeState := freezeState })

/-- Outcome of `POST /freeze/unfreeze` (`forbidden` is produced only by
the spec-modelled governance gate below, never by the source handler). -/
inductive UnfreezeResult where
  | stateConflict
  | forbidden
  | ok (freezeState : FreezeState) (overrideRecord : FreezeOverrideRecord)
deriving DecidableEq

/-- `POST /freeze/unfreeze` of the reconciliation service, after service
auth and body parsing (the generated override id and timestamp are passed
in); note the source handler carries no governance gate. -/
def unfreezeHandler (store : ReconStore) (parsed : ManualUnfreezeRequest)
    (overrideId createdAt : String) : UnfreezeResult × ReconStore :=
  if store.freezeState.active = false then (.stateConflict, store)
  else
    let overrideRecord : FreezeOverrideRecord :=
      { overrideId := overrideId
        action := "UNFREEZE"
        actor := parsed.actor
        reason := parsed.reason
        previousActive := true
        nextActive := false
        createdAt := createdAt
        runId := store.freezeState.lastRunId }
    let freezeState : FreezeState :=
      { active := false
        reason := some ("Manual unfreeze by " ++ parsed.actor ++ ": " ++ parsed.reason)
        updatedAt := createdAt
        lastRunId := store.freezeState.lastRunId }
    (.ok freezeState overrideRecord,
      { store with
          freezeState := freezeState
          overrides := overrideRecord :: store.overrides })

/-- Modelled from the spec: `POST /freeze/unfreeze` behind the governance
gate (absent from the source handler), with the body's `actor` as the
actor field. -/
def governedUnfreezeHandler (allowedRoles : List String)
    (roleHeader actorHeader : HeaderValue) (store : ReconStore)
    (parsed : ManualUnfreezeRequest) (overrideId createdAt : String) :
    UnfreezeResult × ReconStore :=
  if governanceAllows allowedRoles roleHeader actorHeader parsed.actor then
    unfreezeHandler store parsed overrideId createdAt
  else (.forbidden, store)

/-! ## C7: governance RBAC -/

/-- C7, gate characterization: the gate passes exactly when the parsed
role header is allowed by the configured set and every present actor
header matches the body's actor field. -/
def C7Gate : Prop :=
  ∀ (allowed : List String) (roleH actorH : HeaderValue) (bodyActor : String),
    governanceAllows allowed roleH actorH bodyActor = true ↔
      (isGovernanceRoleAllowed (parseGovernanceRoleHeader roleH) allowed = true ∧
        ∀ actor, parseGovernanceActorHeader actorH = some actor → actor = bodyActor)

/-- C7, normalization: for a non-blank single-valued role header the role
check consults exactly the trimmed, lowercased header value (against the
configured set, or the wildcard). -/
def C7Normalized : Prop :=
  ∀ (allowed : List String) (v : String),
    normalizeToken v ≠ "" →
    isGovernanceRoleAllowed (parseGovernanceRoleHeader (.str v)) allowed =
      (allowed.contains "*" || allowed.contains (normalizeToken v))

/-- C7, default allowed sets: with the environment override unset (or set
to the documented default string) the configured sets are exactly
`{ops_admin, ops_agent, admin}` / `{ops_admin, ops_lead, admin}` /
`{ops_admin, admin}`. -/
def C7Defaults : Prop :=
  parseGovernanceRoleSet none DISPUTE_ASSIGN_DEFAULT_ROLES = DISPUTE_ASSIGN_DEFAULT_ROLES ∧
  parseGovernanceRoleSet none DISPUTE_RESOLVE_DEFAULT_ROLES = DISPUTE_RESOLVE_DEFAULT_ROLES ∧
  parseGovernanceRoleSet none RECON_UNFREEZE_DEFAULT_ROLES = RECON_UNFREEZE_DEFAULT_ROLES ∧
  parseGovernanceRoleSet (some "ops_admin,ops_agent,admin") [] = DISPUTE_ASSIGN_DEFAULT_ROLES ∧
  parseGovernanceRoleSet (some "ops_admin,ops_lead,admin") [] = DISPUTE_RESOLVE_DEFAULT_ROLES ∧
  parseGovernanceRoleSet (some "ops_admin,admin") [] = RECON_UNFREEZE_DEFAULT_ROLES

/-- C7, denial: a request failing the gate yields `forbidden` (403) and
leaves the store untouched, for each of the three governed mutations. -/
def C7Denies : Prop :=
  ∀ (allowed : List String) (roleH actorH : HeaderValue),
    (∀ (store : DisputeStore) (disputeId : String) (body : GovernedAssignBody)
        (now : String),
      governanceAllows allowed roleH actorH body.assignedBy = false →
      governedAssignDisputeHandler allowed roleH actorH store disputeId body now =
        (.forbidden, store)) ∧
    (∀ (store : DisputeStore) (disputeId : String) (body : ResolveDisputeRequest)
        (now : String),
      governanceAllows allowed roleH actorH body.resolvedBy = false →
      governedResolveDisputeHandler allowed roleH actorH store disputeId body now =
        (.forbidden, store)) ∧
    (∀ (store : ReconStore) (body : ManualUnfreezeRequest) (overrideId now : String),
      governanceAllows allowed roleH actorH body.actor = false →
      governedUnfreezeHandler allowed roleH actorH store body overrideId now =
        (.forbidden, store))

/-- C7, grant: a request passing the gate runs the underlying mutation
unchanged. -/
def C7Grants : Prop :=
  ∀ (allowed : List String) (roleH actorH : HeaderValue),
    (∀ (store : DisputeStore) (disputeId : String) (body : GovernedAssignBody)
        (now : String),
      governanceAllows allowed roleH actorH body.assignedBy = true →
      governedAssignDisputeHandler allowed roleH actorH store disputeId body now =
        assignDisputeHandler store disputeId ⟨body.assignee⟩ now) ∧
    (∀ (store : DisputeStore) (disputeId : String) (body : ResolveDisputeRequest)
        (now : String),
      governanceAllows allowed roleH actorH body.resolvedBy = true →
      governedResolveDisputeHandler allowed roleH actorH store disputeId body now =
        resolveDisputeHandler store disputeId body now) ∧
    (∀ (store : ReconStore) (body : ManualUnfreezeRequest) (overrideId now : String),
      governanceAllows allowed roleH actorH body.actor = true →
      governedUnfreezeHandler allowed roleH actorH store body overrideId now =
        unfreezeHandler store body overrideId now)

/-- C7 (governance RBAC): every governance-only mutation (dispute assign,
dispute resolve, reconciliation unfreeze) passes its gate exactly when the
`x-governance-role` header, normalized to lowercase and trimmed, is in the
configured allowed set (defaults `{ops_admin, ops_agent, admin}` for
assign, `{ops_admin, ops_lead, admin}` for resolve, `{ops_admin, admin}`
for unfreeze) and any present `x-governance-actor` header equals the
body's actor field (`assignedBy`/`resolvedBy`/`actor`); a violation
yields 403 (`forbidden`) with no state change, and a grant runs the
underlying mutation unchanged.  The shared header helpers are translated
from the source; the gate wiring itself is modelled from the spec (see
`governanceAllows`). -/
theorem C7_governance_rbac :
    C7Gate ∧ C7Normalized ∧ C7Defaults ∧ C7Denies ∧ C7Grants := by
  refine ⟨?_, ?_, ?_, ?_, ?_⟩
  · intro allowed roleH actorH bodyActor
    unfold governanceAllows
    cases hact : parseGovernanceActorHeader actorH with
    | none => simp
    | some a => simp [Bool.and_eq_true, beq_iff_eq]
  · intro allowed v hv
    have h1 : parseGovernanceRoleHeader (.str v) = some (normalizeToken v) := by
      simp [parseGovernanceRoleHeader, hv]
    rw [h1]
    unfold isGovernanceRoleAllowed
    cases hstar : allowed.contains "*" with
    | true => simp [hstar]
    | false => simp [hstar]
  · exact ⟨by decide, by decide, by decide, by decide, by decide, by decide⟩
  · intro allowed roleH actorH
    refine ⟨?_, ?_, ?_⟩
    · intro store disputeId body now h
      simp [governedAssignDisputeHandler, h]
    · intro store disputeId body now h
      simp [governedResolveDisputeHandler, h]
    · intro store body overrideId now h
      simp [governedUnfreezeHandler, h]
  · intro allowed roleH actorH
    refine ⟨?_, ?_, ?_⟩
    · intro store disputeId body now h
      simp [governedAssignDisputeHandler, h]
    · intro store disputeId body now h
      simp [governedResolveDisputeHandler, h]
    · intro store body overrideId now h
      simp [governedUnfreezeHandler, h]

/-- An active freeze as the reconciliation store would hold it after a
triggering run. -/
def toyFreezeStateActive : FreezeState :=
  { active := true
    reason := some "Mismatch 1.0000g exceeded threshold 0.5000g"
    updatedAt := "2026-01-01T00:00:00.000Z"
    lastRunId := some "RECON-RUN-1" }

/-- A reconciliation store under an active freeze. -/
def toyReconStoreFrozen : ReconStore :=
  { runs := [], freezeState := toyFreezeStateActive, overrides := [] }

/-- The freeze state written by the toy manual unfreeze below. -/
def toyUnfrozenFS : FreezeState :=
  { active := false
    reason := some "Manual unfreeze by ops-admin-1: mismatch resolved"
    updatedAt := "2026-01-01T00:00:01.000Z"
    lastRunId := some "RECON-RUN-1" }

/-- The override row written by the toy manual unfreeze below. -/
def toyOverrideRec : FreezeOverrideRecord :=
  { overrideId := "FOVR-1"
    action := "UNFREEZE"
    actor := "ops-admin-1"
    reason := "mismatch resolved"
    previousActive := true
    nextActive := false
    createdAt := "2026-01-01T00:00:01.000Z"
    runId := some "RECON-RUN-1" }

/-- C7 at concrete inputs: a `viewer` role is denied the unfreeze (403,
store untouched) under the default set; a padded uppercase ` OPS_Admin `
role with a matching actor header is granted and the unfreeze runs,
deactivating the freeze and recording the override; a mismatching actor
header is a violation even for an allowed role. -/
theorem C7_governance_rbac_witness :
    (governanceAllows (parseGovernanceRoleSet none RECON_UNFREEZE_DEFAULT_ROLES)
        (.str "viewer") (.str "ops-admin-1") "ops-admin-1" = false ∧
      governedUnfreezeHandler (parseGovernanceRoleSet none RECON_UNFREEZE_DEFAULT_ROLES)
        (.str "viewer") (.str "ops-admin-1") toyReconStoreFrozen
        ⟨"ops-admin-1", "mismatch resolved"⟩ "FOVR-1" "2026-01-01T00:00:01.000Z" =
        (.forbidden, toyReconStoreFrozen)) ∧
    (governanceAllows (parseGovernanceRoleSet none RECON_UNFREEZE_DEFAULT_ROLES)
        (.str " OPS_Admin ") (.str "ops-admin-1") "ops-admin-1" = true ∧
      governedUnfreezeHandler (parseGovernanceRoleSet none RECON_UNFREEZE_DEFAULT_ROLES)
        (.str " OPS_Admin ") (.str "ops-admin-1") toyReconStoreFrozen
        ⟨"ops-admin-1", "mismatch resolved"⟩ "FOVR-1" "2026-01-01T00:00:01.000Z" =
        (.ok toyUnfrozenFS toyOverrideRec,
          { toyReconStoreFrozen with
              freezeState := toyUnfrozenFS
              overrides := [toyOverrideRec] })) ∧
    governanceAllows (parseGovernanceRoleSet none DISPUTE_ASSIGN_DEFAULT_ROLES)
      (.str "ops_admin") (.str "ops-admin-2") "ops-admin-1" = false := by
  refine ⟨⟨by decide, ?_⟩, ⟨by decide, ?_⟩, by decide⟩
  · exact (C7_governance_rbac.2.2.2.1 (parseGovernanceRoleSet none
      RECON_UNFREEZE_DEFAULT_ROLES) (.str "viewer") (.str "ops-admin-1")).2.2
      toyReconStoreFrozen ⟨"ops-admin-1", "mismatch resolved"⟩ "FOVR-1"
      "2026-01-01T00:00:01.000Z" (by decide)
  · have h := (C7_governance_rbac.2.2.2.2 (parseGovernanceRoleSet none
      RECON_UNFREEZE_DEFAULT_ROLES) (.str " OPS_Admin ") (.str "ops-admin-1")).2.2
      toyReconStoreFrozen ⟨"ops-admin-1", "mismatch resolved"⟩ "FOVR-1"
      "2026-01-01T00:00:01.000Z" (by decide)
    rw [h]
    rfl

/-! ## C8: reconciliation run -/

theorem foldl_outstandingStep (certificates : List SignedCertificate)
    (outs : List Nat)
    (h : traverseAmounts (certificates.filter isOutstandingStatus) = some outs)
    (out act lock : Nat) :
    certificates.foldl outstandingStep (some (out, act, lock)) =
      some (out + outs.sum,
        act + (certificates.filter isActiveCert).length,
        lock + (certificates.filter isLockedCert).length) := by
  induction certificates generalizing outs out act lock with
  | nil =>
      simp only [List.filter_nil, traverseAmounts, Option.some.injEq] at h
      subst h
      simp
  | cons c rest ih =>
      cases hs : c.payload.status with
      | ACTIVE =>
          have hout : isOutstandingStatus c = true := by
            simp [isOutstandingStatus, hs]
          rw [List.filter_cons_of_pos hout] at h
          simp only [traverseAmounts] at h
          cases hp : parseAmountGramScaledRecon c.payload.amountGram with
          | none => rw [hp] at h; exact absurd h (by simp)
          | some v =>
              rw [hp] at h
              cases htr : traverseAmounts (rest.filter isOutstandingStatus) with
              | none => rw [htr] at h; exact absurd h (by simp)
              | some vs =>
                  rw [htr] at h
                  simp only [Option.some.injEq] at h
                  subst h
                  have hact : isActiveCert c = true := by simp [isActiveCert, hs]
                  have hlck : ¬ isLockedCert c = true := by simp [isLockedCert, hs]
                  simp only [List.foldl_cons, outstandingStep, hs, hp]
                  rw [ih vs htr (out + v) (act + 1) lock]
                  rw [List.filter_cons_of_pos hact, List.filter_cons_of_neg hlck]
                  simp only [List.sum_cons, List.length_cons, Option.some.injEq,
                    Prod.mk.injEq]
                  exact ⟨by omega, by omega, trivial⟩
      | LOCKED =>
          have hout : isOutstandingStatus c = true := by
            simp [isOutstandingStatus, hs]
          rw [List.filter_cons_of_pos hout] at h
          simp only [traverseAmounts] at h
          cases hp : parseAmountGramScaledRecon c.payload.amountGram with
          | none => rw [hp] at h; exact absurd h (by simp)
          | some v =>
              rw [hp] at h
              cases htr : traverseAmounts (rest.filter isOutstandingStatus) with
              | none => rw [htr] at h; exact absurd h (by simp)
              | some vs =>
                  rw [htr] at h
                  simp only [Option.some.injEq] at h
                  subst h
                  have hact : ¬ isActiveCert c = true := by simp [isActiveCert, hs]
                  have hlck : isLockedCert c = true := by simp [isLockedCert, hs]
                  simp only [List.foldl_cons, outstandingStep, hs, hp]
                  rw [ih vs htr (out + v) act (lock + 1)]
                  rw [List.filter_cons_of_neg hact, List.filter_cons_of_pos hlck]
                  simp only [List.sum_cons, List.length_cons, Option.some.injEq,
                    Prod.mk.injEq]
                  exact ⟨by omega, trivial, by omega⟩
      | REDEEMED =>
          have hout : ¬ isOutstandingStatus c = true := by
            simp [isOutstandingStatus, hs]
          have hact : ¬ isActiveCert c = true := by simp [isActiveCert, hs]
          have hlck : ¬ isLockedCert c = true := by simp [isLockedCert, hs]
          rw [List.filter_cons_of_neg hout] at h
          simp only [List.foldl_cons, outstandingStep, hs]
          rw [ih outs h out act lock]
          rw [List.filter_cons_of_neg hact, List.filter_cons_of_neg hlck]
      | REVOKED =>
          have hout : ¬ isOutstandingStatus c = true := by
            simp [isOutstandingStatus, hs]
          have hact : ¬ isActiveCert c = true := by simp [isActiveCert, hs]
          have hlck : ¬ isLockedCert c = true := by simp [isLockedCert, hs]
          rw [List.filter_cons_of_neg hout] at h
          simp only [List.foldl_cons, outstandingStep, hs]
          rw [ih outs h out act lock]
          rw [List.filter_cons_of_neg hact, List.filter_cons_of_neg hlck]

/-- The run the spec's words describe: outstanding is the sum of the
scaled amounts over ACTIVE/LOCKED certificates, mismatch is
`outstanding - custody` on scaled integers, abs its absolute value,
`freezeTriggered = (abs ≥ threshold)`, with every gram field the
formatted scaled integer (used to state C8; compare `buildRun`). -/
def expectedRun (certificates : List SignedCertificate)
    (custodyScaled thresholdScaled : Nat) (outs : List Nat)
    (runId createdAt : String) : ReconciliationRun :=
  { runId := runId
    createdAt := createdAt
    custodyTotalGram := formatAmountGramRecon (custodyScaled : Int)
    outstandingTotalGram := formatAmountGramRecon (outs.sum : Int)
    mismatchGram := formatAmountGramRecon ((outs.sum : Int) - (custodyScaled : Int))
    absMismatchGram :=
      formatAmountGramRecon ((((outs.sum : Int) - (custodyScaled : Int)).natAbs : Int))
    thresholdGram := formatAmountGramRecon (thresholdScaled : Int)
    freezeTriggered :=
      decide (thresholdScaled ≤ ((outs.sum : Int) - (custodyScaled : Int)).natAbs)
    certificatesEvaluated := certificates.length
    activeCertificates := (certificates.filter isActiveCert).length
    lockedCertificates := (certificates.filter isLockedCert).length }

/-- C8, run arithmetic: whenever the custody and threshold amounts parse
and every ACTIVE/LOCKED certificate's amount parses, `buildRun` returns
exactly the run the spec describes (integer arithmetic scaled by 10⁴, no
rounding anywhere). -/
def C8Run : Prop :=
  ∀ (certificates : List SignedCertificate)
    (custody threshold runId createdAt : String)
    (custodyScaled thresholdScaled : Nat) (outs : List Nat),
    parseAmountGramScaledRecon custody = some custodyScaled →
    parseAmountGramScaledRecon threshold = some thresholdScaled →
    traverseAmounts (certificates.filter isOutstandingStatus) = some outs →
    buildRun certificates custody threshold runId createdAt =
      some (expectedRun certificates custodyScaled thresholdScaled outs runId createdAt)

/-- C8, persistence: a successful run is prepended to the run history and
the freeze singleton is upserted with `active = freezeTriggered`,
`lastRunId` the run id, and the mismatch reason exactly on trigger. -/
def C8Persisted : Prop :=
  ∀ (store : ReconStore) (certificates : List SignedCertificate)
    (custody threshold runId createdAt : String) (run : ReconciliationRun),
    buildRun certificates custody threshold runId createdAt = some run →
    runReconciliationHandler store certificates custody threshold runId createdAt =
      (.ok run (freezeStateForRun run),
        { store with
            runs := run :: store.runs
            freezeState := freezeStateForRun run }) ∧
    (freezeStateForRun run).active = run.freezeTriggered ∧
    (freezeStateForRun run).lastRunId = some run.runId ∧
    (run.freezeTriggered = true →
      (freezeStateForRun run).reason =
        some ("Mismatch " ++ run.absMismatchGram ++ "g exceeded threshold " ++
          run.thresholdGram ++ "g")) ∧
    (run.freezeTriggered = false → (freezeStateForRun run).reason = none)

/-- C8, determinism: re-running `buildRun` over the same certificates,
custody and threshold (only the generated run id and timestamp differ)
reproduces the same mismatch, outstanding total and freeze decision. -/
def C8Deterministic : Prop :=
  ∀ (certificates : List SignedCertificate) (custody threshold : String)
    (runId runId' createdAt createdAt' : String) (run run' : ReconciliationRun),
    buildRun certificates custody threshold runId createdAt = some run →
    buildRun certificates custody threshold runId' createdAt' = some run' →
    run.mismatchGram = run'.mismatchGram ∧
    run.outstandingTotalGram = run'.outstandingTotalGram ∧
    run.absMismatchGram = run'.absMismatchGram ∧
    run.freezeTriggered = run'.freezeTriggered

/-- C8 (reconciliation run): for every certificate list and parsing
custody/threshold amounts the run reports outstanding = the sum of scaled
`amountGram` over ACTIVE/LOCKED certificates, mismatch = outstanding −
custody, abs = |mismatch| and freezeTriggered = (abs ≥ threshold), all on
integers scaled by 10,000; the run is persisted and the freeze singleton
upserted with `active = freezeTriggered` and, on trigger, reason
`Mismatch {abs}g exceeded threshold {T}g`; re-running on the same inputs
yields the same mismatch and freeze decision. -/
theorem C8_reconciliation_run : C8Run ∧ C8Persisted ∧ C8Deterministic := by
  refine ⟨?_, ?_, ?_⟩
  · intro certificates custody threshold runId createdAt custodyScaled thresholdScaled
      outs hc ht ho
    unfold buildRun
    rw [foldl_outstandingStep certificates outs ho 0 0 0]
    simp [hc, ht, expectedRun]
  · intro store certificates custody threshold runId createdAt run h
    have hc : (parseAmountGramScaledRecon custody).isNone = false := by
      unfold buildRun at h
      cases hf : certificates.foldl outstandingStep (some (0, 0, 0)) with
      | none => rw [hf] at h; exact absurd h (by simp)
      | some triple =>
          obtain ⟨out, act, lock⟩ := triple
          rw [hf] at h
          cases hcu : parseAmountGramScaledRecon custody with
          | none => rw [hcu] at h; exact absurd h (by simp)
          | some _ => simp [hcu]
    refine ⟨?_, rfl, rfl, ?_, ?_⟩
    · unfold runReconciliationHandler
      rw [hc, h]
      simp
    · intro htrig
      simp [freezeStateForRun, htrig]
    · intro htrig
      simp [freezeStateForRun, htrig]
  · intro certificates custody threshold runId runId' createdAt createdAt' run run'
      h1 h2
    unfold buildRun at h1 h2
    cases hf : certificates.foldl outstandingStep (some (0, 0, 0)) with
    | none =>
        rw [hf] at h1
        exact absurd h1 (by simp)
    | some triple =>
        obtain ⟨out, act, lock⟩ := triple
        rw [hf] at h1 h2
        cases hcu : parseAmountGramScaledRecon custody with
        | none => rw [hcu] at h1; exact absurd h1 (by simp)
        | some custodyScaled =>
            rw [hcu] at h1 h2
            cases hth : parseAmountGramScaledRecon threshold with
            | none => rw [hth] at h1; exact absurd h1 (by simp)
            | some thresholdScaled =>
                rw [hth] at h1 h2
                simp only [Option.some.injEq] at h1 h2
                subst h1
                subst h2
                exact ⟨rfl, rfl, rfl, rfl⟩

/-- The payload of a certificate as the reconciliation service sees it. -/
def toyReconPayload (certId amount : String) (status : CertificateStatus) :
    CertPayload :=
  { certId := certId, issuer := "issuer-pk", owner := "0xA", amountGram := amount,
    purity := "999.9", issuedAt := "2026-01-01T00:00:00.000Z", status := status,
    metadata := none }

/-- A certificate as the reconciliation service fetches it (the signature
fields play no role in `buildRun`). -/
def toyReconCert (certId amount : String) (status : CertificateStatus) :
    SignedCertificate :=
  { payload := toyReconPayload certId amount status, payloadHash := "h",
    signature := "s" }

/-- The certificate inventory of the spec's reconciliation scenario:
1.5000 g ACTIVE, 0.5000 g LOCKED, 4.0000 g REDEEMED. -/
def toyReconCerts : List SignedCertificate :=
  [toyReconCert "DGC-1" "1.5000" CertificateStatus.ACTIVE,
    toyReconCert "DGC-2" "0.5000" CertificateStatus.LOCKED,
    toyReconCert "DGC-3" "4.0000" CertificateStatus.REDEEMED]

theorem natToChars_step (n q r : Nat) (h : ¬ n < 10) (hq : n / 10 = q)
    (hr : n % 10 = r) :
    natToChars n = natToChars q ++ [Nat.digitChar r] := by
  rw [natToChars_eq_of_ge n h, hq, hr]

theorem natToChars_5000 : natToChars 5000 = ['5', '0', '0', '0'] := by
  rw [natToChars_step 5000 500 0 (by omega) (by decide) (by decide),
    natToChars_step 500 50 0 (by omega) (by decide) (by decide),
    natToChars_step 50 5 0 (by omega) (by decide) (by decide),
    natToChars_eq_of_lt 5 (by omega)]
  rfl

theorem fmtRecon_20000 : formatAmountGramRecon ((20000 : Nat) : Int) = "2.0000" := by
  unfold formatAmountGramRecon
  rw [if_neg (by omega)]
  unfold formatAmountGramChars
  rw [show (((20000 : Nat) : Int)).natAbs = 20000 from rfl]
  rw [show (20000 : Nat) / AMOUNT_SCALE = 2 from by decide]
  rw [show (20000 : Nat) % AMOUNT_SCALE = 0 from by decide]
  rw [natToChars_eq_of_lt 2 (by omega), natToChars_eq_of_lt 0 (by omega)]
  rfl

theorem fmtRecon_10000 : formatAmountGramRecon ((10000 : Nat) : Int) = "1.0000" := by
  unfold formatAmountGramRecon
  rw [if_neg (by omega)]
  unfold formatAmountGramChars
  rw [show (((10000 : Nat) : Int)).natAbs = 10000 from rfl]
  rw [show (10000 : Nat) / AMOUNT_SCALE = 1 from by decide]
  rw [show (10000 : Nat) % AMOUNT_SCALE = 0 from by decide]
  rw [natToChars_eq_of_lt 1 (by omega), natToChars_eq_of_lt 0 (by omega)]
  rfl

theorem fmtRecon_5000 : formatAmountGramRecon ((5000 : Nat) : Int) = "0.5000" := by
  unfold formatAmountGramRecon
  rw [if_neg (by omega)]
  unfold formatAmountGramChars
  rw [show (((5000 : Nat) : Int)).natAbs = 5000 from rfl]
  rw [show (5000 : Nat) / AMOUNT_SCALE = 0 from by decide]
  rw [show (5000 : Nat) % AMOUNT_SCALE = 5000 from by decide]
  rw [natToChars_eq_of_lt 0 (by omega), natToChars_5000]
  rfl

/-- C8 at the spec's scenario: threshold 0.5000 g, custody 1.0000 g →
outstanding 2.0000 g (the REDEEMED 4.0000 g is excluded), mismatch
1.0000 g, freeze triggered, and the persisted freeze reason quotes both
figures. -/
theorem C8_reconciliation_run_witness :
    (parseAmountGramScaledRecon "1.0000" = some 10000 ∧
      parseAmountGramScaledRecon "0.5000" = some 5000 ∧
      traverseAmounts (toyReconCerts.filter isOutstandingStatus) =
        some [15000, 5000]) ∧
    buildRun toyReconCerts "1.0000" "0.5000" "RECON-RUN-1"
        "2026-01-01T00:00:00.000Z" =
      some (expectedRun toyReconCerts 10000 5000 [15000, 5000] "RECON-RUN-1"
        "2026-01-01T00:00:00.000Z") ∧
    (expectedRun toyReconCerts 10000 5000 [15000, 5000] "RECON-RUN-1"
        "2026-01-01T00:00:00.000Z").outstandingTotalGram = "2.0000" ∧
    (expectedRun toyReconCerts 10000 5000 [15000, 5000] "RECON-RUN-1"
        "2026-01-01T00:00:00.000Z").mismatchGram = "1.0000" ∧
    (expectedRun toyReconCerts 10000 5000 [15000, 5000] "RECON-RUN-1"
        "2026-01-01T00:00:00.000Z").freezeTriggered = true ∧
    freezeStateForRun (expectedRun toyReconCerts 10000 5000 [15000, 5000]
        "RECON-RUN-1" "2026-01-01T00:00:00.000Z") =
      { active := true, reason := some "Mismatch 1.0000g exceeded threshold 0.5000g",
        updatedAt := "2026-01-01T00:00:00.000Z", lastRunId := some "RECON-RUN-1" } := by
  have habs : (expectedRun toyReconCerts 10000 5000 [15000, 5000] "RECON-RUN-1"
      "2026-01-01T00:00:00.000Z").absMismatchGram = "1.0000" := by
    show formatAmountGramRecon ((10000 : Nat) : Int) = "1.0000"
    exact fmtRecon_10000
  have hthr : (expectedRun toyReconCerts 10000 5000 [15000, 5000] "RECON-RUN-1"
      "2026-01-01T00:00:00.000Z").thresholdGram = "0.5000" := by
    show formatAmountGramRecon ((5000 : Nat) : Int) = "0.5000"
    exact fmtRecon_5000
  refine ⟨⟨by decide, by decide, by decide⟩, ?_, ?_, ?_, by decide, ?_⟩
  · exact C8_reconciliation_run.1 toyReconCerts "1.0000" "0.5000" "RECON-RUN-1"
      "2026-01-01T00:00:00.000Z" 10000 5000 [15000, 5000] (by decide) (by decide)
      (by decide)
  · show formatAmountGramRecon ((20000 : Nat) : Int) = "2.0000"
    exact fmtRecon_20000
  · show formatAmountGramRecon ((10000 : Nat) : Int) = "1.0000"
    exact fmtRecon_10000
  · unfold freezeStateForRun
    rw [habs, hthr]
    rfl

/-! ## Risk-stream service (`services/risk-stream`) -/

inductive RiskLevel where
  | LOW | MEDIUM | HIGH
deriving DecidableEq, Repr

inductive RiskAlertTarget where
  | CERTIFICATE | LISTING | RECONCILIATION
deriving DecidableEq, Repr

/-- `RiskReason` of the shared API types (`evidence` as a string-valued
record). -/
structure RiskReason where
  code : String
  scoreImpact : Int
  message : String
  evidence : Metadata := []
deriving DecidableEq

/-- `CertificateRiskProfile` of the shared API types. -/
structure CertificateRiskProfile where
  certId : String
  score : Int
  level : RiskLevel
  reasons : List RiskReason
  updatedAt : String
deriving DecidableEq

/-- `ListingRiskProfile` of the shared API types. -/
structure ListingRiskProfile where
  listingId : String
  certId : Option String := none
  score : Int
  level : RiskLevel
  reasons : List RiskReason
  updatedAt : String
deriving DecidableEq

/-- `RiskAlert` of the shared API types. -/
structure RiskAlert where
  alertId : String
  targetType : RiskAlertTarget
  targetId : String
  score : Int
  level : RiskLevel
  reasons : List RiskReason
  createdAt : String
deriving DecidableEq

/-- `computeRiskLevel` (`HIGH` when `score ≥ 60`, `MEDIUM` when
`score ≥ 25`, else `LOW`). -/
def computeRiskLevel (score : Int) : RiskLevel :=
  if score ≥ 60 then .HIGH
  else if score ≥ 25 then .MEDIUM
  else .LOW

/-- `normalizeScore` (`Math.max(0, Math.min(100, Math.round(score)))`;
every call site passes an integer sum, so the rounding is the
identity). -/
def normalizeScore (score : Int) : Int :=
  max 0 (min 100 score)

/-- A listing-audit event as it arrives on the wire at
`POST /ingest/listing-audit-event`: `type` is the raw JSON string (the
validator, not the type system, constrains it), so the embedded public
union `ListingAuditEventType` (which includes `DISPUTE_OPENED`) is only
reached through `isListingAuditEventW`. -/
structure WireListingAuditEvent where
  eventId : String
  listingId : String
  type : String
  actor : Option String := none
  occurredAt : String
  details : Option Metadata := none
deriving DecidableEq

/-- The optional `listing` reference of the ingest body (only the two
fields the route validates and reads). -/
structure WireListingRef where
  listingId : String
  certId : String
deriving DecidableEq

/-- The body of `POST /ingest/listing-audit-event`. -/
structure WireIngestListingRequest where
  event : WireListingAuditEvent
  listing : Option WireListingRef := none
deriving DecidableEq

/-- The JSON name of a public `ListingAuditEventType` member. -/
def listingAuditEventTypeName : ListingAuditEventType → String
  | .CREATED => "CREATED"
  | .LOCKED => "LOCKED"
  | .SETTLED => "SETTLED"
  | .CANCELLED => "CANCELLED"
  | .DISPUTE_OPENED => "DISPUTE_OPENED"

/-- `isValidIsoDate`: non-blank and `Date.parse` finite; the date parser
is an oracle parameter `dateOk`. -/
def isValidIsoDateW (dateOk : String → Bool) (s : String) : Bool :=
  isNonEmptyString s && dateOk s

/-- `isListingAuditEvent` of the risk stream: `eventId` and `listingId`
non-blank, `occurredAt` a valid date, `type` one of exactly `CREATED`,
`LOCKED`, `SETTLED`, `CANCELLED` (the source rejects every other string,
`DISPUTE_OPENED` included), and any present `actor` non-blank (a present
`details` need only be an object, which the wire type guarantees). -/
def isListingAuditEventW (dateOk : String → Bool) (e : WireListingAuditEvent) : Bool :=
  isNonEmptyString e.eventId &&
  isNonEmptyString e.listingId &&
  isValidIsoDateW dateOk e.occurredAt &&
  (e.type == "CREATED" || e.type == "LOCKED" || e.type == "SETTLED" ||
    e.type == "CANCELLED") &&
  (match e.actor with
   | none => true
   | some a => isNonEmptyString a)

/-- `parseIngestListingRequest`: the event must validate, and a present
`listing` must carry non-blank `listingId` and `certId`. -/
def parseIngestListingRequest (dateOk : String → Bool)
    (body : WireIngestListingRequest) : Option WireIngestListingRequest :=
  if isListingAuditEventW dateOk body.event then
    match body.listing with
    | none => some body
    | some l =>
        if isNonEmptyString l.listingId && isNonEmptyString l.certId then some body
        else none
  else none

/-- A row of `risk_listing_audit_events` (the event plus the resolved
certificate id column). -/
structure RiskIngestedListingEvent where
  event : WireListingAuditEvent
  certId : Option String := none
deriving DecidableEq

/-- The risk store slice touched by the ingest routes in frame: the
listing-audit rows (insertion order), both profile tables and the
append-only alerts; the ledger-event table, untouched by these routes,
is omitted. -/
structure RiskStore where
  listingAudit : List RiskIngestedListingEvent := []
  certificateProfiles : List CertificateRiskProfile := []
  listingProfiles : List ListingRiskProfile := []
  alerts : List RiskAlert := []
deriving DecidableEq

/-- `appendListingAuditEvent`
(`INSERT ... ON CONFLICT(event_id) DO NOTHING`). -/
def appendListingAuditEvent (store : RiskStore) (e : WireListingAuditEvent)
    (certId : Option String) : RiskStore :=
  if store.listingAudit.any (fun r => r.event.eventId == e.eventId) then store
  else { store with listingAudit := store.listingAudit ++ [⟨e, certId⟩] }

/-- `getListingCertId` (`SELECT cert_id ... WHERE listing_id = ? AND
cert_id IS NOT NULL ORDER BY occurred_at DESC LIMIT 1`; among rows
sharing the maximal `occurred_at` this model returns the first
inserted). -/
def getListingCertId (store : RiskStore) (listingId : String) : Option String :=
  let rows := store.listingAudit.filter
    (fun r => r.event.listingId == listingId && r.certId.isSome)
  match rows.foldl
      (fun best r =>
        match best with
        | none => some r
        | some b => if b.event.occurredAt < r.event.occurredAt then some r else some b)
      none with
  | none => none
  | some r => r.certId

/-- The certificate id the ingest route attaches to the stored row
(`parsed.listing?.certId || riskStore.getListingCertId(...)`; a present
listing reference carries a validated non-blank `certId`). -/
def resolveListingCertId (store : RiskStore) (body : WireIngestListingRequest) :
    Option String :=
  match body.listing with
  | some l => some l.certId
  | none => getListingCertId store body.event.listingId

/-- Outcome of `POST /ingest/listing-audit-event`. -/
inductive RiskIngestResult where
  | invalidRequest
  | acceptedListing (listingId : String)
deriving DecidableEq

/-- `POST /ingest/listing-audit-event`: validate (400 `invalid_request`
otherwise, nothing stored), resolve the certificate id, append the row,
then recompute the listing profile and fan out
(`recalculateListingProfile`, abstracted as `recalc`: it upserts
profiles and possibly inserts alerts but never touches the audit rows),
replying 202 with the listing id. -/
def ingestListingAuditHandler (dateOk : String → Bool)
    (recalc : RiskStore → String → RiskStore)
    (store : RiskStore) (body : WireIngestListingRequest) :
    RiskIngestResult × RiskStore :=
  match parseIngestListingRequest dateOk body with
  | none => (.invalidRequest, store)
  | some parsed =>
      let certId := resolveListingCertId store parsed
      let store1 := appendListingAuditEvent store parsed.event certId
      (.acceptedListing parsed.event.listingId, recalc store1 parsed.event.listingId)

/-- `IngestReconciliationAlertRequest` of the shared API types. -/
structure IngestReconciliationAlertRequest where
  runId : String
  mismatchGram : String
  absMismatchGram : String
  thresholdGram : String
  freezeTriggered : Bool
  createdAt : String
deriving DecidableEq

/-- Modelled from the spec: the reconciliation-alert score is
"proportional to `absMismatchGram/thresholdGram` capped at 100"; the
proportionality constant `k` (score points per unit of the ratio) is
left as a model parameter, the ratio is computed on the 10⁴-scaled
integers with `Nat` floor division (a zero threshold yields 0 here),
and the cap is the source `normalizeScore`. -/
def reconciliationAlertScore (k : Nat) (absScaled thresholdScaled : Nat) : Int :=
  normalizeScore ((k * absScaled / thresholdScaled : Nat) : Int)

/-- Modelled from the spec: the alert stored by the reconciliation-alert
ingest (`alertId = "ALERT-RECON-" + runId`, `targetType=RECONCILIATION`,
`targetId=runId`, score as above, level via the source
`computeRiskLevel`). -/
def reconciliationAlert (k : Nat) (body : IngestReconciliationAlertRequest) :
    RiskAlert :=
  { alertId := "ALERT-RECON-" ++ body.runId
    targetType := .RECONCILIATION
    targetId := body.runId
    score := reconciliationAlertScore k (parseAmountGramScaled body.absMismatchGram)
      (parseAmountGramScaled body.thresholdGram)
    level := computeRiskLevel (reconciliationAlertScore k
      (parseAmountGramScaled body.absMismatchGram)
      (parseAmountGramScaled body.thresholdGram))
    reasons := []
    createdAt := body.createdAt }

/-- Outcome of `POST /ingest/reconciliation-alert`. -/
inductive ReconAlertResult where
  | invalidRequest
  | accepted (alertId : String)
deriving DecidableEq

/-- Modelled from the spec: `POST /ingest/reconciliation-alert` is in the
spec's API surface and exercised by the risk-stream tests, but the route
is absent from the risk-stream server under `src/`.  Modelled behaviour:
a body whose `runId` is non-blank and whose `absMismatchGram` and
`thresholdGram` match the amount grammar stores the alert of
`reconciliationAlert` and replies 202 `{ accepted, alertId }`; anything
else is 400 `invalid_request` with nothing stored. -/
def ingestReconciliationAlertHandler (k : Nat) (store : RiskStore)
    (body : IngestReconciliationAlertRequest) : ReconAlertResult × RiskStore :=
  if isNonEmptyString body.runId && isAmountGram body.absMismatchGram &&
      isAmountGram body.thresholdGram then
    (.accepted (reconciliationAlert k body).alertId,
      { store with alerts := store.alerts ++ [reconciliationAlert k body] })
  else (.invalidRequest, store)

/-! ## C9: reconciliation-alert ingest -/

/-- C9, acceptance: a well-formed body is answered 202 with
`alertId = "ALERT-RECON-" + runId` and exactly that alert appended:
`targetType = RECONCILIATION`, `targetId = runId`, score proportional to
`absMismatch/threshold` on scaled integers capped into `[0, 100]`, level
via the source score mapping. -/
def C9Alert : Prop :=
  ∀ (k : Nat) (store : RiskStore) (body : IngestReconciliationAlertRequest),
    isNonEmptyString body.runId = true →
    isAmountGram body.absMismatchGram = true →
    isAmountGram body.thresholdGram = true →
    ingestReconciliationAlertHandler k store body =
      (.accepted ("ALERT-RECON-" ++ body.runId),
        { store with alerts := store.alerts ++ [reconciliationAlert k body] }) ∧
    (reconciliationAlert k body).alertId = "ALERT-RECON-" ++ body.runId ∧
    (reconciliationAlert k body).targetType = RiskAlertTarget.RECONCILIATION ∧
    (reconciliationAlert k body).targetId = body.runId ∧
    (reconciliationAlert k body).createdAt = body.createdAt ∧
    (reconciliationAlert k body).score =
      normalizeScore (((k * parseAmountGramScaled body.absMismatchGram /
        parseAmountGramScaled body.thresholdGram : Nat) : Int)) ∧
    0 ≤ (reconciliationAlert k body).score ∧
    (reconciliationAlert k body).score ≤ 100 ∧
    (reconciliationAlert k body).level =
      computeRiskLevel (reconciliationAlert k body).score

/-- C9, rejection: a body failing validation is answered 400 with nothing
stored. -/
def C9Reject : Prop :=
  ∀ (k : Nat) (store : RiskStore) (body : IngestReconciliationAlertRequest),
    (isNonEmptyString body.runId && isAmountGram body.absMismatchGram &&
      isAmountGram body.thresholdGram) = false →
    ingestReconciliationAlertHandler k store body = (.invalidRequest, store)

/-- C9 (reconciliation-alert ingest): every request carrying a run id and
well-formed mismatch/threshold figures stores an alert with
`alertId = "ALERT-RECON-" + runId`, `targetType = RECONCILIATION`,
`targetId = runId`, a score proportional to `absMismatchGram /
thresholdGram` capped at 100, and a level derived from the score mapping,
answering 202; the route is absent from the risk-stream server under
`src/` and is modelled from the spec (see
`ingestReconciliationAlertHandler`). -/
theorem C9_reconciliation_alert : C9Alert ∧ C9Reject := by
  constructor
  · intro k store body h1 h2 h3
    refine ⟨?_, ?_, ?_, ?_, ?_, ?_, ?_, ?_, ?_⟩
    · simp [ingestReconciliationAlertHandler, reconciliationAlert, h1, h2, h3]
    · rfl
    · rfl
    · rfl
    · rfl
    · rfl
    · show 0 ≤ reconciliationAlertScore k (parseAmountGramScaled body.absMismatchGram)
        (parseAmountGramScaled body.thresholdGram)
      unfold reconciliationAlertScore normalizeScore
      omega
    · show reconciliationAlertScore k (parseAmountGramScaled body.absMismatchGram)
        (parseAmountGramScaled body.thresholdGram) ≤ 100
      unfold reconciliationAlertScore normalizeScore
      omega
    · rfl
  · intro k store body h
    simp only [ingestReconciliationAlertHandler, h]
    rfl

/-- The alert body the reconciliation service publishes in the risk-stream
test scenario. -/
def toyReconAlertBody : IngestReconciliationAlertRequest :=
  { runId := "RECON-RUN-1", mismatchGram := "1.2500", absMismatchGram := "1.2500",
    thresholdGram := "0.5000", freezeTriggered := true,
    createdAt := "2026-01-01T00:00:00.000Z" }

/-- C9 at the test scenario: mismatch 1.2500 g against threshold 0.5000 g
is accepted as `ALERT-RECON-RECON-RUN-1` with the score capped at 100 and
level HIGH (proportionality constant 100 per unit ratio). -/
theorem C9_reconciliation_alert_witness :
    (isNonEmptyString toyReconAlertBody.runId = true ∧
      isAmountGram toyReconAlertBody.absMismatchGram = true ∧
      isAmountGram toyReconAlertBody.thresholdGram = true) ∧
    ingestReconciliationAlertHandler 100 ⟨[], [], [], []⟩ toyReconAlertBody =
      (.accepted "ALERT-RECON-RECON-RUN-1",
        ⟨[], [], [], [reconciliationAlert 100 toyReconAlertBody]⟩) ∧
    (reconciliationAlert 100 toyReconAlertBody).targetType =
      RiskAlertTarget.RECONCILIATION ∧
    (reconciliationAlert 100 toyReconAlertBody).targetId = "RECON-RUN-1" ∧
    (reconciliationAlert 100 toyReconAlertBody).score = 100 ∧
    (reconciliationAlert 100 toyReconAlertBody).level = RiskLevel.HIGH := by
  refine ⟨⟨by decide, by decide, by decide⟩, ?_, by decide, by decide, by decide,
    by decide⟩
  have h := (C9_reconciliation_alert.1 100 ⟨[], [], [], []⟩ toyReconAlertBody
    (by decide) (by decide) (by decide)).1
  rw [h]
  rfl

/-! ## C10: listing-audit ingest rejects DISPUTE_OPENED -/

/-- C10, validator gate: a validated wire event's `type` is one of
exactly `CREATED`, `LOCKED`, `SETTLED`, `CANCELLED` — in particular never
the public union member `DISPUTE_OPENED`. -/
def C10UnionGate : Prop :=
  ∀ (dateOk : String → Bool) (e : WireListingAuditEvent),
    isListingAuditEventW dateOk e = true →
    (e.type = "CREATED" ∨ e.type = "LOCKED" ∨ e.type = "SETTLED" ∨
      e.type = "CANCELLED") ∧
    e.type ≠ listingAuditEventTypeName ListingAuditEventType.DISPUTE_OPENED

/-- C10, rejection: a `DISPUTE_OPENED` event is answered 400
`invalid_request` with the store — audit rows, both profile tables and
alerts — fully unchanged, for every date oracle and every profile
recomputation. -/
def C10Rejects : Prop :=
  ∀ (dateOk : String → Bool) (recalc : RiskStore → String → RiskStore)
    (store : RiskStore) (body : WireIngestListingRequest),
    body.event.type = "DISPUTE_OPENED" →
    ingestListingAuditHandler dateOk recalc store body = (.invalidRequest, store)

/-- C10, acceptance shape: a body that parses is answered 202 with its
listing id, the row appended with the resolved certificate id, and the
profile recomputation run on the result. -/
def C10Accepts : Prop :=
  ∀ (dateOk : String → Bool) (recalc : RiskStore → String → RiskStore)
    (store : RiskStore) (body : WireIngestListingRequest),
    (parseIngestListingRequest dateOk body).isSome = true →
    ingestListingAuditHandler dateOk recalc store body =
      (.acceptedListing body.event.listingId,
        recalc (appendListingAuditEvent store body.event
          (resolveListingCertId store body)) body.event.listingId)

/-- C10, append semantics: a fresh event id is appended as a row
(`ON CONFLICT(event_id) DO NOTHING` otherwise). -/
def C10Append : Prop :=
  ∀ (store : RiskStore) (e : WireListingAuditEvent) (certId : Option String),
    store.listingAudit.any (fun r => r.event.eventId == e.eventId) = false →
    appendListingAuditEvent store e certId =
      { store with listingAudit := store.listingAudit ++ [⟨e, certId⟩] }

/-- C10, audit growth: when the profile recomputation leaves the audit
rows alone (as the source `recalculateListingProfile` does — it only
upserts profiles and inserts alerts), an accepted fresh event leaves the
audit log grown by exactly that row. -/
def C10AuditGrows : Prop :=
  ∀ (dateOk : String → Bool) (recalc : RiskStore → String → RiskStore)
    (store : RiskStore) (body : WireIngestListingRequest),
    (∀ (s : RiskStore) (lid : String), (recalc s lid).listingAudit = s.listingAudit) →
    (parseIngestListingRequest dateOk body).isSome = true →
    store.listingAudit.any (fun r => r.event.eventId == body.event.eventId) = false →
    (ingestListingAuditHandler dateOk recalc store body).2.listingAudit =
      store.listingAudit ++ [⟨body.event, resolveListingCertId store body⟩]

/-- C10 (listing-audit ingest rejects `DISPUTE_OPENED`): every
`POST /ingest/listing-audit-event` whose `event.type` is
`"DISPUTE_OPENED"` (a member of the public `ListingAuditEventType`
union, see `listingAuditEventTypeName`) is rejected 400 `invalid_request`
with nothing appended to the audit log and no profile or alert changed;
only `CREATED`, `LOCKED`, `SETTLED` and `CANCELLED` events pass the
validator, and an accepted event is answered 202 and appended. -/
theorem C10_dispute_opened_rejected :
    C10UnionGate ∧ C10Rejects ∧ C10Accepts ∧ C10Append ∧ C10AuditGrows := by
  have haccepts : C10Accepts := by
    intro dateOk recalc store body hparse
    have hp : parseIngestListingRequest dateOk body = some body := by
      cases hval : isListingAuditEventW dateOk body.event with
      | false => simp [parseIngestListingRequest, hval] at hparse
      | true =>
          cases hl : body.listing with
          | none => simp [parseIngestListingRequest, hval, hl]
          | some l =>
              cases hil : (isNonEmptyString l.listingId && isNonEmptyString l.certId) with
              | false => simp [parseIngestListingRequest, hval, hl, hil] at hparse
              | true => simp [parseIngestListingRequest, hval, hl, hil]
    simp [ingestListingAuditHandler, hp]
  have happend : C10Append := by
    intro store e certId h
    simp [appendListingAuditEvent, h]
  refine ⟨?_, ?_, haccepts, happend, ?_⟩
  · intro dateOk e h
    simp only [isListingAuditEventW, Bool.and_eq_true] at h
    obtain ⟨⟨⟨⟨h1, h2⟩, h3⟩, h4⟩, h5⟩ := h
    simp only [Bool.or_eq_true, beq_iff_eq] at h4
    refine ⟨by tauto, ?_⟩
    rcases h4 with ((h4 | h4) | h4) | h4 <;> rw [h4] <;> decide
  · intro dateOk recalc store body h
    have hval : isListingAuditEventW dateOk body.event = false := by
      have e1 : (body.event.type == "CREATED") = false := by
        rw [h]; decide
      have e2 : (body.event.type == "LOCKED") = false := by
        rw [h]; decide
      have e3 : (body.event.type == "SETTLED") = false := by
        rw [h]; decide
      have e4 : (body.event.type == "CANCELLED") = false := by
        rw [h]; decide
      simp [isListingAuditEventW, e1, e2, e3, e4]
    simp [ingestListingAuditHandler, parseIngestListingRequest, hval]
  · intro dateOk recalc store body hrec hparse hfresh
    rw [haccepts dateOk recalc store body hparse]
    show (recalc (appendListingAuditEvent store body.event
      (resolveListingCertId store body)) body.event.listingId).listingAudit = _
    rw [hrec]
    rw [happend store body.event (resolveListingCertId store body) hfresh]

/-- A `DISPUTE_OPENED` wire event as the dispute orchestrator would fan
it out. -/
def toyDisputeEvent : WireListingAuditEvent :=
  { eventId := "EVT-9", listingId := "LST-1", type := "DISPUTE_OPENED",
    actor := some "buyer-1", occurredAt := "2026-01-01T00:00:05.000Z",
    details := none }

/-- A valid `CREATED` wire event. -/
def toyCreatedEvent : WireListingAuditEvent :=
  { eventId := "EVT-1", listingId := "LST-1", type := "CREATED",
    actor := some "seller-1", occurredAt := "2026-01-01T00:00:01.000Z",
    details := none }

/-- C10 at concrete inputs (date oracle constantly true, profile
recomputation the identity): the `DISPUTE_OPENED` ingest is rejected with
an untouched empty store; the `CREATED` ingest with a listing reference
is accepted and appends the row with its certificate id. -/
theorem C10_dispute_opened_rejected_witness :
    (toyDisputeEvent.type = "DISPUTE_OPENED" ∧
      ingestListingAuditHandler (fun _ => true) (fun s _ => s) ⟨[], [], [], []⟩
        ⟨toyDisputeEvent, none⟩ = (.invalidRequest, ⟨[], [], [], []⟩)) ∧
    ((parseIngestListingRequest (fun _ => true)
        ⟨toyCreatedEvent, some ⟨"LST-1", "DGC-1"⟩⟩).isSome = true ∧
      ingestListingAuditHandler (fun _ => true) (fun s _ => s) ⟨[], [], [], []⟩
        ⟨toyCreatedEvent, some ⟨"LST-1", "DGC-1"⟩⟩ =
        (.acceptedListing "LST-1",
          ⟨[⟨toyCreatedEvent, some "DGC-1"⟩], [], [], []⟩)) := by
  refine ⟨⟨rfl, ?_⟩, ⟨by decide, ?_⟩⟩
  · exact C10_dispute_opened_rejected.2.1 (fun _ => true) (fun s _ => s)
      ⟨[], [], [], []⟩ ⟨toyDisputeEvent, none⟩ rfl
  · have h := C10_dispute_opened_rejected.2.2.1 (fun _ => true) (fun s _ => s)
      ⟨[], [], [], []⟩ ⟨toyCreatedEvent, some ⟨"LST-1", "DGC-1"⟩⟩ (by decide)
    rw [h]
    rfl

end DGC
